import Mathlib

/-!
# The SQL adaptation shim of `config/sql.js`

A shallow embedding of the placeholder translator (`toTsql`), the parameter
binder (`bindParams`), the retrying connector (`connect`), the accessor `getDb`
and the query path (`getDb().query`), then of the code around it that the
properties mention (the shutdown handler of `server.js`, the queries of the
product, category and inviter routes, the creation, status change and
cancellation of an order, the rate limiter configuration, the generated daily
tasks, the matching of products to an image analysis), followed by the
properties established about them.

JavaScript strings are modelled by `String`; the only character the translator
inspects is `?`, a single code unit, so the character-level view is exact.
-/

namespace SqlShim

/-! ## Placeholder translation (`toTsql`, sql.js lines 4-7) -/

/-- The text the replacement callback returns when the counter holds `i`: the
template literal `@p${i}`. -/
def marker (i : Nat) : List Char :=
  '@' :: 'p' :: (Nat.repr i).data

/-- The global replace `sqlText.replace(/\?/g, () => ...)` seen as a left to right
scan: `i` is the closure counter, read and then incremented at every match. -/
def toTsqlFrom : Nat → List Char → List Char
  | _, [] => []
  | i, c :: cs =>
    if c = '?' then marker i ++ toTsqlFrom (i + 1) cs
    else c :: toTsqlFrom i cs

/-- The function `toTsql(sqlText)`: the counter starts at `0`. -/
def toTsql (sqlText : String) : String :=
  ⟨toTsqlFrom 0 sqlText.data⟩

/-- Number of `?` characters of a template. -/
def countQ (l : List Char) : Nat :=
  l.count '?'

/-- The inserted marker texts for counters `i, i+1, ..., i+n-1`. -/
def markersFrom (i n : Nat) : List (List Char) :=
  (List.range' i n).map marker

/-- Alternates text segments with separators: `s₀ ++ m₀ ++ s₁ ++ m₁ ++ ...`. -/
def weave : List (List Char) → List (List Char) → List Char
  | [], _ => []
  | s :: _, [] => s
  | s :: ss, m :: ms => s ++ m ++ weave ss ms

/-- One step of reading a decimal digit string back into its value. -/
def digitStep (a : Nat) (c : Char) : Nat :=
  a * 10 + (c.toNat - 48)

/-! ## Runtime values handed to the binder -/

/-- A JavaScript number. A finite double is represented by its exact rational
value (every finite double is a rational); the signed zero and the three
non-finite values are kept apart. -/
inductive JsNumber
  | finite (q : ℚ)
  | negZero
  | nan
  | posInf
  | negInf
  deriving DecidableEq

/-- A JavaScript value as `bindParams` can observe it. Objects and functions are
represented by the outcome of their string conversion, which is all the binder
ever reads of them: the text it yields, or `none` when it throws (an object whose
`toString` and `valueOf` give no primitive, such as the parsed JSON
`{"toString": 1}`). -/
inductive JsVal
  | null
  | undefined
  | number (x : JsNumber)
  | boolean (b : Bool)
  | string (s : String)
  | bigint (n : Int)
  | symbol (description : String)
  | object (text : Option String)
  | func (text : Option String)
  deriving DecidableEq

/-- The `typeof` operator. -/
def typeof : JsVal → String
  | .null => "object"
  | .undefined => "undefined"
  | .number _ => "number"
  | .boolean _ => "boolean"
  | .string _ => "string"
  | .bigint _ => "bigint"
  | .symbol _ => "symbol"
  | .object _ => "object"
  | .func _ => "function"

/-- The builtin `Number.isInteger(val)`: true exactly for numbers that are finite and equal
to their own floor. -/
def Number.isInteger : JsVal → Bool
  | .number (.finite q) => q.isInt
  | .number .negZero => true
  | _ => false

/-- What the shim can fail with: the error it constructs itself at line 38, an
error raised by the driver, or a `TypeError` of the language. -/
inductive JsError
  | configuration (message : String)
  | driver (message : String)
  | typeError (message : String)
  deriving DecidableEq

/-- The `TypeError` of a string conversion that finds no primitive. -/
def conversionError : JsError :=
  .typeError "Cannot convert object to primitive value"

/-- The conversion `String(val)`, which throws for an object or function without
a usable `toString` and `valueOf`. The rendering of numbers is the language's
`Number::toString`, taken as the parameter `numberToString`. -/
def StringOf (numberToString : JsNumber → String) : JsVal → Except JsError String
  | .null => .ok "null"
  | .undefined => .ok "undefined"
  | .number x => .ok (numberToString x)
  | .boolean true => .ok "true"
  | .boolean false => .ok "false"
  | .string s => .ok s
  | .bigint n => .ok (toString n)
  | .symbol d => .ok ("Symbol(" ++ d ++ ")")
  | .object (some t) => .ok t
  | .object none => .error conversionError
  | .func (some t) => .ok t
  | .func none => .error conversionError

/-! ## Parameter binding (`bindParams`, sql.js lines 9-22) -/

/-- The driver column types the binder chooses among (`sql.NVarChar`, `sql.Int`,
`sql.Float`, `sql.Bit`). -/
inductive SqlType
  | NVarChar
  | Int
  | Float
  | Bit
  deriving DecidableEq

/-- One recorded `request.input(name, type, value)` call. -/
structure Binding where
  name : String
  type : SqlType
  value : JsVal
  deriving DecidableEq

/-- A driver request: the input bindings declared on it so far, oldest first. -/
structure Request where
  inputs : List Binding
  deriving DecidableEq

/-- The call `request.input(name, type, value)` declares one more input parameter. -/
def Request.input (request : Request) (name : String) (type : SqlType) (value : JsVal) :
    Request :=
  ⟨request.inputs ++ [⟨name, type, value⟩]⟩

/-- The callback `(val, idx) => { ... }` of lines 10-21: the request with one more
input, or the error `String(val)` throws at line 19. -/
def bindCallback (numberToString : JsNumber → String) (request : Request)
    (val : JsVal) (idx : Nat) : Except JsError Request :=
  let name := "p" ++ Nat.repr idx
  if val = .null ∨ val = .undefined then
    .ok (request.input name .NVarChar .null)
  else if typeof val = "number" then
    .ok (request.input name (if Number.isInteger val then .Int else .Float) val)
  else if typeof val = "boolean" then
    .ok (request.input name .Bit val)
  else
    match StringOf numberToString val with
    | .error e => .error e
    | .ok text => .ok (request.input name .NVarChar (.string text))

/-- How a run of `bindParams` ends: the request as the run leaves it, and the
error the run throws, if it throws. -/
structure BindResult where
  request : Request
  thrown : Option JsError
  deriving DecidableEq

/-- The iteration `params.forEach(callback)` from index `idx` on; `params` is a
dense array, so every index is visited, in increasing order, until the callback
throws. -/
def bindParamsFrom (numberToString : JsNumber → String) :
    Nat → List JsVal → Request → BindResult
  | _, [], request => ⟨request, none⟩
  | idx, val :: rest, request =>
    match bindCallback numberToString request val idx with
    | .error e => ⟨request, some e⟩
    | .ok request1 => bindParamsFrom numberToString (idx + 1) rest request1

/-- The function `bindParams(request, params)`. -/
def bindParams (numberToString : JsNumber → String) (request : Request)
    (params : List JsVal) : BindResult :=
  bindParamsFrom numberToString 0 params request

/-- The same callback with the boolean test written before the numeric test. -/
def bindCallbackBooleanFirst (numberToString : JsNumber → String) (request : Request)
    (val : JsVal) (idx : Nat) : Except JsError Request :=
  let name := "p" ++ Nat.repr idx
  if val = .null ∨ val = .undefined then
    .ok (request.input name .NVarChar .null)
  else if typeof val = "boolean" then
    .ok (request.input name .Bit val)
  else if typeof val = "number" then
    .ok (request.input name (if Number.isInteger val then .Int else .Float) val)
  else
    match StringOf numberToString val with
    | .error e => .error e
    | .ok text => .ok (request.input name .NVarChar (.string text))

/-- Whether `String(val)` returns: it does for every value but an object or a
function whose conversion to a primitive throws. -/
def converts : JsVal → Bool
  | .object none => false
  | .func none => false
  | _ => true

/-- The binding the binder is expected to issue for `params[idx] = val`,
written out case by case on the kind of value; `none` when the value has no
string conversion, so that nothing can be bound for it. -/
def expectedBinding (idx : Nat) : JsVal → Option Binding
  | .null => some ⟨"p" ++ Nat.repr idx, .NVarChar, .null⟩
  | .undefined => some ⟨"p" ++ Nat.repr idx, .NVarChar, .null⟩
  | .number (.finite q) =>
    some ⟨"p" ++ Nat.repr idx, if Int.fract q = 0 then .Int else .Float,
      .number (.finite q)⟩
  | .number .negZero => some ⟨"p" ++ Nat.repr idx, .Int, .number .negZero⟩
  | .number x => some ⟨"p" ++ Nat.repr idx, .Float, .number x⟩
  | .boolean b => some ⟨"p" ++ Nat.repr idx, .Bit, .boolean b⟩
  | .string s => some ⟨"p" ++ Nat.repr idx, .NVarChar, .string s⟩
  | .bigint n => some ⟨"p" ++ Nat.repr idx, .NVarChar, .string (toString n)⟩
  | .symbol d => some ⟨"p" ++ Nat.repr idx, .NVarChar, .string ("Symbol(" ++ d ++ ")")⟩
  | .object text => text.map (fun t => ⟨"p" ++ Nat.repr idx, .NVarChar, .string t⟩)
  | .func text => text.map (fun t => ⟨"p" ++ Nat.repr idx, .NVarChar, .string t⟩)

/-! ## Errors, pools and the query path (`getDb().query`, sql.js lines 57-63) -/

/-- A result row: column alias to value. -/
abbrev Row := List (String × JsVal)

/-- What `request.query` resolves to: `recordset` may be absent. -/
structure QueryResult where
  recordset : Option (List Row)

/-- A connection pool of the driver. `run request tsql` is the outcome of
`request.query(tsql)` for a request created from this pool: the failure message
if the driver rejects, the result otherwise. -/
structure Pool where
  ident : Nat
  run : Request → String → Except String QueryResult

/-- The call `_pool.request()`: a fresh request without inputs. -/
def Pool.request (_pool : Pool) : Request :=
  ⟨[]⟩

/-- The `query(q, params)` method of the handle (both copies in `getDb` are the
same text); `_pool` is the module variable it closes over. An error thrown by
`bindParams` ends the call before the driver is reached. -/
def query (numberToString : JsNumber → String) (_pool : Option Pool) (q : String)
    (params : List JsVal) : Except JsError (List Row) :=
  let tsql := toTsql q
  match _pool with
  | none => .error (.typeError "Cannot read properties of undefined (reading 'request')")
  | some pool =>
    let request := pool.request
    let bound := bindParams numberToString request params
    match bound.thrown with
    | some e => .error e
    | none =>
      match pool.run bound.request tsql with
      | .error e => .error (.driver e)
      | .ok res => .ok (res.recordset.getD [])

/-! ## Connecting with retries (`connect`, sql.js lines 24-52) -/

/-- The environment variables `connect` reads; an unset variable is `none`. -/
structure Env where
  DB_SERVER : Option String
  DB_DATABASE : Option String
  DB_USER : Option String
  DB_PASSWORD : Option String
  DB_PORT : Option String
  DB_ENCRYPT : Option String
  DB_TRUST_SERVER_CERTIFICATE : Option String

/-- The object built at lines 25-35. `port` keeps the text that is handed to
`parseInt(_, 10)`. -/
structure Config where
  server : Option String
  database : Option String
  user : Option String
  password : Option String
  port : Option String
  encrypt : Bool
  trustServerCertificate : Bool

/-- Lines 25-35. -/
def mkConfig (env : Env) : Config :=
  Config.mk env.DB_SERVER env.DB_DATABASE env.DB_USER env.DB_PASSWORD env.DB_PORT
    (decide (env.DB_ENCRYPT = some "true"))
    (decide (env.DB_TRUST_SERVER_CERTIFICATE = some "true"))

/-- The `!x` test on an environment value: true for `undefined` and for `""`. -/
def falsy : Option String → Bool
  | none => true
  | some s => s = ""

/-- Observable steps of a run of `connect`: the `i`-th call of `sql.connect`
(0-based) and a `setTimeout` wait. -/
inductive Event
  | attempt (i : Nat)
  | wait (ms : Nat)
  deriving DecidableEq

/-- The `for` loop of lines 41-51, entered with loop variable `i` and the events
seen so far. `sqlConnect config i` is the outcome of the call made in iteration
`i`: a failure message or a pool. Falling out of the loop returns `undefined`
(`none`). The two console messages are not part of the model. -/
def connectLoop (sqlConnect : Config → Nat → Except String Pool) (config : Config)
    (retries : Int) (delayMs : Nat) (i : Nat) (trace : List Event) :
    Except JsError (Option Pool) × List Event :=
  if (i : Int) < retries then
    match sqlConnect config i with
    | .ok pool => (.ok (some pool), trace ++ [.attempt i])
    | .error e =>
      if (i : Int) = retries - 1 then (.error (.driver e), trace ++ [.attempt i])
      else connectLoop sqlConnect config retries delayMs (i + 1)
        (trace ++ [.attempt i, .wait delayMs])
  else (.ok none, trace)
termination_by (retries - i).toNat
decreasing_by omega

/-- The function `connect(retries, delayMs)`: the result together with the events of the run. -/
def connect (env : Env) (sqlConnect : Config → Nat → Except String Pool)
    (retries : Int) (delayMs : Nat) : Except JsError (Option Pool) × List Event :=
  let config := mkConfig env
  if falsy config.user ∨ falsy config.password then
    (.error (.configuration "DB_USER and DB_PASSWORD are required"), [])
  else connectLoop sqlConnect config retries delayMs 0 []

/-- Default value of the parameter `retries`. -/
def defaultRetries : Int := 3

/-- Default value of the parameter `delayMs`. -/
def defaultDelayMs : Nat := 500

/-- Number of `sql.connect` calls recorded in a trace. -/
def attempts (trace : List Event) : Nat :=
  trace.countP (fun ev => match ev with | .attempt _ => true | .wait _ => false)

/-- The events of a run in which attempts `i, ..., i + k` all fail and the last
of them is the final one allowed: a wait after each but the last. -/
def exhaustedTrace (delayMs : Nat) : Nat → Nat → List Event
  | i, 0 => [.attempt i]
  | i, k + 1 => .attempt i :: .wait delayMs :: exhaustedTrace delayMs (i + 1) k

/-- Number of `setTimeout` waits recorded in a trace. -/
def waits (trace : List Event) : Nat :=
  trace.countP (fun ev => match ev with | .attempt _ => false | .wait _ => true)

/-- The `query` method again, together with the invocations of the driver's
`request.query` it makes: each is recorded with the request and the statement it
is given. -/
def queryTraced (numberToString : JsNumber → String) (_pool : Option Pool) (q : String)
    (params : List JsVal) : Except JsError (List Row) × List (Request × String) :=
  let tsql := toTsql q
  match _pool with
  | none => (.error (.typeError "Cannot read properties of undefined (reading 'request')"), [])
  | some pool =>
    let request := pool.request
    let bound := bindParams numberToString request params
    match bound.thrown with
    | some e => (.error e, [])
    | none =>
      match pool.run bound.request tsql with
      | .error e => (.error (.driver e), [(bound.request, tsql)])
      | .ok res => (.ok (res.recordset.getD []), [(bound.request, tsql)])

/-! ## The connection accessor (`getDb`, sql.js lines 54-76) -/

/-- The object `getDb` returns: which object it is, and its one method `query`.
The method reads the module variable `_pool` when it runs; that value is its
first argument here. -/
structure Handle where
  ident : Nat
  query : Option Pool → String → List JsVal → Except JsError (List Row)

/-- The object literal of lines 56-64 and of lines 67-75 (the same text). Every
evaluation of it builds a new object; `obj` is the identity of the one built. -/
def handle (numberToString : JsNumber → String) (obj : Nat) : Handle :=
  ⟨obj, query numberToString⟩

/-- State of the module `config/sql.js` and of the driver behind it: the variable
`_pool` (line 2), how many times `sql.connect` has been called so far, the pools
these calls have produced (oldest first) and the events of all `connect` runs. -/
structure Module where
  _pool : Option Pool
  calls : Nat
  created : List Pool
  events : List Event

/-- Lines 66-75: `_pool = await connect()` followed by the return of the handle.
The `i`-th call of this run is the call number `calls + i` of the process. A
failing `connect` leaves `_pool` as it was. The object returned is the one with
identity `obj`. -/
def getDbConnect (numberToString : JsNumber → String) (env : Env)
    (sqlConnect : Config → Nat → Except String Pool) (obj : Nat) (m : Module) :
    Except JsError Handle × Module :=
  match connect env (fun config i => sqlConnect config (m.calls + i))
      defaultRetries defaultDelayMs with
  | (.ok pool, trace) =>
    (.ok (handle numberToString obj),
      ⟨pool, m.calls + attempts trace, m.created ++ pool.toList, m.events ++ trace⟩)
  | (.error e, trace) =>
    (.error e, ⟨m._pool, m.calls + attempts trace, m.created, m.events ++ trace⟩)

/-- The function `getDb()`, run without any other call of it in between; `obj`
is the identity of the object this call builds for its result, different from
one call to the next. -/
def getDb (numberToString : JsNumber → String) (env : Env)
    (sqlConnect : Config → Nat → Except String Pool) (obj : Nat) (m : Module) :
    Except JsError Handle × Module :=
  match m._pool with
  | some _ => (.ok (handle numberToString obj), m)
  | none => getDbConnect numberToString env sqlConnect obj m

/-! ### Overlapping calls of `getDb` -/

/-- Where one call of `getDb` stands: not started, suspended at
`await connect()` after finding `_pool` unset at line 55, or returned. -/
inductive Status
  | fresh
  | awaiting
  | returned (result : Except JsError Handle)

/-- The module together with the calls of `getDb` in progress. -/
structure World where
  state : Module
  tasks : List Status

/-- The two atomic pieces of a call: `enter t` runs call `t` up to its first
suspension (the test of line 55), `settle t` resumes it when its `connect` has
settled (the assignment of line 66 and the return). -/
inductive Step
  | enter (t : Nat)
  | settle (t : Nat)

/-- One scheduling step. The `connect` run of a suspended call is accounted for
when the call settles. Call `t` builds the object with identity `t`. -/
def step (numberToString : JsNumber → String) (env : Env)
    (sqlConnect : Config → Nat → Except String Pool) (w : World) : Step → World
  | .enter t =>
    match w.tasks[t]? with
    | some .fresh =>
      match w.state._pool with
      | some _ => ⟨w.state, w.tasks.set t (.returned (.ok (handle numberToString t)))⟩
      | none => ⟨w.state, w.tasks.set t .awaiting⟩
    | _ => w
  | .settle t =>
    match w.tasks[t]? with
    | some .awaiting =>
      ⟨(getDbConnect numberToString env sqlConnect t w.state).2,
        w.tasks.set t (.returned (getDbConnect numberToString env sqlConnect t w.state).1)⟩
    | _ => w

/-- A schedule run from a world. -/
def run (numberToString : JsNumber → String) (env : Env)
    (sqlConnect : Config → Nat → Except String Pool) (w : World) (schedule : List Step) :
    World :=
  schedule.foldl (step numberToString env sqlConnect) w

/-! ## Shutdown (`closeGracefully`, server.js lines 177-192) -/

/-- The keys of `module.exports = { sql, getDb }` (sql.js line 78). -/
def sqlModuleExports : List String :=
  ["sql", "getDb"]

/-- The two signals `closeGracefully` is registered for (lines 191-192). -/
inductive Signal
  | SIGTERM
  | SIGINT
  deriving DecidableEq

/-- Observable steps of a shutdown: the signal is logged, `app.close()` is awaited,
the pool is closed, the process exits with a code. -/
inductive ShutdownEvent
  | received (signal : Signal)
  | appClose
  | closePool
  | exit (code : Nat)
  deriving DecidableEq

/-- The handler `closeGracefully(signal)`; `appClose` is the outcome of
`await app.close()`. Destructuring `closePool` out of the exports of `config/sql`
gives `undefined` unless that key is exported, and calling `undefined` throws a
`TypeError`, which the `catch` of line 185 turns into `process.exit(1)`. An
exported `closePool` is taken to resolve. -/
def closeGracefully (appClose : Except String Unit) (signal : Signal) : List ShutdownEvent :=
  match appClose with
  | .error _ => [.received signal, .appClose, .exit 1]
  | .ok _ =>
    if "closePool" ∈ sqlModuleExports then
      [.received signal, .appClose, .closePool, .exit 0]
    else
      [.received signal, .appClose, .exit 1]

/-! ## The queries of `GET /api/products` (productRoutes.js lines 9-109) -/

/-- What the handler reads from `request.query`, with the numbers it computes
from it: `categoryIdInt` is `parseInt(categoryId, 10)`, `offset` is
`(parseInt(page, 10) - 1) * parseInt(limit, 10)` and `limitInt` is
`parseInt(limit, 10)`. -/
structure ProductsRequest where
  categoryId : Option String
  featured : Option String
  categoryIdInt : JsVal
  offset : JsVal
  limitInt : JsVal

/-- The test `if (x)` on a query-string value: false for `undefined` and `""`. -/
def truthy (x : Option String) : Bool :=
  !falsy x

/-- Lines 15-23: the `WHERE` text and the values collected for it. -/
def productsWhere (r : ProductsRequest) : String × List JsVal :=
  let where0 := "p.IsActive = 1"
  let params0 : List JsVal := []
  let step1 : String × List JsVal :=
    if truthy r.categoryId then
      (where0 ++ " AND p.CategoryId = ?", params0 ++ [r.categoryIdInt])
    else (where0, params0)
  let where2 :=
    if r.featured = some "true" then step1.1 ++ " AND p.IsFeatured = 1" else step1.1
  (where2, step1.2)

/-- The template of lines 25-46 up to `${where}`. -/
def listHead : String :=
  "\n          SELECT \n" ++
  "            p.ProductId AS _id,\n" ++
  "            p.Name AS name,\n" ++
  "            p.Slug AS slug,\n" ++
  "            p.Description AS description,\n" ++
  "            p.Brand AS brand,\n" ++
  "            p.Price AS price,\n" ++
  "            p.Currency AS currency,\n" ++
  "            p.Stock AS stock,\n" ++
  "            p.Rating AS rating,\n" ++
  "            p.IsActive AS isActive,\n" ++
  "            p.IsFeatured AS isFeatured,\n" ++
  "            c.Name AS categoryName,\n" ++
  "            c.Slug AS categorySlug,\n" ++
  "            c.Icon AS categoryIcon\n" ++
  "          FROM dbo.Products p\n" ++
  "          LEFT JOIN dbo.Categories c ON c.CategoryId = p.CategoryId\n" ++
  "          WHERE "

/-- The template of lines 25-46 after `${where}`. -/
def listTail : String :=
  "\n          ORDER BY p.ProductId DESC\n" ++
  "          OFFSET ? ROWS FETCH NEXT ? ROWS ONLY\n" ++
  "        "

/-- The template of lines 52-57 up to `${placeholders}`. -/
def imageHead : String :=
  "\n          SELECT ProductId, ImagePath, DisplayOrder\n" ++
  "          FROM dbo.ProductImages\n" ++
  "          WHERE ProductId IN ("

/-- The template of lines 52-57 after `${placeholders}`. -/
def imageTail : String :=
  ")\n          ORDER BY DisplayOrder ASC\n" ++
  "        "

/-- The template of lines 85-89 up to `${where}`. -/
def totalHead : String :=
  "\n        SELECT COUNT(*) AS total\n" ++
  "        FROM dbo.Products p\n" ++
  "        WHERE "

/-- The template of lines 85-89 after `${where}`. -/
def totalTail : String :=
  "\n      "

/-- The call `db.query(..., [...params, offset, parseInt(limit, 10)])` of lines
25-46: template and values. -/
def listQuery (r : ProductsRequest) : String × List JsVal :=
  (listHead ++ (productsWhere r).1 ++ listTail,
    (productsWhere r).2 ++ [r.offset, r.limitInt])

/-- Lines 50-57: for a non-empty list of ids, the call `db.query(..., ids)` whose
`IN` list is `ids.map(() => '?').join(',')`; no call for an empty list. -/
def imageQuery (ids : List JsVal) : Option (String × List JsVal) :=
  if ids.length > 0 then
    some (imageHead ++ ",".intercalate (ids.map (fun _ => "?")) ++ imageTail, ids)
  else none

/-- The call `db.query(...)` of lines 85-89: it is given the template only, so the
values are the default `[]` of `query(q, params = [])`. -/
def totalQuery (r : ProductsRequest) : String × List JsVal :=
  (totalHead ++ (productsWhere r).1 ++ totalTail, [])

/-- The calls of `db.query` the handler makes, in order, when none of them fails;
`ids` are the `_id` of the rows the list query returned. -/
def productsQueries (r : ProductsRequest) (ids : List JsVal) : List (String × List JsVal) :=
  [listQuery r] ++ (imageQuery ids).toList ++ [totalQuery r]

/-- A call supplies as many values as its template has `?`. -/
def balanced (call : String × List JsVal) : Bool :=
  countQ call.1.data == call.2.length

/-! ## Cancelling an order (`DELETE /api/commandes/:id`, commandeRoutes.js lines 224-257) -/

/-- A product document: the paths of `productSchema` the order routes read.
Numbers are finite doubles, each kept as the rational it is. -/
structure Product where
  _id : Nat
  name : String
  price : ℚ
  stock : ℚ
  deriving DecidableEq

/-- One element of the path `products` of `commandeSchema` (lines 20-40). -/
structure OrderLine where
  productId : Nat
  nom : String
  quantite : ℚ
  prixUnitaire : ℚ
  total : ℚ
  deriving DecidableEq

/-- An order document: the paths declared by `commandeSchema` (the address and
the creation date play no part here). -/
structure Commande where
  _id : Nat
  userId : Nat
  statut : String
  products : List OrderLine
  totalCommande : ℚ
  deriving DecidableEq

/-- What the loop of lines 236-242 reads of an item. -/
structure Piece where
  pieceId : Nat
  quantite : ℚ
  deriving DecidableEq

/-- The property `commande.pieces`. The schema declares no path `pieces` (its
item list is `products`), so reading it on a document gives `undefined`. -/
def Commande.pieces (_commande : Commande) : Option (List Piece) :=
  none

/-- The two collections. -/
structure Store where
  products : List Product
  commandes : List Commande
  deriving DecidableEq

/-- A reply: status code, `success` flag and `message`. -/
structure Reply where
  code : Nat
  success : Bool
  message : String
  deriving DecidableEq

/-- The body of the loop, lines 237-241: the product is looked up, and if found its
stock is increased by the quantity and saved. -/
def restoreStock (db : Store) (item : Piece) : Store :=
  match db.products.find? (fun product => product._id = item.pieceId) with
  | none => db
  | some _ =>
    ⟨db.products.map (fun product =>
        if product._id = item.pieceId then
          ⟨product._id, product.name, product.price, product.stock + item.quantite⟩
        else product),
      db.commandes⟩

/-- The handler of `DELETE /:id`. Iterating `undefined` in `for (... of ...)` throws
a `TypeError`, which the `catch` of line 250 answers with status 500. -/
def deleteCommande (db : Store) (id : Nat) : Reply × Store :=
  match db.commandes.find? (fun commande => commande._id = id) with
  | none => (⟨404, false, "Commande non trouvée"⟩, db)
  | some commande =>
    match commande.pieces with
    | none => (⟨500, false, "Erreur lors de l'annulation de la commande"⟩, db)
    | some items =>
      let restored := items.foldl restoreStock db
      (⟨200, true, "Commande annulée et stock restauré"⟩,
        ⟨restored.products, restored.commandes.filter (fun other => other._id ≠ id)⟩)

/-! ## The accessor after a `connect` with explicit arguments -/

/-- Lines 66-75 with the call `connect()` given the arguments `retries` and
`delayMs` instead of its defaults. -/
def getDbConnectWith (numberToString : JsNumber → String) (env : Env)
    (sqlConnect : Config → Nat → Except String Pool) (retries : Int) (delayMs : Nat)
    (obj : Nat) (m : Module) : Except JsError Handle × Module :=
  match connect env (fun config i => sqlConnect config (m.calls + i)) retries delayMs with
  | (.ok pool, trace) =>
    (.ok (handle numberToString obj),
      ⟨pool, m.calls + attempts trace, m.created ++ pool.toList, m.events ++ trace⟩)
  | (.error e, trace) =>
    (.error e, ⟨m._pool, m.calls + attempts trace, m.created, m.events ++ trace⟩)

/-- The function `getDb` with the call `connect()` given explicit arguments. -/
def getDbWith (numberToString : JsNumber → String) (env : Env)
    (sqlConnect : Config → Nat → Except String Pool) (retries : Int) (delayMs : Nat)
    (obj : Nat) (m : Module) : Except JsError Handle × Module :=
  match m._pool with
  | some _ => (.ok (handle numberToString obj), m)
  | none => getDbConnectWith numberToString env sqlConnect retries delayMs obj m

/-! ## The image lookup of `GET /api/categories/:id/products` (categoryRoutes.js lines 165-180) -/

/-- The template of categoryRoutes.js lines 169-174 up to `${placeholders}`. -/
def categoryImageHead : String :=
  "\n            SELECT ProductId, ImagePath, DisplayOrder\n" ++
  "            FROM dbo.ProductImages\n" ++
  "            WHERE ProductId IN ("

/-- The template of categoryRoutes.js lines 169-174 after `${placeholders}`. -/
def categoryImageTail : String :=
  ")\n            ORDER BY DisplayOrder ASC\n" ++
  "          "

/-- Lines 167-174 of categoryRoutes.js: the same lookup as in the product list. -/
def categoryImageQuery (ids : List JsVal) : Option (String × List JsVal) :=
  if ids.length > 0 then
    some (categoryImageHead ++ ",".intercalate (ids.map (fun _ => "?")) ++ categoryImageTail,
      ids)
  else none

/-! ## The update of `PATCH /api/inviter/:id` (inviterRoutes.js lines 60-102) -/

/-- The updatable columns, in the order of lines 66-75. -/
def inviterFields : List String :=
  ["Baby_name", "Baby_age", "Baby_alimentation", "Baby_sleep_cycle", "Baby_bath_cycle",
    "Baby_eay_cycle", "Is_baby_taking_medecine", "Is_baby_consulting_doctor"]

/-- Lines 66-75: the columns `f` with `typeof body[f] !== 'undefined'`; `body f`
is the property `f` of `request.body || {}`. -/
def definedFields (body : String → JsVal) : List String :=
  inviterFields.filter (fun f => typeof (body f) ≠ "undefined")

/-- Line 81: the `SET` clauses `f = ?` joined by a comma and a space. -/
def setClauses (fields : List String) : String :=
  ", ".intercalate (fields.map (fun f => f ++ " = ?"))

/-- The template of lines 84-86 up to `${setClauses}`. -/
def updateHead : String :=
  "\n        UPDATE dbo.Inviter SET "

/-- The template of lines 84-86 after `${setClauses}`. -/
def updateTail : String :=
  " WHERE Inviter_id = ?\n      "

/-- Lines 77-86: no query when no column is defined (the handler answers 400),
otherwise the call `db.query(..., params)` with the values of the defined columns
followed by the id. -/
def updateQuery (body : String → JsVal) (id : JsVal) : Option (String × List JsVal) :=
  let fields := definedFields body
  if fields.length = 0 then none
  else some (updateHead ++ setClauses fields ++ updateTail, fields.map body ++ [id])

/-! ## Generating the daily tasks (`POST /api/daily-tasks/generate`, dailyTaskRoutes.js) -/

/-- The function `groupForIndex(i)` of lines 3-8. -/
def groupForIndex (i : Nat) : String :=
  if i = 0 then "Morning"
  else if i = 1 then "Day"
  else if i = 2 then "Afternoon"
  else "Night"

/-- An element of the array `tasks`. -/
structure Task where
  task : String
  group : String
  deriving DecidableEq

/-- The test `i < meals` of line 95; `meals` is what `parseInt` returned, an
integer or `NaN` (`none`), and no number is below `NaN`. -/
def belowMeals (i : Nat) : Option Int → Bool
  | none => false
  | some n => (i : Int) < n

/-- The loop of lines 95-97, entered with loop variable `i`. -/
def feedLoop (meals : Option Int) (i : Nat) (tasks : List Task) : List Task :=
  if belowMeals i meals then
    feedLoop meals (i + 1) (tasks ++ [⟨"Faire manger bébé", groupForIndex i⟩])
  else tasks
termination_by
  match meals with
  | none => 0
  | some n => (n - i).toNat
decreasing_by
  cases meals with
  | none => simp [belowMeals] at *
  | some n =>
    simp only [belowMeals, decide_eq_true_eq] at *
    omega

/-- Lines 93-103: the task list for a parsed meal count and the medicine flag of
the inviter. -/
def generateTasks (meals : Option Int) (takesMedicine : Bool) : List Task :=
  let tasks0 : List Task := [⟨"Petit déjeuner", "Morning"⟩]
  let tasks1 := feedLoop meals 0 tasks0
  let tasks2 :=
    if takesMedicine then tasks1 ++ [⟨"Prendre les médicaments", "Day"⟩] else tasks1
  tasks2 ++ [⟨"Jouer avec bébé", "Afternoon"⟩, ⟨"Dîner", "Night"⟩, ⟨"Dodo", "Night"⟩]

/-- The statement of lines 108-111. -/
def insertTaskSql : String :=
  "INSERT INTO dbo.Daily_Task (Day, Task, Task_Is_Completed, Time_Group) VALUES (?, ?, 0, ?)"

/-- The loop of lines 106-113 from the point where `inserted` tasks are stored:
one `INSERT` per task, counted once it has succeeded. `insertOk k` tells whether
the `k`-th `INSERT` of the run succeeds; a failure ends the handler in its `catch`
(`none`). The result is the final count with the calls made. -/
def insertLoop (insertOk : Nat → Bool) (dayStr : String) :
    List Task → Nat → List (String × List JsVal) → Option Nat × List (String × List JsVal)
  | [], inserted, calls => (some inserted, calls)
  | t :: rest, inserted, calls =>
    if insertOk inserted then
      insertLoop insertOk dayStr rest (inserted + 1)
        (calls ++ [(insertTaskSql, [.string dayStr, .string t.task, .string t.group])])
    else
      (none, calls ++ [(insertTaskSql, [.string dayStr, .string t.task, .string t.group])])

/-- Lines 93-115 for an inviter that was found: the `count` of the answer (`none`
when an `INSERT` fails) and the `INSERT` calls made. -/
def generateCount (insertOk : Nat → Bool) (dayStr : String) (meals : Option Int)
    (takesMedicine : Bool) : Option Nat × List (String × List JsVal) :=
  insertLoop insertOk dayStr (generateTasks meals takesMedicine) 0 []

/-! ## Rate-limit configurations (`createRateLimiter`, middleware/rateLimiter.js) -/

/-- A value of a configuration key; a function is named after its key. -/
inductive ConfigValue
  | num (n : Nat)
  | str (s : String)
  | list (items : List String)
  | bool (b : Bool)
  | null
  | func (name : String)
  deriving DecidableEq

/-- A configuration object: its own keys with their values, in insertion order. -/
abbrev RateConfig := List (String × ConfigValue)

/-- The object `rateLimitConfig.global` (lines 10-37); `nodeEnv` is
`process.env.NODE_ENV`. -/
def globalConfig (nodeEnv : Option String) : RateConfig :=
  [("max", .num 1000), ("timeWindow", .str "15 minutes"), ("ban", .num 3),
    ("cache", .num 10000), ("allowList", .list ["127.0.0.1", "::1", "localhost"]),
    ("enabled", .bool (decide (nodeEnv ≠ some "development"))), ("redis", .null),
    ("skipOnError", .bool true), ("onBanReach", .func "onBanReach"),
    ("keyGenerator", .func "keyGenerator"),
    ("errorResponseBuilder", .func "errorResponseBuilder")]

/-- The object `rateLimitConfig.auth` (lines 40-44). -/
def authConfig : RateConfig :=
  [("max", .num 5), ("timeWindow", .str "15 minutes"), ("ban", .num 2)]

/-- The object `rateLimitConfig.upload` (lines 47-51). -/
def uploadConfig : RateConfig :=
  [("max", .num 10), ("timeWindow", .str "1 hour"), ("ban", .num 1)]

/-- The object `rateLimitConfig.read` (lines 54-57). -/
def readConfig : RateConfig :=
  [("max", .num 200), ("timeWindow", .str "15 minutes")]

/-- The read `rateLimitConfig[type]` as far as `createRateLimiter` can tell: one
of the four configurations, or nothing to spread. For any other name the read is
`undefined` or a member inherited from `Object.prototype`, which has no own
enumerable key, so that `{...global, ...config}` is `{...global}` either way. -/
def rateLimitConfigAt (nodeEnv : Option String) (type : String) : Option RateConfig :=
  if type = "global" then some (globalConfig nodeEnv)
  else if type = "auth" then some authConfig
  else if type = "upload" then some uploadConfig
  else if type = "read" then some readConfig
  else none

/-- Setting one key of an object: an existing key keeps its place and takes the
new value, a new key is added at the end. -/
def setKey (config : RateConfig) (key : String) (value : ConfigValue) : RateConfig :=
  if config.any (fun entry => entry.1 = key) then
    config.map (fun entry => if entry.1 = key then (key, value) else entry)
  else config ++ [(key, value)]

/-- The object literal with two spreads, `{ ...a, ...b }`. -/
def spread (a b : RateConfig) : RateConfig :=
  b.foldl (fun acc entry => setKey acc entry.1 entry.2) a

/-- The function `createRateLimiter(type = 'global')`; `none` is a call without
argument. -/
def createRateLimiter (nodeEnv : Option String) (type : Option String) : RateConfig :=
  let config := (rateLimitConfigAt nodeEnv (type.getD "global")).getD (globalConfig nodeEnv)
  spread (globalConfig nodeEnv) config

/-! ## Changing the status of an order (`PATCH /api/commandes/:id/status`, lines 153-188) -/

/-- What the handler did: its reply, the store it leaves and the ids it looked
up with `Commande.findById`. -/
structure PatchResult where
  reply : Reply
  db : Store
  lookups : List Nat

/-- The handler of `PATCH /:id/status`. `body` is `none` when `request.body` is
`undefined` (destructuring it throws, and the `catch` answers 500), otherwise it
carries the property `statut` of the body, `undefined` when the body has none.
The test `['en_cours', 'livree'].includes(statut)` holds exactly for these two
strings. -/
def patchStatut (db : Store) (id : Nat) (body : Option JsVal) : PatchResult :=
  match body with
  | none => ⟨⟨500, false, "Erreur lors de la mise à jour du statut"⟩, db, []⟩
  | some (.string statut) =>
    if statut = "en_cours" ∨ statut = "livree" then
      match db.commandes.find? (fun commande => commande._id = id) with
      | none => ⟨⟨404, false, "Commande non trouvée"⟩, db, [id]⟩
      | some _ =>
        ⟨⟨200, true, "Statut de la commande mis à jour"⟩,
          ⟨db.products, db.commandes.map (fun commande =>
            if commande._id = id then
              ⟨commande._id, commande.userId, statut, commande.products,
                commande.totalCommande⟩
            else commande)⟩,
          [id]⟩
    else ⟨⟨400, false, "Statut invalide. Valeurs acceptées: en_cours, livree"⟩, db, []⟩
  | some _ => ⟨⟨400, false, "Statut invalide. Valeurs acceptées: en_cours, livree"⟩, db, []⟩

/-! ## Creating an order (`POST /api/commandes`, commandeRoutes.js lines 7-76) -/

/-- The number of binary digits of `n`, for a `fuel` at least that number. -/
def bitLength : Nat → Nat → Nat
  | 0, _ => 0
  | fuel + 1, n => if n = 0 then 0 else bitLength fuel (n / 2) + 1

/-- The double nearest to a rational number: rounding to nearest, ties to even,
with the 53-bit significand and the least exponent of IEEE 754 binary64. A result
beyond the largest double, which the language turns into an infinity, is outside
this model. -/
def roundDouble (q : ℚ) : ℚ :=
  if q = 0 then 0
  else
    let a := |q|
    let e0 : Int := (bitLength a.num.natAbs a.num.natAbs : Int) - (bitLength a.den a.den : Int)
    let e1 : Int := if (2 : ℚ) ^ e0 ≤ a then e0 else e0 - 1
    let e : Int := max e1 (-1022)
    let quantum : ℚ := (2 : ℚ) ^ (e - 52)
    let m : ℚ := a / quantum
    let f : Int := ⌊m⌋
    let r : Int :=
      if m - f < 1 / 2 then f
      else if 1 / 2 < m - f then f + 1
      else if f % 2 = 0 then f else f + 1
    (if q < 0 then -1 else 1) * (r : ℚ) * quantum

/-- The operations `*`, `+` and `-` of the language on the numbers of an order.
The handler is written over them, so that what is proved of it holds whatever
they round to. -/
structure Arith where
  mul : ℚ → ℚ → ℚ
  add : ℚ → ℚ → ℚ
  sub : ℚ → ℚ → ℚ

/-- The operations of the language on doubles: the exact result, rounded. -/
def double : Arith :=
  ⟨fun x y => roundDouble (x * y), fun x y => roundDouble (x + y),
    fun x y => roundDouble (x - y)⟩

/-- One element of `request.body.products`, with a numeric quantity. -/
structure OrderItem where
  productId : Nat
  quantite : ℚ
  deriving DecidableEq

/-- The body of the request as the handler reads it: `userId` and `products` are
`none` when missing (the address plays no part here). -/
structure OrderRequest where
  userId : Option Nat
  products : Option (List OrderItem)

/-- The stock of the first product with a given id, as `Product.findById` sees it. -/
def stockOf (db : Store) (id : Nat) : Option ℚ :=
  (db.products.find? (fun product => product._id = id)).map Product.stock

/-- The price of the first product with a given id. -/
def priceOf (db : Store) (id : Nat) : Option ℚ :=
  (db.products.find? (fun product => product._id = id)).map Product.price

/-- Lines 49-50: the looked-up document is saved with its new stock. -/
def saveStock (db : Store) (id : Nat) (stock : ℚ) : Store :=
  ⟨db.products.map (fun product =>
      if product._id = id then ⟨product._id, product.name, product.price, stock⟩
      else product),
    db.commandes⟩

/-- How the loop of lines 21-51 ends: with a reply sent from inside it (or from
the `catch` when `product.save()` throws), or with the running total and the
lines collected. -/
inductive LoopResult
  | rejected (reply : Reply) (db : Store)
  | completed (db : Store) (totalCommande : ℚ) (productsDetails : List OrderLine)
  deriving DecidableEq

/-- The loop `for (const item of products)` of lines 21-51; `numberText` renders a
number inside a message. The validator `min: 0` of `productSchema.stock` makes
`product.save()` throw for a negative stock, which the `catch` of line 70 answers
with 500. -/
def orderLoop (arith : Arith) (numberText : ℚ → String) :
    Store → List OrderItem → ℚ → List OrderLine → LoopResult
  | db, [], totalCommande, productsDetails => .completed db totalCommande productsDetails
  | db, item :: rest, totalCommande, productsDetails =>
    match db.products.find? (fun product => product._id = item.productId) with
    | none =>
      .rejected ⟨404, false, "Produit " ++ Nat.repr item.productId ++ " non trouvé"⟩ db
    | some product =>
      if product.stock < item.quantite then
        .rejected
          ⟨400, false,
            "Quantité insuffisante pour " ++ product.name ++ ". Disponible: "
              ++ numberText product.stock⟩
          db
      else
        let totalItem := arith.mul product.price item.quantite
        let stock := arith.sub product.stock item.quantite
        if stock < 0 then
          .rejected ⟨500, false, "Erreur lors de la création de la commande"⟩ db
        else
          orderLoop arith numberText (saveStock db product._id stock) rest
            (arith.add totalCommande totalItem)
            (productsDetails
              ++ [⟨product._id, product.name, item.quantite, product.price, totalItem⟩])

/-- The validators of `commandeSchema` that bear on the new document: every line
has `quantite >= 1` and `totalCommande >= 0`. -/
def validCommande (totalCommande : ℚ) (productsDetails : List OrderLine) : Bool :=
  productsDetails.all (fun line => decide (1 ≤ line.quantite)) && decide (0 ≤ totalCommande)

/-- The handler of `POST /`; `newId` is the id given to the new order and
`populate` tells whether `commande.populate('userId', 'name')` of line 62
resolves. The database is taken to answer every other call, and ids to be
well-formed; a validation error of `commande.save()` and a failure of `populate`
are answered by the `catch` with 500, the second after the order has been
stored. -/
def postCommande (arith : Arith) (numberText : ℚ → String) (populate : Bool) (newId : Nat)
    (db : Store) (request : OrderRequest) : Reply × Store :=
  match request.userId, request.products with
  | some userId, some (item :: rest) =>
    match orderLoop arith numberText db (item :: rest) 0 [] with
    | .rejected reply db1 => (reply, db1)
    | .completed db1 totalCommande productsDetails =>
      if validCommande totalCommande productsDetails then
        (if populate then ⟨201, true, "Commande créée avec succès"⟩
          else ⟨500, false, "Erreur lors de la création de la commande"⟩,
          ⟨db1.products,
            db1.commandes ++ [⟨newId, userId, "en_cours", productsDetails, totalCommande⟩]⟩)
      else (⟨500, false, "Erreur lors de la création de la commande"⟩, db1)
  | _, _ => (⟨400, false, "UserId et produits sont requis"⟩, db)

/-- The stock the items of a request leave of a product that had `stock`: the
quantity of each item that names the product is subtracted in turn. -/
def stockAfter (arith : Arith) (items : List OrderItem) (id : Nat) (stock : ℚ) : ℚ :=
  (items.filter (fun item => item.productId = id)).foldl
    (fun s item => arith.sub s item.quantite) stock

/-- The store a run of the loop leaves. -/
def LoopResult.store : LoopResult → Store
  | .rejected _ db => db
  | .completed db _ _ => db

/-- What a stored line owes to the item it was made from and to the store the
request met: same product and quantity, the unit price of that product, and the
product of the two, as the language computes it, as total. -/
def lineMatches (arith : Arith) (db : Store) (item : OrderItem) (line : OrderLine) : Prop :=
  line.productId = item.productId ∧ line.quantite = item.quantite
    ∧ priceOf db item.productId = some line.prixUnitaire
    ∧ line.total = arith.mul line.prixUnitaire line.quantite

/-! ## Matching products to an image analysis (imageRoutes.js lines 137-223) -/

/-- The coercion of a value to a boolean, as `&&` and `||` test it. -/
def toBoolean : JsVal → Bool
  | .null => false
  | .undefined => false
  | .number (.finite q) => decide (q ≠ 0)
  | .number .negZero => false
  | .number .nan => false
  | .number _ => true
  | .boolean b => b
  | .string s => decide (s ≠ "")
  | .bigint n => decide (n ≠ 0)
  | .symbol _ => true
  | .object _ => true
  | .func _ => true

/-- The guard `v && typeof v === 'string'`, with the string it lets through. -/
def truthyString (v : JsVal) : Option String :=
  if toBoolean v && (typeof v == "string") then
    match v with
    | .string s => some s
    | _ => none
  else none

/-- The fields line 138 takes out of `analysis`; `keywords` is `none` when it is
not an array (an array is never falsy). -/
structure Analysis where
  partNameEn : JsVal
  partNameFr : JsVal
  brandDetected : JsVal
  serialNumber : JsVal
  keywords : Option (List JsVal)

/-- The method `tokens.add(token)` of a `Set`, kept in insertion order. -/
def setAdd (tokens : List String) (token : String) : List String :=
  if token ∈ tokens then tokens else tokens ++ [token]

/-- The call `s.split(' ')`. -/
def splitSpaces (s : String) : List String :=
  (s.data.splitOn ' ').map String.mk

/-- The property `t.length`: the number of UTF-16 code units of a string. -/
def jsLength (s : String) : Nat :=
  (s.data.map (fun c => if 65536 ≤ c.toNat then 2 else 1)).sum

/-- The method `pName.includes(token)`. -/
def includes (pName token : String) : Bool :=
  pName.data.tails.any (fun rest => token.data.isPrefixOf rest)

/-- Lines 141-170: the set of tokens, in insertion order. The method
`toLowerCase` of strings is a parameter. -/
def collectTokens (toLowerCase : String → String) (analysis : Analysis) : List String :=
  let tokens : List String := []
  let tokens :=
    match truthyString analysis.partNameEn with
    | some s => (splitSpaces (toLowerCase s)).foldl setAdd tokens
    | none => tokens
  let tokens :=
    match truthyString analysis.partNameFr with
    | some s => (splitSpaces (toLowerCase s)).foldl setAdd tokens
    | none => tokens
  let tokens :=
    match analysis.keywords with
    | some keywords =>
      keywords.foldl
        (fun tokens k =>
          match truthyString k with
          | some s => setAdd tokens (toLowerCase s)
          | none => tokens)
        tokens
    | none => tokens
  let tokens :=
    match truthyString analysis.brandDetected with
    | some s => setAdd tokens (toLowerCase s)
    | none => tokens
  match truthyString analysis.serialNumber with
  | some s => setAdd tokens (toLowerCase s)
  | none => tokens

/-- Line 172: `Array.from(tokens).filter(t => t && t.length > 2)`. -/
def finalTokens (toLowerCase : String → String) (analysis : Analysis) : List String :=
  (collectTokens toLowerCase analysis).filter
    (fun t => decide (t ≠ "") && decide (2 < jsLength t))

/-- A product document as `Product.find` hands it over; `name` is `none` when the
document has none. -/
structure FoundProduct where
  _id : Nat
  name : Option String
  price : ℚ
  stock : ℚ
  images : List String
  deriving DecidableEq

/-- What lines 204-206 read of the request. -/
structure MatchRequest where
  protocol : Option String
  host : Option String
  hostname : String

/-- One element of the array the function returns: the document, its score, and
the fields lines 210-214 add. -/
structure ScoredProduct where
  product : FoundProduct
  similarityScore : Nat
  prix : ℚ
  stock : ℚ
  image_url : Option String

/-- Lines 204-206: `baseUrl`. -/
def baseUrl (nodeEnv : Option String) (request : MatchRequest) : String :=
  if nodeEnv = some "development" then "http://localhost:5000"
  else
    (if truthy request.protocol then request.protocol.getD "" else "https") ++ "://"
      ++ (if truthy request.host then request.host.getD "" else request.hostname)

/-- Lines 187-203: the score of one product, accumulated token by token. -/
def scoreOf (toLowerCase : String → String) (analysis : Analysis)
    (finalTokens : List String) (product : FoundProduct) : Nat :=
  let pName := toLowerCase (if truthy product.name then product.name.getD "" else "")
  finalTokens.foldl
    (fun score token =>
      let score := if includes pName token then score + 2 else score
      let score :=
        match truthyString analysis.brandDetected with
        | some brand => if includes pName (toLowerCase brand) then score + 5 else score
        | none => score
      match truthyString analysis.serialNumber with
      | some serial => if includes pName (toLowerCase serial) then score + 10 else score
      | none => score)
    0

/-- Lines 186-216: the callback of `potentialMatches.map`. -/
def scoreProduct (toLowerCase : String → String) (nodeEnv : Option String)
    (analysis : Analysis) (request : MatchRequest) (finalTokens : List String)
    (product : FoundProduct) : ScoredProduct :=
  ⟨product, scoreOf toLowerCase analysis finalTokens product, product.price, product.stock,
    match product.images with
    | [] => none
    | image :: _ => some (baseUrl nodeEnv request ++ "/images/products/" ++ image)⟩

/-- The comparator of line 220, `(a, b) => b.similarityScore - a.similarityScore`. -/
def compareScore (a b : ScoredProduct) : Int :=
  (b.similarityScore : Int) - (a.similarityScore : Int)

/-- How the function can fail: `new RegExp(t, 'i')` rejects a token, or the
database rejects the query. -/
inductive MatchError
  | syntaxError (pattern : String)
  | database (message : String)
  deriving DecidableEq

/-- The function `internalFindMatchingProducts`, with the list of queries it sent.
Whether `new RegExp(t, 'i')` accepts a token is the parameter `validPattern`;
`find` is `Product.find({ $or: ... }).limit(15)` as a function of the patterns.
The method `sort` is stable, so it is an insertion sort here. -/
def internalFindMatchingProducts (toLowerCase : String → String) (nodeEnv : Option String)
    (validPattern : String → Bool)
    (find : List String → Except MatchError (List FoundProduct))
    (analysis : Analysis) (request : MatchRequest) :
    Except MatchError (List ScoredProduct) × List (List String) :=
  let tokens := finalTokens toLowerCase analysis
  if tokens.length = 0 then (.ok [], [])
  else
    match tokens.find? (fun t => !validPattern t) with
    | some t => (.error (.syntaxError t), [])
    | none =>
      match find tokens with
      | .error e => (.error e, [tokens])
      | .ok potentialMatches =>
        (.ok
          (((potentialMatches.map
              (scoreProduct toLowerCase nodeEnv analysis request tokens)).insertionSort
            (fun a b => compareScore a b ≤ 0)).take 5),
          [tokens])

/-- A value is a non-empty string whose lower-cased text occurs in `pName`: the
test lines 194-195 make of the detected brand and lines 199-200 of the serial
number. -/
def occursIn (toLowerCase : String → String) (pName : String) (v : JsVal) : Bool :=
  match truthyString v with
  | some s => includes pName (toLowerCase s)
  | none => false

/-- The score as a sum over the final tokens: 2 when the token occurs in the
lower-cased name of the product, plus 5 when the detected brand occurs in it, plus
10 when the serial number does. -/
def scoreSum (toLowerCase : String → String) (analysis : Analysis)
    (product : FoundProduct) : Nat :=
  ((finalTokens toLowerCase analysis).map (fun token =>
    (if includes (toLowerCase (product.name.getD "")) token then 2 else 0)
      + (if occursIn toLowerCase (toLowerCase (product.name.getD "")) analysis.brandDetected
          then 5 else 0)
      + (if occursIn toLowerCase (toLowerCase (product.name.getD "")) analysis.serialNumber
          then 10 else 0))).sum

/-! ### Auxiliary facts: decimal rendering is injective -/

theorem digitStep_digitChar (a k : Nat) (h : k < 10) :
    digitStep a (Nat.digitChar k) = a * 10 + k := by
  unfold digitStep
  interval_cases k <;> rfl

theorem foldl_toDigitsCore (fuel : Nat) :
    ∀ (n : Nat) (ds : List Char), n < fuel →
      (Nat.toDigitsCore 10 fuel n ds).foldl digitStep 0 = ds.foldl digitStep n := by
  induction fuel with
  | zero => intro n ds h; omega
  | succ f ih =>
    intro n ds h
    simp only [Nat.toDigitsCore]
    split
    · rename_i h0
      rw [List.foldl_cons, digitStep_digitChar 0 (n % 10) (Nat.mod_lt _ (by decide))]
      congr 1
      omega
    · rename_i h0
      rw [ih (n / 10) _ (by omega), List.foldl_cons,
        digitStep_digitChar (n / 10) (n % 10) (Nat.mod_lt _ (by decide))]
      congr 1
      omega

theorem foldl_repr (n : Nat) : (Nat.repr n).data.foldl digitStep 0 = n := by
  show (Nat.toDigitsCore 10 (n + 1) n []).foldl digitStep 0 = n
  rw [foldl_toDigitsCore (n + 1) n [] (Nat.lt_succ_self n)]
  rfl

theorem repr_injective {a b : Nat} (h : Nat.repr a = Nat.repr b) : a = b := by
  have ha := foldl_repr a
  rw [h, foldl_repr b] at ha
  exact ha.symm

theorem marker_injective {a b : Nat} (h : marker a = marker b) : a = b := by
  unfold marker at h
  injection h with _ h
  injection h with _ h
  exact repr_injective (String.ext h)

theorem markersFrom_succ (i n : Nat) :
    markersFrom i (n + 1) = marker i :: markersFrom (i + 1) n := by
  simp [markersFrom, List.range']

theorem markersFrom_length (i n : Nat) : (markersFrom i n).length = n := by
  simp [markersFrom]

theorem markersFrom_nodup (i n : Nat) : (markersFrom i n).Nodup := by
  unfold markersFrom
  exact (List.nodup_range' i n).map (fun _ _ h => marker_injective h)

/-! ### Auxiliary facts: the scan against the split of the template -/

theorem splitOn_cons_eq (cs : List Char) :
    ('?' :: cs).splitOn '?' = [] :: cs.splitOn '?' := by
  simp [List.splitOn, List.splitOnP_cons]

theorem splitOn_cons_ne (c : Char) (cs : List Char) (h : c ≠ '?') :
    (c :: cs).splitOn '?' = (cs.splitOn '?').modifyHead (List.cons c) := by
  simp [List.splitOn, List.splitOnP_cons, h]

theorem splitOn_ne_nil (cs : List Char) : cs.splitOn '?' ≠ [] :=
  List.splitOnP_ne_nil _ _

theorem weave_modifyHead (c : Char) (ss ms : List (List Char)) (h : ss ≠ []) :
    weave (ss.modifyHead (List.cons c)) ms = c :: weave ss ms := by
  cases ss with
  | nil => exact absurd rfl h
  | cons s ss => cases ms <;> simp [weave, List.modifyHead]

theorem countQ_cons_eq (cs : List Char) : countQ ('?' :: cs) = countQ cs + 1 := by
  simp [countQ]

theorem countQ_cons_ne (c : Char) (cs : List Char) (h : c ≠ '?') :
    countQ (c :: cs) = countQ cs := by
  simp [countQ, List.count_cons, h]

theorem toTsqlFrom_eq_weave (l : List Char) :
    ∀ i, toTsqlFrom i l = weave (l.splitOn '?') (markersFrom i (countQ l)) := by
  induction l with
  | nil => intro i; simp [toTsqlFrom, weave, countQ, markersFrom]
  | cons c cs ih =>
    intro i
    by_cases h : c = '?'
    · subst h
      rw [splitOn_cons_eq, countQ_cons_eq, markersFrom_succ]
      simp [toTsqlFrom, weave, ih]
    · rw [splitOn_cons_ne c cs h, countQ_cons_ne c cs h,
        weave_modifyHead c _ _ (splitOn_ne_nil cs)]
      simp [toTsqlFrom, h, ih]

theorem splitOn_length (l : List Char) : (l.splitOn '?').length = countQ l + 1 := by
  induction l with
  | nil => simp [countQ]
  | cons c cs ih =>
    by_cases h : c = '?'
    · subst h
      rw [splitOn_cons_eq, countQ_cons_eq, List.length_cons, ih]
    · rw [splitOn_cons_ne c cs h, countQ_cons_ne c cs h, List.length_modifyHead, ih]

theorem toTsqlFrom_append (pre : List Char) :
    ∀ (i : Nat) (post : List Char),
      toTsqlFrom i (pre ++ post) = toTsqlFrom i pre ++ toTsqlFrom (i + countQ pre) post := by
  induction pre with
  | nil => intro i post; simp [toTsqlFrom, countQ]
  | cons c cs ih =>
    intro i post
    by_cases h : c = '?'
    · subst h
      simp [toTsqlFrom, ih, countQ_cons_eq, Nat.add_assoc, Nat.add_comm 1]
    · simp [toTsqlFrom, h, ih, countQ_cons_ne c cs h]

theorem toTsqlFrom_no_marker (l : List Char) (h : '?' ∉ l) :
    ∀ i, toTsqlFrom i l = l := by
  induction l with
  | nil => intro i; rfl
  | cons c cs ih =>
    intro i
    have hc : c ≠ '?' := fun e => h (e ▸ List.mem_cons_self _ _)
    have hcs : '?' ∉ cs := fun m => h (List.mem_cons_of_mem _ m)
    simp [toTsqlFrom, hc, ih hcs]

theorem digitChar_isDigit (k : Nat) (h : k < 10) :
    Nat.digitChar k ≠ '?' ∧ Nat.digitChar k ≠ '@' := by
  interval_cases k <;> decide

theorem toDigitsCore_chars (fuel : Nat) :
    ∀ (n : Nat) (ds : List Char), (∀ c ∈ ds, c ≠ '?' ∧ c ≠ '@') →
      ∀ c ∈ Nat.toDigitsCore 10 fuel n ds, c ≠ '?' ∧ c ≠ '@' := by
  induction fuel with
  | zero => intro n ds h c hc; exact h c (by simpa [Nat.toDigitsCore] using hc)
  | succ f ih =>
    intro n ds h c hc
    have hd : ∀ x ∈ Nat.digitChar (n % 10) :: ds, x ≠ '?' ∧ x ≠ '@' := by
      intro x hx
      rcases List.mem_cons.mp hx with rfl | hx
      · exact digitChar_isDigit _ (Nat.mod_lt _ (by decide))
      · exact h x hx
    simp only [Nat.toDigitsCore] at hc
    split at hc
    · exact hd c hc
    · exact ih _ _ hd c hc

theorem repr_chars (n : Nat) : ∀ c ∈ (Nat.repr n).data, c ≠ '?' ∧ c ≠ '@' :=
  toDigitsCore_chars (n + 1) n [] (fun _ h => absurd h (List.not_mem_nil _))

theorem marker_no_question (i : Nat) : '?' ∉ marker i := by
  intro h
  unfold marker at h
  rcases List.mem_cons.mp h with h | h
  · exact absurd h (by decide)
  rcases List.mem_cons.mp h with h | h
  · exact absurd h (by decide)
  · exact (repr_chars i _ h).1 rfl

theorem marker_count_at (i : Nat) : (marker i).count '@' = 1 := by
  have h : (Nat.repr i).data.count '@' = 0 :=
    List.count_eq_zero.mpr (fun m => (repr_chars i _ m).2 rfl)
  simp [marker, List.count_cons, h]

theorem toTsqlFrom_no_question (l : List Char) : ∀ i, '?' ∉ toTsqlFrom i l := by
  induction l with
  | nil => intro i; simp [toTsqlFrom]
  | cons c cs ih =>
    intro i
    by_cases h : c = '?'
    · subst h
      simp only [toTsqlFrom, if_true, List.mem_append, not_or]
      exact ⟨marker_no_question i, ih _⟩
    · simp only [toTsqlFrom, h, if_false, List.mem_cons, not_or]
      exact ⟨fun e => h e.symm, ih _⟩

theorem toTsqlFrom_count_at (l : List Char) :
    ∀ i, (toTsqlFrom i l).count '@' = l.count '@' + countQ l := by
  induction l with
  | nil => intro i; simp [toTsqlFrom, countQ]
  | cons c cs ih =>
    intro i
    by_cases h : c = '?'
    · subst h
      have hq : ('?' :: cs).count '@' = cs.count '@' := by
        simp [List.count_cons]
      rw [countQ_cons_eq, hq]
      simp only [toTsqlFrom, if_true, List.count_append, marker_count_at, ih]
      omega
    · rw [countQ_cons_ne c cs h]
      simp only [toTsqlFrom, h, if_false, List.count_cons, ih]
      omega

theorem weave_questions (l : List Char) :
    l = weave (l.splitOn '?') (List.replicate (countQ l) ['?']) := by
  induction l with
  | nil => simp [weave, countQ]
  | cons c cs ih =>
    by_cases h : c = '?'
    · subst h
      rw [splitOn_cons_eq, countQ_cons_eq, List.replicate_succ]
      simp only [weave, List.nil_append, List.singleton_append]
      rw [← ih]
    · rw [splitOn_cons_ne c cs h, countQ_cons_ne c cs h,
        weave_modifyHead c _ _ (splitOn_ne_nil cs), ← ih]

theorem splitOn_segments_clean (l : List Char) :
    ∀ seg ∈ l.splitOn '?', '?' ∉ seg := by
  induction l with
  | nil => intro seg hseg; simp at hseg; simp [hseg]
  | cons c cs ih =>
    intro seg hseg
    by_cases h : c = '?'
    · subst h
      rw [splitOn_cons_eq] at hseg
      rcases List.mem_cons.mp hseg with rfl | hseg
      · simp
      · exact ih seg hseg
    · rw [splitOn_cons_ne c cs h] at hseg
      cases hs : cs.splitOn '?' with
      | nil => exact absurd hs (splitOn_ne_nil cs)
      | cons s ss =>
        rw [hs] at hseg ih
        simp only [List.modifyHead] at hseg
        rcases List.mem_cons.mp hseg with rfl | hseg
        · intro hm
          rcases List.mem_cons.mp hm with e | hm
          · exact h e.symm
          · exact ih s (List.mem_cons_self _ _) hm
        · exact ih seg (List.mem_cons_of_mem _ hseg)

theorem markersFrom_getElem? (i n k : Nat) :
    (markersFrom i n)[k]? = if k < n then some (marker (i + k)) else none := by
  unfold markersFrom
  by_cases h : k < n
  · simp [h, List.getElem?_map, List.getElem?_range' _ _ h]
  · simp [h, List.getElem?_map]
    omega

/-! ### Auxiliary facts: the binder -/

theorem isInt_iff_fract (q : ℚ) : q.isInt = true ↔ Int.fract q = 0 := by
  rw [Rat.isInt, Nat.beq_eq_true_eq, Rat.den_eq_one_iff]
  constructor
  · intro h
    rw [← h, Int.fract_intCast]
  · intro h
    have h2 : q = (⌊q⌋ : ℚ) := by
      have h3 := Int.self_sub_floor q
      rw [h] at h3
      linarith
    rw [h2]
    simp

theorem bindCallback_finite (numberToString : JsNumber → String) (request : Request)
    (q : ℚ) (idx : Nat) :
    bindCallback numberToString request (.number (.finite q)) idx
      = .ok ⟨request.inputs ++ [⟨"p" ++ Nat.repr idx,
          if Int.fract q = 0 then .Int else .Float, .number (.finite q)⟩]⟩ := by
  by_cases h : Int.fract q = 0
  · have hi : q.isInt = true := (isInt_iff_fract q).mpr h
    simp [bindCallback, typeof, Number.isInteger, Request.input, h, hi]
  · have hi : q.isInt = false := by
      cases hq : q.isInt
      · rfl
      · exact absurd ((isInt_iff_fract q).mp hq) h
    simp [bindCallback, typeof, Number.isInteger, Request.input, h, hi]

theorem bindCallback_eq (numberToString : JsNumber → String) (request : Request)
    (val : JsVal) (idx : Nat) :
    bindCallback numberToString request val idx
      = match expectedBinding idx val with
        | some b => .ok ⟨request.inputs ++ [b]⟩
        | none => .error conversionError := by
  cases val with
  | number x =>
    cases x with
    | finite q => rw [bindCallback_finite]; rfl
    | _ => simp [bindCallback, expectedBinding, typeof, Number.isInteger, Request.input]
  | object text =>
    cases text <;>
      simp [bindCallback, expectedBinding, typeof, StringOf, Request.input]
  | func text =>
    cases text <;>
      simp [bindCallback, expectedBinding, typeof, StringOf, Request.input]
  | boolean b =>
    cases b <;>
      simp [bindCallback, expectedBinding, typeof, StringOf, Request.input]
  | _ => simp [bindCallback, expectedBinding, typeof, StringOf, Request.input]

theorem expectedBinding_converts (idx : Nat) (val : JsVal) (h : converts val = true) :
    ∃ b, expectedBinding idx val = some b ∧ b.name = "p" ++ Nat.repr idx := by
  cases val with
  | number x => cases x <;> exact ⟨_, rfl, rfl⟩
  | object text =>
    cases text with
    | none => simp [converts] at h
    | some t => exact ⟨_, rfl, rfl⟩
  | func text =>
    cases text with
    | none => simp [converts] at h
    | some t => exact ⟨_, rfl, rfl⟩
  | _ => exact ⟨_, rfl, rfl⟩

theorem expectedBinding_none (idx : Nat) (val : JsVal) (h : converts val = false) :
    expectedBinding idx val = none := by
  cases val with
  | number x => cases x <;> simp [converts] at h
  | object text =>
    cases text with
    | none => rfl
    | some t => simp [converts] at h
  | func text =>
    cases text with
    | none => rfl
    | some t => simp [converts] at h
  | _ => simp [converts] at h

theorem converts_iff_StringOf (numberToString : JsNumber → String) (val : JsVal) :
    converts val = true ↔ ∃ text, StringOf numberToString val = .ok text := by
  cases val with
  | object text => cases text <;> simp [converts, StringOf]
  | func text => cases text <;> simp [converts, StringOf]
  | boolean b => cases b <;> simp [converts, StringOf]
  | _ => simp [converts, StringOf]

theorem bindParamsFrom_spec (numberToString : JsNumber → String) (params : List JsVal) :
    ∀ (idx : Nat) (request : Request), ∃ bs : List Binding,
      (bindParamsFrom numberToString idx params request).request.inputs
          = request.inputs ++ bs
        ∧ bs.map some
          = ((params.takeWhile converts).enumFrom idx).map
              (fun p => expectedBinding p.1 p.2)
        ∧ bs.map Binding.name
          = (List.range' idx (params.takeWhile converts).length).map
              (fun i => "p" ++ Nat.repr i)
        ∧ (bindParamsFrom numberToString idx params request).thrown
          = if params.all converts then none else some conversionError := by
  induction params with
  | nil =>
    intro idx request
    exact ⟨[], by simp [bindParamsFrom], by simp, by simp, by simp [bindParamsFrom]⟩
  | cons v vs ih =>
    intro idx request
    cases hv : converts v with
    | false =>
      have hcb : bindCallback numberToString request v idx = .error conversionError := by
        rw [bindCallback_eq, expectedBinding_none idx v hv]
      refine ⟨[], ?_, ?_, ?_, ?_⟩
      · simp [bindParamsFrom, hcb]
      · simp [List.takeWhile_cons, hv]
      · simp [List.takeWhile_cons, hv]
      · simp [bindParamsFrom, hcb, hv]
    | true =>
      obtain ⟨b, hb, hname⟩ := expectedBinding_converts idx v hv
      have hcb : bindCallback numberToString request v idx
          = .ok ⟨request.inputs ++ [b]⟩ := by
        rw [bindCallback_eq, hb]
      obtain ⟨bs, h1, h2, h3, h4⟩ := ih (idx + 1) ⟨request.inputs ++ [b]⟩
      refine ⟨b :: bs, ?_, ?_, ?_, ?_⟩
      · simp only [bindParamsFrom, hcb]
        rw [h1]
        simp
      · simp only [List.takeWhile_cons, hv, if_true, List.enumFrom_cons, List.map_cons, hb, h2]
      · simp only [List.takeWhile_cons, hv, if_true, List.length_cons, List.range'_succ,
          List.map_cons, hname, h3]
      · simp only [bindParamsFrom, hcb]
        rw [h4]
        simp [hv]

theorem takeWhile_converts (params : List JsVal) (h : ∀ v ∈ params, converts v = true) :
    params.takeWhile converts = params :=
  List.takeWhile_eq_self_iff.mpr h

theorem takeWhile_converts_stop (pre post : List JsVal) (val : JsVal)
    (hpre : ∀ v ∈ pre, converts v = true) (hval : converts val = false) :
    (pre ++ val :: post).takeWhile converts = pre := by
  induction pre with
  | nil => simp [List.takeWhile_cons, hval]
  | cons v vs ih =>
    have hv : converts v = true := hpre v (List.mem_cons_self _ _)
    have hvs : ∀ w ∈ vs, converts w = true :=
      fun w hw => hpre w (List.mem_cons_of_mem _ hw)
    simp [List.takeWhile_cons, hv, ih hvs]

theorem takeWhile_converts_pass (pre post : List JsVal) (val : JsVal)
    (hpre : ∀ v ∈ pre, converts v = true) (hval : converts val = true) :
    (pre ++ val :: post).takeWhile converts = pre ++ val :: post.takeWhile converts := by
  induction pre with
  | nil => simp [List.takeWhile_cons, hval]
  | cons v vs ih =>
    have hv : converts v = true := hpre v (List.mem_cons_self _ _)
    have hvs : ∀ w ∈ vs, converts w = true :=
      fun w hw => hpre w (List.mem_cons_of_mem _ hw)
    simp [List.takeWhile_cons, hv, ih hvs]

theorem all_converts_iff (params : List JsVal) :
    params.all converts = true ↔ ∀ v ∈ params, converts v = true := by
  simp [List.all_eq_true]

theorem marker_eq_name (i : Nat) : marker i = '@' :: ("p" ++ Nat.repr i).data := by
  simp [marker, String.data_append]

theorem bindParams_ok (numberToString : JsNumber → String) (request : Request)
    (params : List JsVal) (h : ∀ v ∈ params, converts v = true) :
    ∃ bs : List Binding,
      bindParams numberToString request params = ⟨⟨request.inputs ++ bs⟩, none⟩
        ∧ bs.map some
          = params.enum.map (fun p => expectedBinding p.1 p.2)
        ∧ bs.map Binding.name = (List.range params.length).map (fun i => "p" ++ Nat.repr i)
        ∧ bs.length = params.length := by
  obtain ⟨bs, h1, h2, h3, h4⟩ := bindParamsFrom_spec numberToString params 0 request
  rw [takeWhile_converts params h] at h2 h3
  rw [(all_converts_iff params).mpr h] at h4
  refine ⟨bs, ?_, h2, ?_, ?_⟩
  · unfold bindParams
    cases hr : bindParamsFrom numberToString 0 params request with
    | mk r t =>
      rw [hr] at h1 h4
      simp only at h1 h4
      cases r with
      | mk inputs =>
        simp only at h1
        rw [h1, h4]
        simp
  · rw [h3, List.range_eq_range']
  · have hl := congrArg List.length h3
    simpa using hl

theorem bindParams_at (numberToString : JsNumber → String) (request : Request)
    (pre post : List JsVal) (val : JsVal) (hpre : ∀ v ∈ pre, converts v = true) :
    (bindParams numberToString request (pre ++ val :: post)).request.inputs[
        request.inputs.length + pre.length]?
      = expectedBinding pre.length val := by
  obtain ⟨bs, h1, h2, _, _⟩ :=
    bindParamsFrom_spec numberToString (pre ++ val :: post) 0 request
  unfold bindParams
  rw [h1, List.getElem?_append_right (Nat.le_add_right _ _), Nat.add_sub_cancel_left]
  have hget := congrArg (fun l => l[pre.length]?) h2
  simp only [List.getElem?_map] at hget
  cases hval : converts val with
  | false =>
    rw [takeWhile_converts_stop pre post val hpre hval] at hget
    rw [expectedBinding_none pre.length val hval]
    have hnone : (pre.enumFrom 0)[pre.length]? = none := by
      rw [List.getElem?_eq_none]
      simp
    rw [hnone] at hget
    cases hb : bs[pre.length]? with
    | none => rfl
    | some b => rw [hb] at hget; simp at hget
  | true =>
    rw [takeWhile_converts_pass pre post val hpre hval] at hget
    have hsome : ((pre ++ val :: post.takeWhile converts).enumFrom 0)[pre.length]?
        = some (pre.length, val) := by
      rw [List.getElem?_enumFrom, List.getElem?_append_right (Nat.le_refl _)]
      simp
    rw [hsome] at hget
    cases hb : bs[pre.length]? with
    | none => rw [hb] at hget; simp at hget
    | some b =>
      rw [hb] at hget
      simp only [Option.map_some'] at hget
      exact (Option.some.inj hget).symm ▸ rfl

theorem bindParams_throws (numberToString : JsNumber → String) (request : Request)
    (pre post : List JsVal) (val : JsVal) (hpre : ∀ v ∈ pre, converts v = true)
    (hval : converts val = false) :
    ∃ bs : List Binding,
      bindParams numberToString request (pre ++ val :: post)
          = ⟨⟨request.inputs ++ bs⟩, some conversionError⟩
        ∧ bs.map some = pre.enum.map (fun p => expectedBinding p.1 p.2)
        ∧ bs.length = pre.length := by
  obtain ⟨bs, h1, h2, h3, h4⟩ :=
    bindParamsFrom_spec numberToString (pre ++ val :: post) 0 request
  rw [takeWhile_converts_stop pre post val hpre hval] at h2 h3
  have hall : (pre ++ val :: post).all converts = false := by
    rw [Bool.eq_false_iff]
    intro hall
    have := (all_converts_iff _).mp hall val (by simp)
    rw [hval] at this
    exact absurd this (by decide)
  rw [hall] at h4
  refine ⟨bs, ?_, h2, ?_⟩
  · unfold bindParams
    cases hr : bindParamsFrom numberToString 0 (pre ++ val :: post) request with
    | mk r t =>
      rw [hr] at h1 h4
      simp only at h1 h4
      cases r with
      | mk inputs =>
        simp only at h1
        rw [h1, h4]
        simp
  · have hl := congrArg List.length h3
    simpa using hl

/-! ### Auxiliary facts: the retry loop -/

theorem falsy_some (v : String) (h : v ≠ "") : falsy (some v) = false := by
  simp [falsy, h]

theorem connectLoop_all_fail (sqlConnect : Config → Nat → Except String Pool)
    (config : Config) (retries : Int) (delayMs : Nat) (e : Nat → String)
    (hfail : ∀ i, sqlConnect config i = .error (e i)) :
    ∀ (k i : Nat) (trace : List Event), (i : Int) + k + 1 = retries →
      connectLoop sqlConnect config retries delayMs i trace
        = (.error (.driver (e (i + k))), trace ++ exhaustedTrace delayMs i k) := by
  intro k
  induction k with
  | zero =>
    intro i trace h
    have h1 : (i : Int) < retries := by omega
    have h2 : (i : Int) = retries - 1 := by omega
    rw [connectLoop]
    simp [hfail, h1, h2, exhaustedTrace]
  | succ k ih =>
    intro i trace h
    have h1 : (i : Int) < retries := by omega
    have h2 : ¬ (i : Int) = retries - 1 := by omega
    rw [connectLoop]
    simp only [hfail, h1, h2, if_true, if_false]
    rw [ih (i + 1) _ (by push_cast; omega)]
    simp [exhaustedTrace, Nat.add_assoc, Nat.add_comm 1 k]

theorem attempts_exhaustedTrace (delayMs : Nat) :
    ∀ k i : Nat, attempts (exhaustedTrace delayMs i k) = k + 1 := by
  intro k
  induction k with
  | zero => intro i; simp [attempts, exhaustedTrace]
  | succ k ih =>
    intro i
    have h := ih (i + 1)
    simp only [attempts] at h
    simp [attempts, exhaustedTrace, h]

theorem connectLoop_not_configuration (sqlConnect : Config → Nat → Except String Pool)
    (config : Config) (retries : Int) (delayMs : Nat) :
    ∀ (n i : Nat) (trace : List Event), (retries - i).toNat = n →
      ∀ msg : String,
        (connectLoop sqlConnect config retries delayMs i trace).1
          ≠ .error (.configuration msg) := by
  intro n
  induction n with
  | zero =>
    intro i trace h msg
    have h1 : ¬ (i : Int) < retries := by omega
    rw [connectLoop]
    simp [h1]
  | succ n ih =>
    intro i trace h msg
    rw [connectLoop]
    by_cases h1 : (i : Int) < retries
    · cases hc : sqlConnect config i with
      | ok pool => simp [h1]
      | error err =>
        by_cases h2 : (i : Int) = retries - 1
        · simp [h1, h2]
        · simp only [h1, h2, if_true, if_false]
          exact ih (i + 1) _ (by push_cast; omega) msg
    · simp [h1]

theorem waits_exhaustedTrace (delayMs : Nat) :
    ∀ k i : Nat, waits (exhaustedTrace delayMs i k) = k := by
  intro k
  induction k with
  | zero => intro i; simp [waits, exhaustedTrace]
  | succ k ih =>
    intro i
    have h := ih (i + 1)
    simp only [waits] at h
    simp [waits, exhaustedTrace, h]

theorem exhaustedTrace_even (delayMs : Nat) :
    ∀ k i j : Nat,
      (exhaustedTrace delayMs i k)[2 * j]?
        = if j ≤ k then some (.attempt (i + j)) else none := by
  intro k
  induction k with
  | zero =>
    intro i j
    cases j with
    | zero => simp [exhaustedTrace]
    | succ j => simp [exhaustedTrace, Nat.mul_succ]
  | succ k ih =>
    intro i j
    cases j with
    | zero => simp [exhaustedTrace]
    | succ j =>
      have h := ih (i + 1) j
      simp only [exhaustedTrace, Nat.mul_succ, List.getElem?_cons_succ, h,
        Nat.add_le_add_iff_right]
      have e : i + 1 + j = i + (j + 1) := by omega
      rw [e]

theorem exhaustedTrace_odd (delayMs : Nat) :
    ∀ k i j : Nat,
      (exhaustedTrace delayMs i k)[2 * j + 1]?
        = if j < k then some (.wait delayMs) else none := by
  intro k
  induction k with
  | zero =>
    intro i j
    simp [exhaustedTrace]
  | succ k ih =>
    intro i j
    cases j with
    | zero => simp [exhaustedTrace]
    | succ j =>
      have h := ih (i + 1) j
      have e : 2 * (j + 1) + 1 = (2 * j + 1) + 1 + 1 := by omega
      rw [e]
      simp only [exhaustedTrace, List.getElem?_cons_succ, h, Nat.add_lt_add_iff_right]

theorem exhaustedTrace_attempt_mem (delayMs : Nat) :
    ∀ k i j : Nat, Event.attempt j ∈ exhaustedTrace delayMs i k → i ≤ j ∧ j ≤ i + k := by
  intro k
  induction k with
  | zero =>
    intro i j h
    simp [exhaustedTrace] at h
    omega
  | succ k ih =>
    intro i j h
    simp only [exhaustedTrace, List.mem_cons] at h
    rcases h with h | h | h
    · injection h with h
      omega
    · exact absurd h (by simp)
    · have h1 := ih (i + 1) j h
      omega

theorem connectLoop_first_success (sqlConnect : Config → Nat → Except String Pool)
    (config : Config) (retries : Int) (delayMs : Nat) (pool : Pool) :
    ∀ (k i : Nat) (trace : List Event), (i : Int) + k < retries →
      (∀ j, j < k → ∃ msg, sqlConnect config (i + j) = .error msg) →
      sqlConnect config (i + k) = .ok pool →
      connectLoop sqlConnect config retries delayMs i trace
        = (.ok (some pool), trace ++ exhaustedTrace delayMs i k) := by
  intro k
  induction k with
  | zero =>
    intro i trace h _ hok
    have h1 : (i : Int) < retries := by omega
    rw [connectLoop]
    simp only [Nat.add_zero] at hok
    simp [hok, h1, exhaustedTrace]
  | succ k ih =>
    intro i trace h hfail hok
    have h1 : (i : Int) < retries := by omega
    have h2 : ¬ (i : Int) = retries - 1 := by omega
    obtain ⟨msg, hmsg⟩ := hfail 0 (Nat.succ_pos k)
    simp only [Nat.add_zero] at hmsg
    rw [connectLoop]
    simp only [hmsg, h1, h2, if_true, if_false]
    rw [ih (i + 1) _ (by push_cast; omega)
      (fun j hj => by
        have h3 := hfail (j + 1) (Nat.succ_lt_succ hj)
        rwa [show i + (j + 1) = i + 1 + j by omega] at h3)
      (by rwa [show i + 1 + k = i + (k + 1) by omega])]
    simp [exhaustedTrace]

theorem connectLoop_shape (sqlConnect : Config → Nat → Except String Pool)
    (config : Config) (retries : Int) (delayMs : Nat) :
    ∀ (n i : Nat) (trace : List Event), (retries - i).toNat = n → (i : Int) < retries →
      ∃ m : Nat, (i : Int) + m < retries
        ∧ (connectLoop sqlConnect config retries delayMs i trace).2
            = trace ++ exhaustedTrace delayMs i m
        ∧ (∀ j, j < m → ∃ msg, sqlConnect config (i + j) = .error msg)
        ∧ ((∃ pool, sqlConnect config (i + m) = .ok pool
              ∧ (connectLoop sqlConnect config retries delayMs i trace).1 = .ok (some pool))
          ∨ (∃ msg, sqlConnect config (i + m) = .error msg ∧ (i : Int) + m = retries - 1
              ∧ (connectLoop sqlConnect config retries delayMs i trace).1
                = .error (.driver msg))) := by
  intro n
  induction n with
  | zero => intro i trace h h1; omega
  | succ n ih =>
    intro i trace h h1
    rw [connectLoop]
    cases hc : sqlConnect config i with
    | ok pool =>
      refine ⟨0, by simpa using h1, by simp [h1, exhaustedTrace], ?_, ?_⟩
      · intro j hj; omega
      · exact Or.inl ⟨pool, by simpa using hc, by simp [h1]⟩
    | error err =>
      by_cases h2 : (i : Int) = retries - 1
      · refine ⟨0, by simpa using h1, by simp [h1, h2, exhaustedTrace], ?_, ?_⟩
        · intro j hj; omega
        · exact Or.inr ⟨err, by simpa using hc, by simpa using h2, by simp [h1, h2]⟩
      · simp only [h1, h2, if_true, if_false]
        obtain ⟨m, hm, htr, hfail, hres⟩ :=
          ih (i + 1) (trace ++ [.attempt i, .wait delayMs]) (by push_cast; omega)
            (by push_cast; omega)
        refine ⟨m + 1, by push_cast at hm ⊢; omega, ?_, ?_, ?_⟩
        · rw [htr]; simp [exhaustedTrace]
        · intro j hj
          cases j with
          | zero => exact ⟨err, by simpa using hc⟩
          | succ j =>
            obtain ⟨msg, hmsg⟩ := hfail j (by omega)
            exact ⟨msg, by rwa [show i + (j + 1) = i + 1 + j by omega]⟩
        · have e : i + (m + 1) = i + 1 + m := by omega
          rw [e]
          rcases hres with ⟨pool, hp, hr⟩ | ⟨msg, hp, hl, hr⟩
          · exact Or.inl ⟨pool, hp, hr⟩
          · exact Or.inr ⟨msg, hp, by push_cast at hl ⊢; omega, hr⟩

theorem connect_with_credentials (env : Env)
    (sqlConnect : Config → Nat → Except String Pool) (retries : Int) (delayMs : Nat)
    (u p : String) (huser : env.DB_USER = some u) (hu : u ≠ "")
    (hpassword : env.DB_PASSWORD = some p) (hp : p ≠ "") :
    connect env sqlConnect retries delayMs
      = connectLoop sqlConnect (mkConfig env) retries delayMs 0 [] := by
  simp [connect, mkConfig, huser, hpassword, falsy_some u hu, falsy_some p hp]

/-! ### Auxiliary facts: the accessor -/

theorem connect_ok_some (env : Env) (sqlConnect : Config → Nat → Except String Pool)
    (retries : Int) (delayMs : Nat) (hretries : 1 ≤ retries) (r : Option Pool)
    (h : (connect env sqlConnect retries delayMs).1 = .ok r) : ∃ pool, r = some pool := by
  unfold connect at h
  simp only at h
  split at h
  · exact absurd h (by simp)
  · obtain ⟨m, _, _, _, hres⟩ :=
      connectLoop_shape sqlConnect (mkConfig env) retries delayMs _ 0 [] rfl (by omega)
    rcases hres with ⟨pool, _, hr⟩ | ⟨msg, _, _, hr⟩
    · rw [hr] at h
      injection h with h
      exact ⟨pool, h.symm⟩
    · rw [hr] at h
      exact absurd h (by simp)

theorem getDb_cached (numberToString : JsNumber → String) (env : Env)
    (sqlConnect : Config → Nat → Except String Pool) (obj : Nat) (m : Module) (pool : Pool)
    (h : m._pool = some pool) :
    getDb numberToString env sqlConnect obj m = (.ok (handle numberToString obj), m) := by
  simp [getDb, h]

theorem getDbConnect_ok (numberToString : JsNumber → String) (env : Env)
    (sqlConnect : Config → Nat → Except String Pool) (obj : Nat) (m m1 : Module)
    (h1 : Handle)
    (h : getDbConnect numberToString env sqlConnect obj m = (.ok h1, m1)) :
    h1 = handle numberToString obj
      ∧ ∃ pool, m1._pool = some pool ∧ m1.created = m.created ++ [pool] := by
  unfold getDbConnect at h
  split at h
  · rename_i r trace hc
    have hr : (connect env (fun config i => sqlConnect config (m.calls + i))
        defaultRetries defaultDelayMs).1 = .ok r := by rw [hc]
    obtain ⟨pool, hpool⟩ := connect_ok_some env _ defaultRetries defaultDelayMs
      (by decide) r hr
    subst hpool
    injection h with ha hb
    injection ha with ha
    subst hb
    exact ⟨ha.symm, pool, rfl, rfl⟩
  · injection h with ha _
    exact absurd ha (by simp)

theorem getDbConnect_first_try (numberToString : JsNumber → String) (env : Env)
    (sqlConnect : Config → Nat → Except String Pool) (obj : Nat) (m : Module)
    (u p : String) (pool : Pool)
    (huser : env.DB_USER = some u) (hu : u ≠ "")
    (hpassword : env.DB_PASSWORD = some p) (hp : p ≠ "")
    (hok : sqlConnect (mkConfig env) m.calls = .ok pool) :
    getDbConnect numberToString env sqlConnect obj m
      = (.ok (handle numberToString obj),
          ⟨some pool, m.calls + 1, m.created ++ [pool], m.events ++ [.attempt 0]⟩) := by
  have hc : connect env (fun config i => sqlConnect config (m.calls + i))
      defaultRetries defaultDelayMs = (.ok (some pool), [.attempt 0]) := by
    rw [connect_with_credentials env _ defaultRetries defaultDelayMs u p huser hu hpassword hp,
      connectLoop_first_success _ (mkConfig env) defaultRetries defaultDelayMs pool 0 0 []
        (by decide) (fun j hj => absurd hj (by omega)) (by simpa using hok)]
    rfl
  unfold getDbConnect
  rw [hc]
  rfl

theorem getDb_fresh_first_try (numberToString : JsNumber → String) (env : Env)
    (sqlConnect : Config → Nat → Except String Pool) (obj : Nat) (m : Module)
    (u p : String) (pool : Pool)
    (hfresh : m._pool = none)
    (huser : env.DB_USER = some u) (hu : u ≠ "")
    (hpassword : env.DB_PASSWORD = some p) (hp : p ≠ "")
    (hok : sqlConnect (mkConfig env) m.calls = .ok pool) :
    getDb numberToString env sqlConnect obj m
      = (.ok (handle numberToString obj),
          ⟨some pool, m.calls + 1, m.created ++ [pool], m.events ++ [.attempt 0]⟩) := by
  unfold getDb
  rw [hfresh]
  exact getDbConnect_first_try numberToString env sqlConnect obj m u p pool huser hu
    hpassword hp hok

theorem run_enter_settle (numberToString : JsNumber → String) (env : Env)
    (sqlConnect : Config → Nat → Except String Pool) (m : Module) :
    (run numberToString env sqlConnect ⟨m, [.fresh]⟩ [.enter 0, .settle 0]).state
        = (getDb numberToString env sqlConnect 0 m).2
      ∧ (run numberToString env sqlConnect ⟨m, [.fresh]⟩ [.enter 0, .settle 0]).tasks
        = [.returned (getDb numberToString env sqlConnect 0 m).1] := by
  cases h : m._pool <;> simp [run, step, getDb, h]

/-! ### Auxiliary facts: counting the placeholders of the product queries -/

theorem countQ_append (a b : String) :
    countQ (a ++ b).data = countQ a.data + countQ b.data := by
  simp [countQ, String.data_append]

theorem countQ_intercalate_go (ids : List JsVal) :
    ∀ acc : String,
      countQ (String.intercalate.go acc "," (ids.map (fun _ => "?"))).data
        = countQ acc.data + ids.length := by
  induction ids with
  | nil => intro acc; simp [String.intercalate.go]
  | cons v vs ih =>
    intro acc
    have h1 : countQ ("," : String).data = 0 := by decide
    have h2 : countQ ("?" : String).data = 1 := by decide
    rw [List.map_cons, String.intercalate.go, ih, countQ_append, countQ_append, h1, h2,
      List.length_cons]
    omega

theorem countQ_placeholders (ids : List JsVal) :
    countQ (",".intercalate (ids.map (fun _ => "?"))).data = ids.length := by
  cases ids with
  | nil => decide
  | cons v vs =>
    have h2 : countQ ("?" : String).data = 1 := by decide
    rw [List.map_cons, String.intercalate, countQ_intercalate_go, h2, List.length_cons]
    omega

theorem countQ_productsWhere (r : ProductsRequest) :
    countQ (productsWhere r).1.data = (if truthy r.categoryId then 1 else 0)
      ∧ (productsWhere r).2.length = (if truthy r.categoryId then 1 else 0) := by
  have h0 : countQ ("p.IsActive = 1" : String).data = 0 := by decide
  have h1 : countQ (" AND p.CategoryId = ?" : String).data = 1 := by decide
  have h2 : countQ (" AND p.IsFeatured = 1" : String).data = 0 := by decide
  cases hc : truthy r.categoryId <;> by_cases hf : r.featured = some "true" <;>
    simp only [productsWhere, hc, hf, countQ_append, h0, h1, h2, Bool.false_eq_true,
      if_true, if_false, List.nil_append, List.length_cons, List.length_nil] <;>
    decide

set_option maxRecDepth 100000 in
theorem countQ_templates :
    countQ listHead.data = 0 ∧ countQ listTail.data = 2 ∧ countQ imageHead.data = 0
      ∧ countQ imageTail.data = 0 ∧ countQ totalHead.data = 0 ∧ countQ totalTail.data = 0 := by
  refine ⟨?_, ?_, ?_, ?_, ?_, ?_⟩ <;> decide

/-! ### Auxiliary facts: a retry count that allows no attempt -/

theorem connectLoop_no_retries (sqlConnect : Config → Nat → Except String Pool)
    (config : Config) (retries : Int) (delayMs : Nat) (h : retries ≤ 0) (i : Nat)
    (trace : List Event) :
    connectLoop sqlConnect config retries delayMs i trace = (.ok none, trace) := by
  have h1 : ¬ (i : Int) < retries := by omega
  rw [connectLoop]
  simp [h1]

theorem getDbWith_defaults (numberToString : JsNumber → String) (env : Env)
    (sqlConnect : Config → Nat → Except String Pool) (obj : Nat) (m : Module) :
    getDbWith numberToString env sqlConnect defaultRetries defaultDelayMs obj m
      = getDb numberToString env sqlConnect obj m := by
  rfl

/-! ### Auxiliary facts: joined placeholder lists -/

theorem intercalate_go_data (s : String) (l : List String) :
    ∀ acc : String,
      (String.intercalate.go acc s l).data
        = acc.data ++ (l.map (fun a => s.data ++ a.data)).flatten := by
  induction l with
  | nil => intro acc; simp [String.intercalate.go]
  | cons a as ih =>
    intro acc
    simp [String.intercalate.go, ih, String.data_append, List.append_assoc]

theorem intercalate_cons_data (s a : String) (as : List String) :
    (s.intercalate (a :: as)).data
      = a.data ++ (as.map (fun b => s.data ++ b.data)).flatten := by
  simp [String.intercalate, intercalate_go_data]

theorem toTsqlFrom_clean_question (l : List Char) (h : '?' ∉ l) (i : Nat)
    (more : List Char) :
    toTsqlFrom i (l ++ '?' :: more) = l ++ (marker i ++ toTsqlFrom (i + 1) more) := by
  have hc : countQ l = 0 := List.count_eq_zero.mpr h
  rw [toTsqlFrom_append, toTsqlFrom_no_marker l h, hc]
  simp [toTsqlFrom]

theorem toTsqlFrom_clean (l : List Char) (h : countQ l = 0) (i : Nat) :
    toTsqlFrom i l = l :=
  toTsqlFrom_no_marker l (List.count_eq_zero.mp h) i

theorem marker_eq_text (i : Nat) : marker i = ("@p" ++ Nat.repr i).data := by
  simp [marker, String.data_append]

theorem toTsqlFrom_commas (vs : List JsVal) :
    ∀ (i : Nat) (rest : List Char),
      toTsqlFrom i
          (((vs.map (fun _ => "?")).map (fun a => (",": String).data ++ a.data)).flatten ++ rest)
        = (((List.range' i vs.length).map (fun j => "@p" ++ Nat.repr j)).map
            (fun a => (",": String).data ++ a.data)).flatten
          ++ toTsqlFrom (i + vs.length) rest := by
  induction vs with
  | nil => intro i rest; simp
  | cons v vs ih =>
    intro i rest
    have hstep := toTsqlFrom_clean_question [','] (by decide) i
      (((vs.map (fun _ => "?")).map (fun a => (",": String).data ++ a.data)).flatten ++ rest)
    simp only [List.map_cons, List.flatten_cons, List.length_cons, List.range'_succ,
      List.append_assoc]
    have e1 : (",": String).data ++ (("?": String).data ++
        (((vs.map (fun _ => "?")).map (fun a => (",": String).data ++ a.data)).flatten ++ rest))
        = [','] ++ '?' ::
          (((vs.map (fun _ => "?")).map (fun a => (",": String).data ++ a.data)).flatten
            ++ rest) := rfl
    rw [e1, hstep, ih (i + 1) rest, marker_eq_text]
    have e2 : i + 1 + vs.length = i + (vs.length + 1) := by omega
    rw [e2]

theorem toTsql_in_list (head tail : String) (hh : countQ head.data = 0)
    (ht : countQ tail.data = 0) (v : JsVal) (vs : List JsVal) :
    toTsql (head ++ ",".intercalate ((v :: vs).map (fun _ => "?")) ++ tail)
      = head ++ ",".intercalate ((List.range (vs.length + 1)).map (fun i => "@p" ++ Nat.repr i))
          ++ tail := by
  apply String.ext
  have hr : List.range (vs.length + 1) = 0 :: List.range' 1 vs.length := by
    rw [List.range_eq_range', List.range'_succ]
  have hstep := toTsqlFrom_clean_question head.data (List.count_eq_zero.mp hh) 0
    (((vs.map (fun _ => "?")).map (fun a => (",": String).data ++ a.data)).flatten ++ tail.data)
  have e1 : (head ++ ",".intercalate ((v :: vs).map (fun _ => "?")) ++ tail).data
      = head.data ++ '?' ::
        (((vs.map (fun _ => "?")).map (fun a => (",": String).data ++ a.data)).flatten
          ++ tail.data) := by
    rw [String.data_append, String.data_append, List.map_cons, intercalate_cons_data]
    simp [List.append_assoc]
  show toTsqlFrom 0 _ = _
  rw [e1, hstep, toTsqlFrom_commas vs 1 tail.data, toTsqlFrom_clean tail.data ht, hr,
    String.data_append, String.data_append, List.map_cons, intercalate_cons_data,
    marker_eq_text]
  simp [List.append_assoc]

theorem toTsqlFrom_clauses (fs : List String) (hfs : ∀ f ∈ fs, '?' ∉ f.data) :
    ∀ (i : Nat) (rest : List Char),
      toTsqlFrom i
          (((fs.map (fun f => f ++ " = ?")).map (fun a => (", ": String).data ++ a.data)).flatten
            ++ rest)
        = (((fs.enumFrom i).map (fun p => p.2 ++ " = @p" ++ Nat.repr p.1)).map
            (fun a => (", ": String).data ++ a.data)).flatten
          ++ toTsqlFrom (i + fs.length) rest := by
  induction fs with
  | nil => intro i rest; simp
  | cons f fs ih =>
    intro i rest
    have hf : '?' ∉ (", ": String).data ++ f.data ++ (" = ": String).data := by
      have h1 := hfs f (List.mem_cons_self _ _)
      simp only [List.mem_append, not_or]
      exact ⟨⟨by decide, h1⟩, by decide⟩
    have hstep := toTsqlFrom_clean_question _ hf i
      (((fs.map (fun f => f ++ " = ?")).map (fun a => (", ": String).data ++ a.data)).flatten
        ++ rest)
    have e1 : (", ": String).data ++ (f ++ " = ?").data ++
        (((fs.map (fun f => f ++ " = ?")).map (fun a => (", ": String).data ++ a.data)).flatten
          ++ rest)
        = ((", ": String).data ++ f.data ++ (" = ": String).data) ++ '?' ::
          (((fs.map (fun f => f ++ " = ?")).map
            (fun a => (", ": String).data ++ a.data)).flatten ++ rest) := by
      simp [String.data_append, List.append_assoc]
    simp only [List.map_cons, List.flatten_cons, List.length_cons, List.enumFrom_cons]
    rw [List.append_assoc, e1, hstep,
      ih (fun g hg => hfs g (List.mem_cons_of_mem _ hg)) (i + 1) rest, marker_eq_text]
    have e2 : i + 1 + fs.length = i + (fs.length + 1) := by omega
    rw [e2]
    simp [String.data_append, List.append_assoc]

set_option maxRecDepth 100000 in
theorem countQ_more_templates :
    countQ categoryImageHead.data = 0 ∧ countQ categoryImageTail.data = 0
      ∧ countQ updateHead.data = 0 ∧ countQ updateTail.data = 1 := by
  refine ⟨?_, ?_, ?_, ?_⟩ <;> decide

theorem inviterFields_clean : ∀ f ∈ inviterFields, '?' ∉ f.data := by
  decide

theorem definedFields_clean (body : String → JsVal) :
    ∀ f ∈ definedFields body, '?' ∉ f.data := by
  intro f hf
  exact inviterFields_clean f (List.mem_filter.mp hf).1

theorem countQ_clauses (sep : List Char) (hsep : countQ sep = 0) (fs : List String)
    (hfs : ∀ f ∈ fs, '?' ∉ f.data) :
    countQ ((fs.map (fun f => f ++ " = ?")).map (fun a => sep ++ a.data)).flatten
      = fs.length := by
  induction fs with
  | nil => simp [countQ]
  | cons f fs ih =>
    have h1 : countQ f.data = 0 := List.count_eq_zero.mpr (hfs f (List.mem_cons_self _ _))
    have h2 := ih (fun g hg => hfs g (List.mem_cons_of_mem _ hg))
    have h3 : countQ (" = ?" : String).data = 1 := by decide
    simp only [countQ] at h1 h2 h3 hsep
    simp only [countQ, List.map_cons, List.flatten_cons, List.count_append, String.data_append,
      List.length_cons, h1, h2, h3, hsep]
    omega

theorem countQ_setClauses (fs : List String) (hfs : ∀ f ∈ fs, '?' ∉ f.data) :
    countQ (setClauses fs).data = fs.length := by
  cases fs with
  | nil => decide
  | cons f fs =>
    have h1 : countQ f.data = 0 := List.count_eq_zero.mpr (hfs f (List.mem_cons_self _ _))
    have h2 := countQ_clauses (", " : String).data (by decide) fs
      (fun g hg => hfs g (List.mem_cons_of_mem _ hg))
    have h3 : countQ (" = ?" : String).data = 1 := by decide
    simp only [countQ] at h1 h2 h3
    unfold setClauses
    rw [List.map_cons, intercalate_cons_data]
    simp only [countQ, List.count_append, String.data_append, List.length_cons, h1, h2, h3]
    omega

theorem toTsql_update (f : String) (fs : List String)
    (hfs : ∀ g ∈ f :: fs, '?' ∉ g.data) :
    toTsql (updateHead ++ setClauses (f :: fs) ++ updateTail)
      = updateHead
          ++ ", ".intercalate ((f :: fs).enum.map (fun p => p.2 ++ " = @p" ++ Nat.repr p.1))
          ++ (" WHERE Inviter_id = @p" ++ Nat.repr (fs.length + 1) ++ "\n      ") := by
  apply String.ext
  have hhead : '?' ∉ updateHead.data ++ f.data ++ (" = " : String).data := by
    have h1 := hfs f (List.mem_cons_self _ _)
    simp only [List.mem_append, not_or]
    exact ⟨⟨by decide, h1⟩, by decide⟩
  have hstep := toTsqlFrom_clean_question _ hhead 0
    (((fs.map (fun f => f ++ " = ?")).map (fun a => (", " : String).data ++ a.data)).flatten
      ++ updateTail.data)
  have e1 : (updateHead ++ setClauses (f :: fs) ++ updateTail).data
      = (updateHead.data ++ f.data ++ (" = " : String).data) ++ '?' ::
        (((fs.map (fun f => f ++ " = ?")).map
          (fun a => (", " : String).data ++ a.data)).flatten ++ updateTail.data) := by
    unfold setClauses
    rw [String.data_append, String.data_append, List.map_cons, intercalate_cons_data]
    simp [String.data_append, List.append_assoc]
  have htail := toTsqlFrom_clean_question (" WHERE Inviter_id = " : String).data (by decide)
    (0 + 1 + fs.length) ("\n      " : String).data
  have e2 : updateTail.data
      = (" WHERE Inviter_id = " : String).data ++ '?' :: ("\n      " : String).data := by
    decide
  show toTsqlFrom 0 _ = _
  rw [e1, hstep, toTsqlFrom_clauses fs (fun g hg => hfs g (List.mem_cons_of_mem _ hg)) (0 + 1)
    updateTail.data, e2, htail, toTsqlFrom_clean ("\n      " : String).data (by decide),
    marker_eq_text, marker_eq_text, List.enum_cons, List.map_cons]
  simp only [String.data_append, intercalate_cons_data, List.append_assoc, Nat.zero_add]
  have e3 : 1 + fs.length = fs.length + 1 := by omega
  rw [e3]
  rfl

/-! ### Auxiliary facts: the generated tasks -/

theorem feedLoop_some (m : Nat) :
    ∀ (n i : Nat) (tasks : List Task), m - i = n →
      feedLoop (some (m : Int)) i tasks
        = tasks ++ (List.range' i (m - i)).map
            (fun j => (⟨"Faire manger bébé", groupForIndex j⟩ : Task)) := by
  intro n
  induction n with
  | zero =>
    intro i tasks h
    have hb : belowMeals i (some (m : Int)) = false := by
      simp only [belowMeals, decide_eq_false_iff_not]
      omega
    rw [feedLoop, h]
    simp [hb]
  | succ n ih =>
    intro i tasks h
    have hb : belowMeals i (some (m : Int)) = true := by
      simp only [belowMeals, decide_eq_true_eq]
      omega
    have h1 : m - (i + 1) = n := by omega
    rw [feedLoop, h, ih (i + 1) _ h1, h1]
    simp [hb, List.range'_succ]

theorem groupForIndex_mem (i : Nat) :
    groupForIndex i ∈ ["Morning", "Day", "Afternoon", "Night"] := by
  unfold groupForIndex
  split
  · simp
  · split
    · simp
    · split <;> simp

theorem generateTasks_eq (m : Nat) (takesMedicine : Bool) :
    generateTasks (some (m : Int)) takesMedicine
      = [(⟨"Petit déjeuner", "Morning"⟩ : Task)]
        ++ (List.range m).map (fun j => (⟨"Faire manger bébé", groupForIndex j⟩ : Task))
        ++ (if takesMedicine then [(⟨"Prendre les médicaments", "Day"⟩ : Task)] else [])
        ++ [⟨"Jouer avec bébé", "Afternoon"⟩, ⟨"Dîner", "Night"⟩, ⟨"Dodo", "Night"⟩] := by
  unfold generateTasks
  simp only []
  rw [feedLoop_some m (m - 0) 0 _ rfl, Nat.sub_zero, List.range_eq_range']
  cases takesMedicine <;> simp

theorem insertLoop_result (insertOk : Nat → Bool) (dayStr : String) (tasks : List Task) :
    ∀ (inserted : Nat) (calls : List (String × List JsVal)),
      (insertLoop insertOk dayStr tasks inserted calls).1 = none
        ∨ ((insertLoop insertOk dayStr tasks inserted calls).1 = some (inserted + tasks.length)
          ∧ (insertLoop insertOk dayStr tasks inserted calls).2.length
            = calls.length + tasks.length) := by
  induction tasks with
  | nil => intro inserted calls; right; simp [insertLoop]
  | cons t rest ih =>
    intro inserted calls
    cases hk : insertOk inserted with
    | false => left; simp [insertLoop, hk]
    | true =>
      simp only [insertLoop, hk, if_true]
      rcases ih (inserted + 1)
        (calls ++ [(insertTaskSql, [.string dayStr, .string t.task, .string t.group])]) with h | h
      · exact Or.inl h
      · right
        rw [h.1, h.2]
        simp only [List.length_append, List.length_cons, List.length_nil]
        constructor
        · congr 1; omega
        · omega

theorem insertLoop_all_ok (dayStr : String) (tasks : List Task) :
    ∀ (inserted : Nat) (calls : List (String × List JsVal)),
      insertLoop (fun _ => true) dayStr tasks inserted calls
        = (some (inserted + tasks.length),
            calls ++ tasks.map (fun t =>
              (insertTaskSql, [.string dayStr, .string t.task, .string t.group]))) := by
  induction tasks with
  | nil => intro inserted calls; simp [insertLoop]
  | cons t rest ih =>
    intro inserted calls
    simp only [insertLoop, if_true, ih, List.length_cons, List.map_cons, List.append_assoc,
      List.singleton_append]
    congr 2
    omega

/-! ### Auxiliary facts: spreading configurations -/

theorem lookup_cons_ite (ek : String) (ev : ConfigValue) (es : RateConfig) (k : String) :
    List.lookup k ((ek, ev) :: es) = if k = ek then some ev else es.lookup k := by
  rw [List.lookup_cons]
  by_cases h : k = ek
  · have h3 : (k == ek) = true := by simpa using h
    rw [h3, if_pos h]
  · have h3 : (k == ek) = false := by simpa using h
    rw [h3, if_neg h]

theorem lookup_map_setKey (key : String) (value : ConfigValue) (k : String) :
    ∀ config : RateConfig,
      (config.map (fun entry => if entry.1 = key then (key, value) else entry)).lookup k
        = if k = key then (if config.any (fun entry => entry.1 = key) then some value else none)
          else config.lookup k := by
  intro config
  induction config with
  | nil => simp [List.lookup]
  | cons e es ih =>
    obtain ⟨ek, ev⟩ := e
    by_cases h1 : ek = key
    · have hhead : (if ((ek, ev) : String × ConfigValue).1 = key then (key, value)
          else (ek, ev)) = (key, value) := if_pos h1
      have hany : ((ek, ev) :: es).any (fun entry => entry.1 = key) = true := by
        simp [h1]
      rw [List.map_cons, hhead, lookup_cons_ite, lookup_cons_ite, ih, hany]
      by_cases h2 : k = key
      · have h3 : k = ek := by rw [h1]; exact h2
        simp only [if_pos h2, if_pos h3, if_true]
      · have h3 : ¬ k = ek := by rw [h1]; exact h2
        simp only [if_neg h2, if_neg h3]
    · have hhead : (if ((ek, ev) : String × ConfigValue).1 = key then (key, value)
          else (ek, ev)) = (ek, ev) := if_neg h1
      have hany : ((ek, ev) :: es).any (fun entry => entry.1 = key)
          = es.any (fun entry => entry.1 = key) := by
        simp [h1]
      rw [List.map_cons, hhead, lookup_cons_ite, lookup_cons_ite, ih, hany]
      by_cases h2 : k = key
      · have h3 : ¬ k = ek := by rw [h2]; exact fun e => h1 e.symm
        simp only [if_pos h2, if_neg h3]
      · simp only [if_neg h2]

theorem lookup_append_single (config : RateConfig) (key : String) (value : ConfigValue)
    (k : String) (h : config.any (fun entry => entry.1 = key) = false) :
    (config ++ [(key, value)]).lookup k
      = if k = key then some value else config.lookup k := by
  induction config with
  | nil =>
    rw [List.nil_append, lookup_cons_ite]
  | cons e es ih =>
    obtain ⟨ek, ev⟩ := e
    simp only [List.any_cons, Bool.or_eq_false_iff, decide_eq_false_iff_not] at h
    rw [List.cons_append, lookup_cons_ite, lookup_cons_ite, ih h.2]
    by_cases h4 : k = ek
    · have h5 : ¬ k = key := by rw [h4]; exact h.1
      simp only [if_pos h4, if_neg h5]
    · simp only [if_neg h4]

theorem lookup_setKey (config : RateConfig) (key : String) (value : ConfigValue)
    (k : String) :
    (setKey config key value).lookup k
      = if k = key then some value else config.lookup k := by
  unfold setKey
  cases h : config.any (fun entry => entry.1 = key) with
  | true =>
    simp only [if_true]
    rw [lookup_map_setKey, h]
    simp
  | false =>
    simp only [Bool.false_eq_true, if_false]
    exact lookup_append_single config key value k h

theorem lookup_spread (k : String) :
    ∀ (b a : RateConfig), (b.map Prod.fst).Nodup →
      (spread a b).lookup k = (b.lookup k).or (a.lookup k) := by
  intro b
  induction b with
  | nil => intro a _; simp [spread, List.lookup]
  | cons e es ih =>
    intro a hnd
    obtain ⟨ek, ev⟩ := e
    simp only [List.map_cons, List.nodup_cons] at hnd
    have h1 : spread a ((ek, ev) :: es) = spread (setKey a ek ev) es := rfl
    rw [h1, ih _ hnd.2, lookup_setKey, lookup_cons_ite]
    by_cases h2 : k = ek
    · have h3 : es.lookup k = none := by
        rw [List.lookup_eq_none_iff]
        intro p hp
        simp only [bne_iff_ne, ne_eq]
        intro e
        exact hnd.1 (List.mem_map.mpr ⟨p, hp, by rw [← e, h2]⟩)
      rw [h3, if_pos h2, if_pos h2]
      rfl
    · rw [if_neg h2, if_neg h2]

theorem globalConfig_keys (nodeEnv : Option String) :
    (globalConfig nodeEnv).map Prod.fst
      = ["max", "timeWindow", "ban", "cache", "allowList", "enabled", "redis", "skipOnError",
          "onBanReach", "keyGenerator", "errorResponseBuilder"] := by
  rfl

theorem spread_global (nodeEnv : Option String) :
    spread (globalConfig nodeEnv) (globalConfig nodeEnv) = globalConfig nodeEnv
      ∧ spread (globalConfig nodeEnv) authConfig
        = [("max", .num 5), ("timeWindow", .str "15 minutes"), ("ban", .num 2),
            ("cache", .num 10000), ("allowList", .list ["127.0.0.1", "::1", "localhost"]),
            ("enabled", .bool (decide (nodeEnv ≠ some "development"))), ("redis", .null),
            ("skipOnError", .bool true), ("onBanReach", .func "onBanReach"),
            ("keyGenerator", .func "keyGenerator"),
            ("errorResponseBuilder", .func "errorResponseBuilder")]
      ∧ (spread (globalConfig nodeEnv) authConfig).map Prod.fst
        = (globalConfig nodeEnv).map Prod.fst
      ∧ (spread (globalConfig nodeEnv) uploadConfig).map Prod.fst
        = (globalConfig nodeEnv).map Prod.fst
      ∧ (spread (globalConfig nodeEnv) readConfig).map Prod.fst
        = (globalConfig nodeEnv).map Prod.fst := by
  refine ⟨?_, ?_, ?_, ?_, ?_⟩ <;>
    simp [spread, setKey, globalConfig, authConfig, uploadConfig, readConfig]

theorem rateLimitConfigAt_cases (nodeEnv : Option String) (type : String) :
    (type = "global" ∧ rateLimitConfigAt nodeEnv type = some (globalConfig nodeEnv))
      ∨ (type = "auth" ∧ rateLimitConfigAt nodeEnv type = some authConfig)
      ∨ (type = "upload" ∧ rateLimitConfigAt nodeEnv type = some uploadConfig)
      ∨ (type = "read" ∧ rateLimitConfigAt nodeEnv type = some readConfig)
      ∨ ((type ≠ "global" ∧ type ≠ "auth" ∧ type ≠ "upload" ∧ type ≠ "read")
        ∧ rateLimitConfigAt nodeEnv type = none) := by
  unfold rateLimitConfigAt
  by_cases h1 : type = "global"
  · left; simp [h1]
  by_cases h2 : type = "auth"
  · right; left; simp [h2]
  by_cases h3 : type = "upload"
  · right; right; left; simp [h3]
  by_cases h4 : type = "read"
  · right; right; right; left; simp [h4]
  · right; right; right; right
    simp [h1, h2, h3, h4]

/-! ### Auxiliary facts: documents looked up after a save -/

theorem find?_map_commande (id : Nat) (f : Commande → Commande)
    (hf : ∀ commande, (f commande)._id = commande._id) :
    ∀ l : List Commande,
      (l.map f).find? (fun commande => commande._id = id)
        = (l.find? (fun commande => commande._id = id)).map f := by
  intro l
  induction l with
  | nil => rfl
  | cons c cs ih =>
    by_cases h : c._id = id
    · simp [List.find?, hf, h]
    · simp [List.find?, hf, h, ih]

theorem find?_map_product (id : Nat) (f : Product → Product)
    (hf : ∀ product, (f product)._id = product._id) :
    ∀ l : List Product,
      (l.map f).find? (fun product => product._id = id)
        = (l.find? (fun product => product._id = id)).map f := by
  intro l
  induction l with
  | nil => rfl
  | cons c cs ih =>
    by_cases h : c._id = id
    · simp [List.find?, hf, h]
    · simp [List.find?, hf, h, ih]

/-! ### Auxiliary facts: the order loop -/

theorem find?_id {db : Store} {id : Nat} {product : Product}
    (h : db.products.find? (fun other => other._id = id) = some product) :
    product._id = id := by
  have h1 := List.find?_some h
  simpa using h1

theorem stockOf_saveStock (db : Store) (pid : Nat) (stock : ℚ) (id : Nat) :
    stockOf (saveStock db pid stock) id
      = if id = pid then (stockOf db id).map (fun _ => stock) else stockOf db id := by
  unfold stockOf saveStock
  simp only
  rw [find?_map_product id _ (by intro c; by_cases hc : c._id = pid <;> simp [hc])]
  cases hfind : db.products.find? (fun product => product._id = id) with
  | none => simp
  | some product =>
    have hid := find?_id hfind
    by_cases h : id = pid
    · have h2 : product._id = pid := by rw [hid, h]
      simp [h, h2]
    · have h2 : ¬ product._id = pid := by rw [hid]; exact h
      simp [h, h2]

theorem priceOf_saveStock (db : Store) (pid : Nat) (stock : ℚ) (id : Nat) :
    priceOf (saveStock db pid stock) id = priceOf db id := by
  unfold priceOf saveStock
  simp only
  rw [find?_map_product id _ (by intro c; by_cases hc : c._id = pid <;> simp [hc])]
  cases hfind : db.products.find? (fun product => product._id = id) with
  | none => simp
  | some product =>
    by_cases h2 : product._id = pid <;> simp [h2]

theorem stockAfter_cons (arith : Arith) (item : OrderItem) (rest : List OrderItem)
    (id : Nat) (stock : ℚ) :
    stockAfter arith (item :: rest) id stock
      = stockAfter arith rest id
          (if item.productId = id then arith.sub stock item.quantite else stock) := by
  unfold stockAfter
  by_cases h : item.productId = id <;> simp [List.filter_cons, h]

theorem orderLoop_cons_accept (arith : Arith) (numberText : ℚ → String) (db : Store)
    (item : OrderItem) (rest : List OrderItem) (total : ℚ) (lines : List OrderLine)
    (product : Product)
    (hfind : db.products.find? (fun other => other._id = item.productId) = some product)
    (hstock : ¬ product.stock < item.quantite)
    (hsave : ¬ arith.sub product.stock item.quantite < 0) :
    orderLoop arith numberText db (item :: rest) total lines
      = orderLoop arith numberText
          (saveStock db product._id (arith.sub product.stock item.quantite)) rest
          (arith.add total (arith.mul product.price item.quantite))
          (lines ++ [⟨product._id, product.name, item.quantite, product.price,
            arith.mul product.price item.quantite⟩]) := by
  simp [orderLoop, hfind, hstock, hsave]

theorem orderLoop_cons_cases (arith : Arith) (numberText : ℚ → String) (db : Store)
    (item : OrderItem) (rest : List OrderItem) (total : ℚ) (lines : List OrderLine) :
    (∃ reply, orderLoop arith numberText db (item :: rest) total lines = .rejected reply db
        ∧ reply.success = false
        ∧ ((reply.code = 404
            ∧ db.products.find? (fun other => other._id = item.productId) = none)
          ∨ (reply.code = 400
            ∧ ∃ product, db.products.find? (fun other => other._id = item.productId)
                = some product ∧ product.stock < item.quantite)
          ∨ (reply.code = 500
            ∧ ∃ product, db.products.find? (fun other => other._id = item.productId)
                = some product ∧ ¬ product.stock < item.quantite
              ∧ arith.sub product.stock item.quantite < 0)))
      ∨ (∃ product, db.products.find? (fun other => other._id = item.productId) = some product
          ∧ ¬ product.stock < item.quantite
          ∧ ¬ arith.sub product.stock item.quantite < 0) := by
  cases hfind : db.products.find? (fun other => other._id = item.productId) with
  | none =>
    left
    exact ⟨⟨404, false, "Produit " ++ Nat.repr item.productId ++ " non trouvé"⟩,
      by simp [orderLoop, hfind], rfl, Or.inl ⟨rfl, rfl⟩⟩
  | some product =>
    by_cases hstock : product.stock < item.quantite
    · left
      exact ⟨⟨400, false, "Quantité insuffisante pour " ++ product.name
          ++ ". Disponible: " ++ numberText product.stock⟩,
        by simp [orderLoop, hfind, hstock], rfl,
        Or.inr (Or.inl ⟨rfl, product, rfl, hstock⟩)⟩
    · by_cases hsave : arith.sub product.stock item.quantite < 0
      · left
        exact ⟨⟨500, false, "Erreur lors de la création de la commande"⟩,
          by simp [orderLoop, hfind, hstock, hsave], rfl,
          Or.inr (Or.inr ⟨rfl, product, rfl, hstock, hsave⟩)⟩
      · right
        exact ⟨product, rfl, hstock, hsave⟩

theorem orderLoop_completed (arith : Arith) (numberText : ℚ → String) :
    ∀ (items : List OrderItem) (db : Store) (total : ℚ) (lines : List OrderLine)
      (db1 : Store) (total1 : ℚ) (lines1 : List OrderLine),
      orderLoop arith numberText db items total lines = .completed db1 total1 lines1 →
      ∃ newLines : List OrderLine,
        lines1 = lines ++ newLines
          ∧ total1 = (newLines.map OrderLine.total).foldl arith.add total
          ∧ List.Forall₂ (lineMatches arith db) items newLines
          ∧ db1.commandes = db.commandes
          ∧ (∀ id, priceOf db1 id = priceOf db id)
          ∧ (∀ id, stockOf db1 id = (stockOf db id).map (stockAfter arith items id)) := by
  intro items
  induction items with
  | nil =>
    intro db total lines db1 total1 lines1 h
    simp only [orderLoop, LoopResult.completed.injEq] at h
    obtain ⟨rfl, rfl, rfl⟩ := h
    refine ⟨[], by simp, by simp, List.Forall₂.nil, rfl, fun _ => rfl, ?_⟩
    intro id
    cases stockOf db id <;> simp [stockAfter]
  | cons item rest ih =>
    intro db total lines db1 total1 lines1 h
    rcases orderLoop_cons_cases arith numberText db item rest total lines with
      ⟨reply, hr, _⟩ | ⟨product, hfind, hstock, hsave⟩
    · rw [hr] at h
      exact absurd h (by simp)
    · rw [orderLoop_cons_accept arith numberText db item rest total lines product hfind
        hstock hsave] at h
      obtain ⟨newLines, hl, ht, hm, hc, hp, hs⟩ := ih _ _ _ _ _ _ h
      have hid := find?_id hfind
      refine ⟨⟨product._id, product.name, item.quantite, product.price,
          arith.mul product.price item.quantite⟩ :: newLines, ?_, ?_, ?_, ?_, ?_, ?_⟩
      · rw [hl]; simp
      · rw [ht]; rfl
      · refine List.Forall₂.cons ⟨hid, rfl, ?_, rfl⟩ ?_
        · unfold priceOf
          rw [hfind]
          rfl
        · refine List.Forall₂.imp ?_ hm
          intro it line hline
          obtain ⟨h1, h2, h3, h4⟩ := hline
          rw [priceOf_saveStock] at h3
          exact ⟨h1, h2, h3, h4⟩
      · rw [hc]; rfl
      · intro id
        rw [hp, priceOf_saveStock]
      · intro id
        rw [hs, stockOf_saveStock, hid]
        by_cases hi : id = item.productId
        · have hso : stockOf db id = some product.stock := by
            unfold stockOf
            rw [hi, hfind]
            rfl
          have hi2 : item.productId = id := hi.symm
          rw [if_pos hi, hso]
          simp only [Option.map_some', stockAfter_cons, if_pos hi2]
        · have hi2 : ¬ item.productId = id := fun e => hi e.symm
          rw [if_neg hi]
          cases stockOf db id with
          | none => rfl
          | some s0 =>
            simp only [Option.map_some']
            rw [stockAfter_cons, if_neg hi2]

theorem orderLoop_append (arith : Arith) (numberText : ℚ → String) (rest : List OrderItem) :
    ∀ (pre : List OrderItem) (db : Store) (total : ℚ) (lines : List OrderLine),
      orderLoop arith numberText db (pre ++ rest) total lines
        = (match orderLoop arith numberText db pre total lines with
          | .rejected reply db1 => .rejected reply db1
          | .completed db1 total1 lines1 =>
            orderLoop arith numberText db1 rest total1 lines1) := by
  intro pre
  induction pre with
  | nil => intro db total lines; simp [orderLoop]
  | cons item pre ih =>
    intro db total lines
    simp only [List.cons_append, orderLoop]
    cases hfind : db.products.find? (fun product => product._id = item.productId) with
    | none => simp
    | some product =>
      by_cases hstock : product.stock < item.quantite
      · simp [hstock]
      · by_cases hsave : arith.sub product.stock item.quantite < 0
        · simp [hstock, hsave]
        · simp [hstock, hsave, ih]

theorem orderLoop_stock_nonneg (arith : Arith) (numberText : ℚ → String) :
    ∀ (items : List OrderItem) (db : Store) (total : ℚ) (lines : List OrderLine),
      (∀ product ∈ db.products, 0 ≤ product.stock) →
      ∀ product ∈ (orderLoop arith numberText db items total lines).store.products,
        0 ≤ product.stock := by
  intro items
  induction items with
  | nil =>
    intro db total lines h
    simpa [orderLoop, LoopResult.store] using h
  | cons item rest ih =>
    intro db total lines h
    rcases orderLoop_cons_cases arith numberText db item rest total lines with
      ⟨reply, hr, _⟩ | ⟨product, hfind, hstock, hsave⟩
    · rw [hr]
      exact h
    · rw [orderLoop_cons_accept arith numberText db item rest total lines product hfind
        hstock hsave]
      apply ih
      intro other hother
      simp only [saveStock, List.mem_map] at hother
      obtain ⟨q, hq, rfl⟩ := hother
      by_cases hid : q._id = product._id
      · rw [if_pos hid]
        exact not_lt.mp hsave
      · rw [if_neg hid]
        exact h q hq

theorem orderLoop_commandes (arith : Arith) (numberText : ℚ → String) :
    ∀ (items : List OrderItem) (db : Store) (total : ℚ) (lines : List OrderLine),
      (orderLoop arith numberText db items total lines).store.commandes = db.commandes := by
  intro items
  induction items with
  | nil => intro db total lines; rfl
  | cons item rest ih =>
    intro db total lines
    rcases orderLoop_cons_cases arith numberText db item rest total lines with
      ⟨reply, hr, _⟩ | ⟨product, hfind, hstock, hsave⟩
    · rw [hr]
      rfl
    · rw [orderLoop_cons_accept arith numberText db item rest total lines product hfind
        hstock hsave, ih]
      rfl

theorem postCommande_eq (arith : Arith) (numberText : ℚ → String) (populate : Bool)
    (newId : Nat) (db : Store)
    (request : OrderRequest) (userId : Nat) (items : List OrderItem)
    (hu : request.userId = some userId) (hp : request.products = some items)
    (hne : items ≠ []) :
    postCommande arith numberText populate newId db request
      = (match orderLoop arith numberText db items 0 [] with
        | .rejected reply db1 => (reply, db1)
        | .completed db1 totalCommande productsDetails =>
          if validCommande totalCommande productsDetails then
            (if populate then ⟨201, true, "Commande créée avec succès"⟩
              else ⟨500, false, "Erreur lors de la création de la commande"⟩,
              ⟨db1.products,
                db1.commandes
                  ++ [⟨newId, userId, "en_cours", productsDetails, totalCommande⟩]⟩)
          else (⟨500, false, "Erreur lors de la création de la commande"⟩, db1)) := by
  cases items with
  | nil => exact absurd rfl hne
  | cons item rest =>
    unfold postCommande
    rw [hu, hp]

theorem postCommande_invalid (arith : Arith) (numberText : ℚ → String) (populate : Bool)
    (newId : Nat) (db : Store) (request : OrderRequest)
    (h : request.userId = none ∨ request.products = none ∨ request.products = some []) :
    postCommande arith numberText populate newId db request
      = (⟨400, false, "UserId et produits sont requis"⟩, db) := by
  unfold postCommande
  rcases h with h | h | h
  · rw [h]
  · rw [h]
    cases request.userId <;> rfl
  · rw [h]
    cases request.userId <;> rfl

theorem orderLoop_rejected_code (arith : Arith) (numberText : ℚ → String) :
    ∀ (items : List OrderItem) (db : Store) (total : ℚ) (lines : List OrderLine)
      (reply : Reply) (db1 : Store),
      orderLoop arith numberText db items total lines = .rejected reply db1 →
      reply.success = false
        ∧ (reply.code = 404 ∨ reply.code = 400 ∨ reply.code = 500) := by
  intro items
  induction items with
  | nil =>
    intro db total lines reply db1 h
    simp [orderLoop] at h
  | cons item rest ih =>
    intro db total lines reply db1 h
    rcases orderLoop_cons_cases arith numberText db item rest total lines with
      ⟨reply2, hr, hs, hc⟩ | ⟨product, hfind, hstock, hsave⟩
    · rw [hr] at h
      injection h with h1 _
      subst h1
      refine ⟨hs, ?_⟩
      rcases hc with ⟨h4, _⟩ | ⟨h4, _⟩ | ⟨h5, _⟩
      · exact Or.inl h4
      · exact Or.inr (Or.inl h4)
      · exact Or.inr (Or.inr h5)
    · rw [orderLoop_cons_accept arith numberText db item rest total lines product hfind
        hstock hsave] at h
      exact ih _ _ _ _ _ h

theorem request_cases (request : OrderRequest) :
    (request.userId = none ∨ request.products = none ∨ request.products = some [])
      ∨ ∃ userId items, request.userId = some userId ∧ request.products = some items
          ∧ items ≠ [] := by
  cases hu : request.userId with
  | none => exact Or.inl (Or.inl rfl)
  | some userId =>
    cases hp : request.products with
    | none => exact Or.inl (Or.inr (Or.inl rfl))
    | some items =>
      cases items with
      | nil => exact Or.inl (Or.inr (Or.inr rfl))
      | cons item rest => exact Or.inr ⟨userId, item :: rest, rfl, rfl, by simp⟩

theorem forall₂_mem_right {α β : Type} (r : α → β → Prop) :
    ∀ (xs : List α) (ys : List β), List.Forall₂ r xs ys →
      ∀ y ∈ ys, ∃ x, r x y := by
  intro xs ys h
  induction h with
  | nil =>
    intro y hy
    simp at hy
  | cons hxy _ ih =>
    intro y hy
    rcases List.mem_cons.mp hy with rfl | hy
    · exact ⟨_, hxy⟩
    · exact ih y hy

/-! ### Auxiliary facts: scoring and ordering the matched products -/

theorem foldl_add_eq_sum (g : String → Nat) :
    ∀ (tokens : List String) (start : Nat),
      tokens.foldl (fun score token => score + g token) start
        = start + (tokens.map g).sum := by
  intro tokens
  induction tokens with
  | nil => intro start; simp
  | cons token rest ih =>
    intro start
    rw [List.foldl_cons, ih, List.map_cons, List.sum_cons, Nat.add_assoc]

theorem name_or_empty (name : Option String) :
    (if truthy name then name.getD "" else "") = name.getD "" := by
  cases name with
  | none => simp
  | some s =>
    by_cases h : s = ""
    · simp [truthy, falsy, h]
    · simp [truthy, falsy, h]

theorem scoreOf_eq_scoreSum (toLowerCase : String → String) (analysis : Analysis)
    (product : FoundProduct) :
    scoreOf toLowerCase analysis (finalTokens toLowerCase analysis) product
      = scoreSum toLowerCase analysis product := by
  unfold scoreOf scoreSum
  simp only [name_or_empty]
  rw [← Nat.zero_add (List.sum _), ← foldl_add_eq_sum]
  congr 1
  funext score token
  unfold occursIn
  cases truthyString analysis.brandDetected <;> cases truthyString analysis.serialNumber <;>
    simp only <;> split_ifs <;> simp_all

theorem insertionSort_score_sorted (l : List ScoredProduct) :
    List.Pairwise (fun a b => b.similarityScore ≤ a.similarityScore)
      (l.insertionSort (fun a b => compareScore a b ≤ 0)) := by
  haveI : IsTotal ScoredProduct (fun a b => compareScore a b ≤ 0) :=
    ⟨fun a b => by unfold compareScore; omega⟩
  haveI : IsTrans ScoredProduct (fun a b => compareScore a b ≤ 0) :=
    ⟨fun a b c hab hbc => by unfold compareScore at *; omega⟩
  have h := List.sorted_insertionSort (fun a b : ScoredProduct => compareScore a b ≤ 0) l
  refine List.Pairwise.imp ?_ h
  intro a b hab
  unfold compareScore at hab
  omega

theorem internalFindMatchingProducts_empty (toLowerCase : String → String)
    (nodeEnv : Option String) (validPattern : String → Bool)
    (find : List String → Except MatchError (List FoundProduct))
    (analysis : Analysis) (request : MatchRequest)
    (h : finalTokens toLowerCase analysis = []) :
    internalFindMatchingProducts toLowerCase nodeEnv validPattern find analysis request
      = (.ok [], []) := by
  unfold internalFindMatchingProducts
  simp [h]

theorem internalFindMatchingProducts_found (toLowerCase : String → String)
    (nodeEnv : Option String) (validPattern : String → Bool)
    (find : List String → Except MatchError (List FoundProduct))
    (analysis : Analysis) (request : MatchRequest) (candidates : List FoundProduct)
    (hne : finalTokens toLowerCase analysis ≠ [])
    (hvalid : ∀ t ∈ finalTokens toLowerCase analysis, validPattern t = true)
    (hfind : find (finalTokens toLowerCase analysis) = .ok candidates) :
    internalFindMatchingProducts toLowerCase nodeEnv validPattern find analysis request
      = (.ok
          (((candidates.map
              (scoreProduct toLowerCase nodeEnv analysis request
                (finalTokens toLowerCase analysis))).insertionSort
            (fun a b => compareScore a b ≤ 0)).take 5),
          [finalTokens toLowerCase analysis]) := by
  have hnone : (finalTokens toLowerCase analysis).find? (fun t => !validPattern t) = none := by
    rw [List.find?_eq_none]
    intro t ht
    simp [hvalid t ht]
  unfold internalFindMatchingProducts
  simp only [List.length_eq_zero, if_neg hne, hnone, hfind]

/-! ### Auxiliary facts: the tokens of an analysis -/

theorem truthyString_eq_some (v : JsVal) (s : String) :
    truthyString v = some s ↔ v = .string s ∧ s ≠ "" := by
  cases v with
  | string t =>
    by_cases ht : t = ""
    · simp [truthyString, toBoolean, typeof, ht]
      intro h1
      exact h1.symm
    · simp [truthyString, toBoolean, typeof, ht]
      intro h
      rw [← h]
      exact ht
  | number x => cases x <;> simp [truthyString, toBoolean, typeof]
  | _ => simp [truthyString, toBoolean, typeof]

theorem mem_setAdd (l : List String) (t x : String) :
    x ∈ setAdd l t ↔ x ∈ l ∨ x = t := by
  unfold setAdd
  split_ifs with h
  · constructor
    · exact Or.inl
    · rintro (h1 | rfl)
      · exact h1
      · exact h
  · simp

theorem mem_foldl_setAdd (ts : List String) :
    ∀ (l : List String) (x : String), x ∈ ts.foldl setAdd l ↔ x ∈ l ∨ x ∈ ts := by
  induction ts with
  | nil => intro l x; simp
  | cons t rest ih =>
    intro l x
    rw [List.foldl_cons, ih, mem_setAdd, List.mem_cons]
    tauto

theorem mem_foldl_keywords (toLowerCase : String → String) (ks : List JsVal) :
    ∀ (l : List String) (x : String),
      x ∈ ks.foldl
          (fun tokens k =>
            match truthyString k with
            | some s => setAdd tokens (toLowerCase s)
            | none => tokens)
          l
        ↔ x ∈ l ∨ ∃ k ∈ ks, ∃ s, truthyString k = some s ∧ x = toLowerCase s := by
  induction ks with
  | nil => intro l x; simp
  | cons k rest ih =>
    intro l x
    rw [List.foldl_cons, ih]
    cases hk : truthyString k with
    | none =>
      simp only [List.mem_cons, exists_eq_or_imp, hk]
      simp
    | some s =>
      simp only [List.mem_cons, exists_eq_or_imp, hk, mem_setAdd]
      simp only [Option.some.injEq, exists_eq_left']
      tauto

theorem mem_collectTokens (toLowerCase : String → String) (analysis : Analysis)
    (x : String) :
    x ∈ collectTokens toLowerCase analysis ↔
      (∃ s, truthyString analysis.partNameEn = some s ∧ x ∈ splitSpaces (toLowerCase s))
        ∨ (∃ s, truthyString analysis.partNameFr = some s
            ∧ x ∈ splitSpaces (toLowerCase s))
        ∨ (∃ ks, analysis.keywords = some ks
            ∧ ∃ k ∈ ks, ∃ s, truthyString k = some s ∧ x = toLowerCase s)
        ∨ (∃ s, truthyString analysis.brandDetected = some s ∧ x = toLowerCase s)
        ∨ (∃ s, truthyString analysis.serialNumber = some s ∧ x = toLowerCase s) := by
  unfold collectTokens
  cases h1 : truthyString analysis.partNameEn <;>
    cases h2 : truthyString analysis.partNameFr <;>
    cases h3 : analysis.keywords <;>
    cases h4 : truthyString analysis.brandDetected <;>
    cases h5 : truthyString analysis.serialNumber <;>
    simp only [mem_setAdd, mem_foldl_setAdd, mem_foldl_keywords, List.not_mem_nil,
      false_or, or_false, Option.some.injEq, exists_eq_left', false_and, exists_false,
      reduceCtorEq, or_assoc]

theorem nodup_setAdd (l : List String) (t : String) (h : l.Nodup) : (setAdd l t).Nodup := by
  unfold setAdd
  split_ifs with hm
  · exact h
  · rw [List.nodup_append]
    refine ⟨h, List.nodup_singleton t, ?_⟩
    intro a ha hb
    rw [List.mem_singleton] at hb
    exact hm (hb ▸ ha)

theorem nodup_foldl_setAdd (ts : List String) :
    ∀ l : List String, l.Nodup → (ts.foldl setAdd l).Nodup := by
  induction ts with
  | nil => intro l h; exact h
  | cons t rest ih =>
    intro l h
    exact ih _ (nodup_setAdd l t h)

theorem nodup_foldl_keywords (toLowerCase : String → String) (ks : List JsVal) :
    ∀ l : List String, l.Nodup →
      (ks.foldl
          (fun tokens k =>
            match truthyString k with
            | some s => setAdd tokens (toLowerCase s)
            | none => tokens)
          l).Nodup := by
  induction ks with
  | nil => intro l h; exact h
  | cons k rest ih =>
    intro l h
    rw [List.foldl_cons]
    apply ih
    cases hk : truthyString k with
    | none => exact h
    | some s => exact nodup_setAdd l _ h

theorem collectTokens_nodup (toLowerCase : String → String) (analysis : Analysis) :
    (collectTokens toLowerCase analysis).Nodup := by
  unfold collectTokens
  cases truthyString analysis.partNameEn <;>
    cases truthyString analysis.partNameFr <;>
    cases analysis.keywords <;>
    cases truthyString analysis.brandDetected <;>
    cases truthyString analysis.serialNumber <;>
    simp only <;>
    first
      | exact List.nodup_nil
      | (repeat' first
          | apply nodup_setAdd
          | apply nodup_foldl_keywords
          | apply nodup_foldl_setAdd
          | exact List.nodup_nil)

theorem jsLength_empty : jsLength "" = 0 := rfl

theorem finalTokens_eq_filter (toLowerCase : String → String) (analysis : Analysis) :
    finalTokens toLowerCase analysis
      = (collectTokens toLowerCase analysis).filter (fun t => decide (2 < jsLength t)) := by
  unfold finalTokens
  apply List.filter_congr
  intro t _
  by_cases ht : t = ""
  · subst ht
    simp [jsLength_empty]
  · simp [ht]

theorem mem_finalTokens (toLowerCase : String → String) (analysis : Analysis) (t : String) :
    t ∈ finalTokens toLowerCase analysis
      ↔ t ∈ collectTokens toLowerCase analysis ∧ 2 < jsLength t := by
  rw [finalTokens_eq_filter, List.mem_filter]
  simp

theorem finalTokens_eq_nil_iff (toLowerCase : String → String) (analysis : Analysis) :
    finalTokens toLowerCase analysis = []
      ↔ ∀ t ∈ collectTokens toLowerCase analysis, jsLength t ≤ 2 := by
  rw [List.eq_nil_iff_forall_not_mem]
  constructor
  · intro h t ht
    by_contra hlen
    exact h t ((mem_finalTokens toLowerCase analysis t).mpr ⟨ht, by omega⟩)
  · intro h t ht
    obtain ⟨hmem, hlen⟩ := (mem_finalTokens toLowerCase analysis t).mp ht
    have := h t hmem
    omega

end SqlShim

open SqlShim

/-- C1. A template with `N` question marks is translated into its `N + 1` text
segments interleaved with exactly the `N` markers `@p0, ..., @p(N-1)`, in this
order and pairwise distinct: the `?` preceded by `k` other `?` becomes `@pk` at
the place where the translated prefix ends; no `?` is left, and the output has
exactly `N` more `@` than the template. -/
theorem toTsql_markers (sqlText : String) :
    (toTsql sqlText).data
        = weave (sqlText.data.splitOn '?') (markersFrom 0 (countQ sqlText.data))
      ∧ (sqlText.data.splitOn '?').length = countQ sqlText.data + 1
      ∧ (markersFrom 0 (countQ sqlText.data)).length = countQ sqlText.data
      ∧ (∀ k, (markersFrom 0 (countQ sqlText.data))[k]?
          = if k < countQ sqlText.data then some ('@' :: 'p' :: (Nat.repr k).data) else none)
      ∧ (markersFrom 0 (countQ sqlText.data)).Nodup
      ∧ (∀ pre post : List Char,
          (toTsql ⟨pre ++ '?' :: post⟩).data
            = (toTsql ⟨pre⟩).data ++ ('@' :: 'p' :: (Nat.repr (countQ pre)).data)
                ++ toTsqlFrom (countQ pre + 1) post)
      ∧ '?' ∉ (toTsql sqlText).data
      ∧ (toTsql sqlText).data.count '@' = sqlText.data.count '@' + countQ sqlText.data := by
  refine ⟨toTsqlFrom_eq_weave _ 0, splitOn_length _, markersFrom_length _ _, ?_,
    markersFrom_nodup _ _, ?_, toTsqlFrom_no_question _ 0, toTsqlFrom_count_at _ 0⟩
  · intro k
    rw [markersFrom_getElem?, Nat.zero_add]
    rfl
  · intro pre post
    show toTsqlFrom 0 (pre ++ '?' :: post) = _
    rw [toTsqlFrom_append]
    simp [toTsql, toTsqlFrom, marker]

/-- C2. The translation changes nothing but the `?` characters: the template is
its `?`-free segments joined by `?`, the output is the very same segments joined
by the inserted markers, and a template without `?` comes back unchanged. -/
theorem toTsql_frame (sqlText : String) :
    sqlText.data
        = weave (sqlText.data.splitOn '?') (List.replicate (countQ sqlText.data) ['?'])
      ∧ (toTsql sqlText).data
        = weave (sqlText.data.splitOn '?') (markersFrom 0 (countQ sqlText.data))
      ∧ (sqlText.data.splitOn '?').length = countQ sqlText.data + 1
      ∧ (∀ seg ∈ sqlText.data.splitOn '?', '?' ∉ seg)
      ∧ ('?' ∉ sqlText.data → toTsql sqlText = sqlText) := by
  refine ⟨weave_questions _, toTsqlFrom_eq_weave _ 0, splitOn_length _,
    splitOn_segments_clean _, ?_⟩
  intro h
  exact String.ext (toTsqlFrom_no_marker _ h 0)

/-- C2, at the template `SELECT 1`. -/
theorem toTsql_frame_witness : toTsql "SELECT 1" = "SELECT 1" :=
  (toTsql_frame "SELECT 1").2.2.2.2 (by decide)

/-- C3, as stated, fails at `['a', {"toString": 1}, 'b']`: the conversion of the
second value throws at line 19, `bindParams` throws with it, and the request is
left with one input where the list has three values. -/
theorem bindParams_bindings_counterexample :
    bindParams (fun _ => "") ⟨[]⟩ [.string "a", .object none, .string "b"]
        = ⟨⟨[⟨"p0", .NVarChar, .string "a"⟩]⟩, some conversionError⟩
      ∧ (bindParams (fun _ => "") ⟨[]⟩
            [.string "a", .object none, .string "b"]).request.inputs.length
          ≠ ([.string "a", .object none, .string "b"] : List JsVal).length :=
  ⟨rfl, by decide⟩

/-- C3. A parameter list of length `M` all of whose values have a string
conversion makes the binder declare exactly `M` more inputs, in list order,
without throwing; the `i`-th is named `p<i>` and is the binding the policy assigns
to `params[i]`. Hence, for a template with as many `?` as parameters, the
translated text is the template segments joined by `@` followed by the names of
the bindings, in the same order. A value without string conversion, met after
values that have one, makes the binder throw the `TypeError` of the conversion,
the bindings of the values before it being the only ones made. -/
theorem bindParams_bindings (numberToString : JsNumber → String) (request : Request)
    (params : List JsVal) (hconv : ∀ v ∈ params, converts v = true) :
    (bindParams numberToString request params).thrown = none
      ∧ (bindParams numberToString request params).request.inputs.map some
        = request.inputs.map some
          ++ params.enum.map (fun p => expectedBinding p.1 p.2)
      ∧ (bindParams numberToString ⟨[]⟩ params).request.inputs.length = params.length
      ∧ (bindParams numberToString ⟨[]⟩ params).request.inputs.map Binding.name
        = (List.range params.length).map (fun i => "p" ++ Nat.repr i)
      ∧ (∀ q : String, countQ q.data = params.length →
          (toTsql q).data = weave (q.data.splitOn '?')
            ((bindParams numberToString ⟨[]⟩ params).request.inputs.map
              (fun b => '@' :: b.name.data)))
      ∧ (∀ (bad : JsVal) (post : List JsVal), converts bad = false →
          (bindParams numberToString request (params ++ bad :: post)).thrown
              = some conversionError
            ∧ (bindParams numberToString request (params ++ bad :: post)).request
              = (bindParams numberToString request params).request) := by
  obtain ⟨bs, hrun, hbs, _, _⟩ := bindParams_ok numberToString request params hconv
  obtain ⟨bs0, hrun0, _, hnames0, hlen0⟩ := bindParams_ok numberToString ⟨[]⟩ params hconv
  have hnames : (bindParams numberToString ⟨[]⟩ params).request.inputs.map Binding.name
      = (List.range params.length).map (fun i => "p" ++ Nat.repr i) := by
    rw [hrun0]
    simpa using hnames0
  refine ⟨by rw [hrun], ?_, ?_, hnames, ?_, ?_⟩
  · rw [hrun]
    simp only [List.map_append, hbs]
  · rw [hrun0]
    simpa using hlen0
  · intro q hq
    have hm : (bindParams numberToString ⟨[]⟩ params).request.inputs.map
        (fun b => '@' :: b.name.data)
        = markersFrom 0 (countQ q.data) := by
      have h2 : (bindParams numberToString ⟨[]⟩ params).request.inputs.map
          (fun b => '@' :: b.name.data)
          = ((bindParams numberToString ⟨[]⟩ params).request.inputs.map Binding.name).map
            (fun n => '@' :: n.data) := by
        rw [List.map_map]; rfl
      rw [h2, hnames, hq, List.map_map, markersFrom, List.range_eq_range']
      apply List.map_congr_left
      intro i _
      exact (marker_eq_name i).symm
    rw [hm]
    exact toTsqlFrom_eq_weave _ 0
  · intro bad post hbad
    obtain ⟨bs2, hrun2, hbs2, _⟩ :=
      bindParams_throws numberToString request params post bad hconv hbad
    have hsame : bs2 = bs := by
      have h := hbs2.trans hbs.symm
      exact List.map_injective_iff.mpr (Option.some_injective _) h
    rw [hrun2, hrun, hsame]
    exact ⟨rfl, rfl⟩

/-- C3, at a template with two `?` and two parameters. -/
theorem bindParams_bindings_witness :
    (toTsql "a = ? AND b = ?").data = weave ("a = ? AND b = ?".data.splitOn '?')
      ((bindParams (fun _ => "") ⟨[]⟩ [.boolean true, .null]).request.inputs.map
        (fun b => '@' :: b.name.data)) :=
  (bindParams_bindings (fun _ => "") ⟨[]⟩ [.boolean true, .null]
    (by decide)).2.2.2.2.1 "a = ? AND b = ?" (by decide)

/-- C4. The numeric branch of the callback never fails: it binds the value itself
under the name `p<index>`, with the integer type exactly when `Number.isInteger`
holds. So a numeric parameter, wherever it stands in a list whose earlier values
the binder gets past, is bound under the name `p<index>` with the value itself;
the type is the integer type when the number has no fractional part (a finite
value with fractional part zero, or the negative zero) and the floating-point
type otherwise (a fractional value, `NaN` and the two infinities). -/
theorem bindParams_number (numberToString : JsNumber → String) (request : Request)
    (pre post : List JsVal) :
    (∀ (x : JsNumber) (idx : Nat),
        bindCallback numberToString request (.number x) idx
          = .ok (request.input ("p" ++ Nat.repr idx)
              (if Number.isInteger (.number x) then .Int else .Float) (.number x)))
      ∧ ((∀ v ∈ pre, converts v = true) →
        (∀ q : ℚ,
          (bindParams numberToString request
              (pre ++ .number (.finite q) :: post)).request.inputs[
              request.inputs.length + pre.length]?
            = some ⟨"p" ++ Nat.repr pre.length,
                if Int.fract q = 0 then .Int else .Float, .number (.finite q)⟩)
        ∧ (bindParams numberToString request
              (pre ++ .number .negZero :: post)).request.inputs[
              request.inputs.length + pre.length]?
            = some ⟨"p" ++ Nat.repr pre.length, .Int, .number .negZero⟩
        ∧ (bindParams numberToString request
              (pre ++ .number .nan :: post)).request.inputs[
              request.inputs.length + pre.length]?
            = some ⟨"p" ++ Nat.repr pre.length, .Float, .number .nan⟩
        ∧ (bindParams numberToString request
              (pre ++ .number .posInf :: post)).request.inputs[
              request.inputs.length + pre.length]?
            = some ⟨"p" ++ Nat.repr pre.length, .Float, .number .posInf⟩
        ∧ (bindParams numberToString request
              (pre ++ .number .negInf :: post)).request.inputs[
              request.inputs.length + pre.length]?
            = some ⟨"p" ++ Nat.repr pre.length, .Float, .number .negInf⟩) := by
  refine ⟨?_, fun hpre => ⟨fun _ => bindParams_at _ _ _ _ _ hpre, bindParams_at _ _ _ _ _ hpre,
    bindParams_at _ _ _ _ _ hpre, bindParams_at _ _ _ _ _ hpre,
    bindParams_at _ _ _ _ _ hpre⟩⟩
  intro x idx
  simp [bindCallback, typeof]

/-- C4, at the list `[true, 5, null]`. -/
theorem bindParams_number_witness :
    (bindParams (fun _ => "") ⟨[]⟩
        ([.boolean true] ++ .number (.finite 5) :: [.null])).request.inputs[0 + 1]?
      = some ⟨"p1", if Int.fract (5 : ℚ) = 0 then .Int else .Float, .number (.finite 5)⟩ :=
  ((bindParams_number (fun _ => "") ⟨[]⟩ [.boolean true] [.null]).2 (by decide)).1 5

/-- C5. The boolean branch of the callback never fails. So a boolean parameter,
wherever it stands in a list whose earlier values the binder gets past, is bound
with the bit type and its own value, so with neither the integer nor the
floating-point type; and writing the boolean test before the numeric test gives
the same callback on every value. -/
theorem bindParams_boolean (numberToString : JsNumber → String) (request : Request)
    (pre post : List JsVal) (b : Bool) :
    (∀ idx : Nat,
        bindCallback numberToString request (.boolean b) idx
          = .ok (request.input ("p" ++ Nat.repr idx) .Bit (.boolean b)))
      ∧ ((∀ v ∈ pre, converts v = true) →
          (bindParams numberToString request (pre ++ .boolean b :: post)).request.inputs[
              request.inputs.length + pre.length]?
            = some ⟨"p" ++ Nat.repr pre.length, .Bit, .boolean b⟩)
      ∧ SqlType.Bit ≠ SqlType.Int ∧ SqlType.Bit ≠ SqlType.Float
      ∧ (∀ (val : JsVal) (idx : Nat),
          bindCallbackBooleanFirst numberToString request val idx
            = bindCallback numberToString request val idx) := by
  refine ⟨?_, fun hpre => bindParams_at _ _ _ _ _ hpre, by decide, by decide, ?_⟩
  · intro idx
    simp [bindCallback, typeof]
  · intro val idx
    cases val <;> simp [bindCallback, bindCallbackBooleanFirst, typeof]

/-- C5, at the list `[null, true]`. -/
theorem bindParams_boolean_witness :
    (bindParams (fun _ => "") ⟨[]⟩ ([.null] ++ .boolean true :: [])).request.inputs[0 + 1]?
      = some ⟨"p1", .Bit, .boolean true⟩ :=
  (bindParams_boolean (fun _ => "") ⟨[]⟩ [.null] [] true).2.1 (by decide)

/-- C6. The first branch of the callback never fails. So a `null` or `undefined`
parameter, wherever it stands in a list whose earlier values the binder gets
past, is bound with the text type and the value `null`. -/
theorem bindParams_null (numberToString : JsNumber → String) (request : Request)
    (pre post : List JsVal) :
    (∀ idx : Nat,
        bindCallback numberToString request .null idx
            = .ok (request.input ("p" ++ Nat.repr idx) .NVarChar .null)
          ∧ bindCallback numberToString request .undefined idx
            = .ok (request.input ("p" ++ Nat.repr idx) .NVarChar .null))
      ∧ ((∀ v ∈ pre, converts v = true) →
          (bindParams numberToString request (pre ++ .null :: post)).request.inputs[
                request.inputs.length + pre.length]?
              = some ⟨"p" ++ Nat.repr pre.length, .NVarChar, .null⟩
            ∧ (bindParams numberToString request (pre ++ .undefined :: post)).request.inputs[
                request.inputs.length + pre.length]?
              = some ⟨"p" ++ Nat.repr pre.length, .NVarChar, .null⟩) := by
  refine ⟨?_, fun hpre => ⟨bindParams_at _ _ _ _ _ hpre, bindParams_at _ _ _ _ _ hpre⟩⟩
  intro idx
  simp [bindCallback]

/-- C6, at the list `[true, null]`. -/
theorem bindParams_null_witness :
    (bindParams (fun _ => "") ⟨[]⟩ ([.boolean true] ++ .null :: [])).request.inputs[0 + 1]?
      = some ⟨"p1", .NVarChar, .null⟩ :=
  ((bindParams_null (fun _ => "") ⟨[]⟩ [.boolean true] []).2 (by decide)).1

/-- C7, as stated, fails at the parsed JSON `{"toString": 1}`: it is neither
`null` nor `undefined`, nor a number, nor a boolean, yet `String(val)` throws and
nothing is bound for it. -/
theorem bindParams_other_counterexample :
    (JsVal.object none ≠ .null ∧ JsVal.object none ≠ .undefined
        ∧ typeof (.object none) ≠ "number" ∧ typeof (.object none) ≠ "boolean")
      ∧ bindParams (fun _ => "") ⟨[]⟩ [.object none] = ⟨⟨[]⟩, some conversionError⟩
      ∧ (bindParams (fun _ => "") ⟨[]⟩ [.object none]).request.inputs[0]? = none :=
  ⟨by decide, rfl, rfl⟩

/-- C7. A parameter that is neither `null` nor `undefined`, nor a number, nor a
boolean, and whose conversion `String(val)` returns, is bound, wherever it stands
in a list whose earlier values the binder gets past, with the text type and the
value `String(val)`; a string is bound with exactly itself. When `String(val)`
throws, the binder throws that error and binds nothing for the value. -/
theorem bindParams_other (numberToString : JsNumber → String) (request : Request)
    (pre post : List JsVal) (val : JsVal)
    (hnull : val ≠ .null) (hundef : val ≠ .undefined)
    (hnum : typeof val ≠ "number") (hbool : typeof val ≠ "boolean")
    (hpre : ∀ v ∈ pre, converts v = true) :
    (∀ text : String, StringOf numberToString val = .ok text →
        (bindParams numberToString request (pre ++ val :: post)).request.inputs[
            request.inputs.length + pre.length]?
          = some ⟨"p" ++ Nat.repr pre.length, .NVarChar, .string text⟩)
      ∧ (∀ s : String,
          (bindParams numberToString request (pre ++ .string s :: post)).request.inputs[
              request.inputs.length + pre.length]?
            = some ⟨"p" ++ Nat.repr pre.length, .NVarChar, .string s⟩)
      ∧ (∀ e : JsError, StringOf numberToString val = .error e →
          (bindParams numberToString request (pre ++ val :: post)).thrown = some e
            ∧ (bindParams numberToString request (pre ++ val :: post)).request.inputs.length
              = request.inputs.length + pre.length) := by
  refine ⟨?_, fun s => bindParams_at _ _ _ _ _ hpre, ?_⟩
  · intro text htext
    rw [bindParams_at _ _ _ _ _ hpre]
    cases val with
    | null => exact absurd rfl hnull
    | undefined => exact absurd rfl hundef
    | number x => exact absurd rfl hnum
    | boolean b => exact absurd rfl hbool
    | object t =>
      cases t with
      | none => simp [StringOf] at htext
      | some t => simp only [StringOf, Except.ok.injEq] at htext; subst htext; rfl
    | func t =>
      cases t with
      | none => simp [StringOf] at htext
      | some t => simp only [StringOf, Except.ok.injEq] at htext; subst htext; rfl
    | string s => simp only [StringOf, Except.ok.injEq] at htext; subst htext; rfl
    | bigint n => simp only [StringOf, Except.ok.injEq] at htext; subst htext; rfl
    | symbol d => simp only [StringOf, Except.ok.injEq] at htext; subst htext; rfl
  · intro e he
    have hval : converts val = false := by
      cases hc : converts val with
      | false => rfl
      | true =>
        obtain ⟨text, htext⟩ := (converts_iff_StringOf numberToString val).mp hc
        rw [htext] at he
        exact absurd he (by simp)
    have he2 : e = conversionError := by
      cases val with
      | object t =>
        cases t with
        | none => simp only [StringOf, Except.error.injEq] at he; exact he.symm
        | some t => simp [converts] at hval
      | func t =>
        cases t with
        | none => simp only [StringOf, Except.error.injEq] at he; exact he.symm
        | some t => simp [converts] at hval
      | _ => simp [converts] at hval
    obtain ⟨bs, hrun, _, hlen⟩ :=
      bindParams_throws numberToString request pre post val hpre hval
    rw [hrun, he2]
    exact ⟨rfl, by simp [hlen]⟩

/-- C7, at an object parameter standing second in the list. -/
theorem bindParams_other_witness :
    (bindParams (fun _ => "") ⟨[]⟩
        ([.boolean true] ++ .object (some "[object Object]") :: [.null])).request.inputs[0 + 1]?
      = some ⟨"p1", .NVarChar, .string "[object Object]"⟩ :=
  (bindParams_other (fun _ => "") ⟨[]⟩ [.boolean true] [.null]
    (.object (some "[object Object]"))
    (by decide) (by decide) (by decide) (by decide) (by decide)).1 "[object Object]" rfl

/-- C8. For the template `SELECT * FROM t WHERE a = ? AND b = ?` with parameters
`[5, "x"]` the query path hands the driver the statement with `@p0` and `@p1` and
a request carrying exactly two inputs, `p0` (integer, 5) then `p1` (text, `x`). -/
theorem query_scenario (numberToString : JsNumber → String) (pool : Pool) :
    toTsql "SELECT * FROM t WHERE a = ? AND b = ?"
        = "SELECT * FROM t WHERE a = @p0 AND b = @p1"
      ∧ bindParams numberToString pool.request [.number (.finite 5), .string "x"]
        = ⟨⟨[⟨"p0", .Int, .number (.finite 5)⟩, ⟨"p1", .NVarChar, .string "x"⟩]⟩, none⟩
      ∧ query numberToString (some pool) "SELECT * FROM t WHERE a = ? AND b = ?"
          [.number (.finite 5), .string "x"]
        = match pool.run ⟨[⟨"p0", .Int, .number (.finite 5)⟩, ⟨"p1", .NVarChar, .string "x"⟩]⟩
            "SELECT * FROM t WHERE a = @p0 AND b = @p1" with
          | .error e => .error (.driver e)
          | .ok res => .ok (res.recordset.getD []) :=
  ⟨by decide, rfl, rfl⟩

/-- C9. With both credentials present, `retries >= 1` and a connector that fails
on every call, `connect` calls the connector exactly `retries` times (calls
`0, ..., retries - 1`, a wait after each but the last) and then fails with the
error of the last call; with the default arguments that is three calls. -/
theorem connect_exhausts (env : Env) (sqlConnect : Config → Nat → Except String Pool)
    (retries : Int) (delayMs : Nat) (u p : String) (e : Nat → String)
    (huser : env.DB_USER = some u) (hu : u ≠ "")
    (hpassword : env.DB_PASSWORD = some p) (hp : p ≠ "")
    (hretries : 1 ≤ retries)
    (hfail : ∀ i, sqlConnect (mkConfig env) i = .error (e i)) :
    connect env sqlConnect retries delayMs
        = (.error (.driver (e (retries.toNat - 1))),
            exhaustedTrace delayMs 0 (retries.toNat - 1))
      ∧ ((attempts (connect env sqlConnect retries delayMs).2 : Nat) : Int) = retries
      ∧ connect env sqlConnect defaultRetries defaultDelayMs
        = (.error (.driver (e 2)),
            [.attempt 0, .wait 500, .attempt 1, .wait 500, .attempt 2]) := by
  have hcred : ∀ r d, connect env sqlConnect r d
      = connectLoop sqlConnect (mkConfig env) r d 0 [] := by
    intro r d
    simp [connect, mkConfig, huser, hpassword, falsy_some u hu, falsy_some p hp]
  have hrun : connect env sqlConnect retries delayMs
      = (.error (.driver (e (retries.toNat - 1))),
          exhaustedTrace delayMs 0 (retries.toNat - 1)) := by
    rw [hcred, connectLoop_all_fail sqlConnect (mkConfig env) retries delayMs e hfail
      (retries.toNat - 1) 0 [] (by omega)]
    simp
  refine ⟨hrun, ?_, ?_⟩
  · rw [hrun]
    show ((attempts (exhaustedTrace delayMs 0 (retries.toNat - 1)) : Nat) : Int) = retries
    rw [attempts_exhaustedTrace]
    omega
  · rw [hcred, connectLoop_all_fail sqlConnect (mkConfig env) defaultRetries defaultDelayMs
      e hfail 2 0 [] (by decide)]
    rfl

/-- C9, at three retries and a connector whose `i`-th call fails with `down<i>`. -/
theorem connect_exhausts_witness :
    connect ⟨none, none, some "sa", some "pw", none, none, none⟩
        (fun _ i => .error ("down" ++ Nat.repr i)) 3 500
      = (.error (.driver "down2"),
          [.attempt 0, .wait 500, .attempt 1, .wait 500, .attempt 2]) :=
  (connect_exhausts ⟨none, none, some "sa", some "pw", none, none, none⟩
    (fun _ i => .error ("down" ++ Nat.repr i)) 3 500 "sa" "pw"
    (fun i => "down" ++ Nat.repr i) rfl (by decide) rfl (by decide) (by decide)
    (fun _ => rfl)).1

/-- C10. When `DB_USER` or `DB_PASSWORD` is unset or empty, `connect` fails with
`DB_USER and DB_PASSWORD are required` and no connector call, whatever `retries`,
`delayMs` and the connector are; when both are set and non-empty, `connect` never
fails with the error it constructs itself. -/
theorem connect_credentials (env : Env) (sqlConnect : Config → Nat → Except String Pool)
    (retries : Int) (delayMs : Nat) :
    ((env.DB_USER = none ∨ env.DB_USER = some "" ∨ env.DB_PASSWORD = none
          ∨ env.DB_PASSWORD = some "") →
        connect env sqlConnect retries delayMs
            = (.error (.configuration "DB_USER and DB_PASSWORD are required"), [])
          ∧ attempts (connect env sqlConnect retries delayMs).2 = 0)
      ∧ ((∃ u p : String, env.DB_USER = some u ∧ u ≠ "" ∧ env.DB_PASSWORD = some p ∧ p ≠ "") →
        ∀ msg : String,
          (connect env sqlConnect retries delayMs).1 ≠ .error (.configuration msg)) := by
  constructor
  · intro h
    have hrun : connect env sqlConnect retries delayMs
        = (.error (.configuration "DB_USER and DB_PASSWORD are required"), []) := by
      rcases h with h | h | h | h <;> simp [connect, mkConfig, falsy, h]
    rw [hrun]
    exact ⟨rfl, rfl⟩
  · rintro ⟨u, p, huser, hu, hpassword, hp⟩ msg
    have hcred : connect env sqlConnect retries delayMs
        = connectLoop sqlConnect (mkConfig env) retries delayMs 0 [] := by
      simp [connect, mkConfig, huser, hpassword, falsy_some u hu, falsy_some p hp]
    rw [hcred]
    exact connectLoop_not_configuration sqlConnect (mkConfig env) retries delayMs _ 0 [] rfl msg

/-- C10, at an environment without `DB_USER` and at one with both credentials. -/
theorem connect_credentials_witness :
    (connect ⟨none, none, none, some "pw", none, none, none⟩
          (fun _ _ => .error "down") 3 500
        = (.error (.configuration "DB_USER and DB_PASSWORD are required"), [])
      ∧ attempts (connect ⟨none, none, none, some "pw", none, none, none⟩
          (fun _ _ => .error "down") 3 500).2 = 0)
      ∧ ∀ msg : String,
        (connect ⟨none, none, some "sa", some "pw", none, none, none⟩
          (fun _ _ => .error "down") 3 500).1 ≠ .error (.configuration msg) :=
  ⟨(connect_credentials ⟨none, none, none, some "pw", none, none, none⟩
      (fun _ _ => .error "down") 3 500).1 (Or.inl rfl),
    (connect_credentials ⟨none, none, some "sa", some "pw", none, none, none⟩
      (fun _ _ => .error "down") 3 500).2 ⟨"sa", "pw", rfl, by decide, rfl, by decide⟩⟩

/-- C11. With both credentials present and `retries >= 1`, whatever the connector
does, the events of `connect` are `attempt 0, wait, attempt 1, wait, ..., attempt m`
with every wait of `delayMs`: the attempts before the last one all failed, each is
followed by one wait that precedes the next attempt, nothing follows the last
attempt, so there are `m` waits for `m + 1` attempts; if every attempt fails
there are `retries` attempts and `retries - 1` waits. -/
theorem connect_waits (env : Env) (sqlConnect : Config → Nat → Except String Pool)
    (retries : Int) (delayMs : Nat) (u p : String)
    (huser : env.DB_USER = some u) (hu : u ≠ "")
    (hpassword : env.DB_PASSWORD = some p) (hp : p ≠ "")
    (hretries : 1 ≤ retries) :
    ∃ m : Nat, (m : Int) < retries
      ∧ (connect env sqlConnect retries delayMs).2 = exhaustedTrace delayMs 0 m
      ∧ (∀ j, j < m → ∃ msg, sqlConnect (mkConfig env) j = .error msg)
      ∧ attempts (connect env sqlConnect retries delayMs).2 = m + 1
      ∧ waits (connect env sqlConnect retries delayMs).2 = m
      ∧ (∀ j, (connect env sqlConnect retries delayMs).2[2 * j]?
          = if j ≤ m then some (.attempt j) else none)
      ∧ (∀ j, (connect env sqlConnect retries delayMs).2[2 * j + 1]?
          = if j < m then some (.wait delayMs) else none)
      ∧ ((∀ i, ∃ msg, sqlConnect (mkConfig env) i = .error msg) →
          (m : Int) + 1 = retries) := by
  rw [connect_with_credentials env sqlConnect retries delayMs u p huser hu hpassword hp]
  obtain ⟨m, hm, htr, hfail, hres⟩ :=
    connectLoop_shape sqlConnect (mkConfig env) retries delayMs _ 0 [] rfl (by omega)
  simp only [Nat.cast_zero, Int.zero_add, List.nil_append, Nat.zero_add] at hm htr hfail hres
  refine ⟨m, hm, htr, hfail, ?_, ?_, ?_, ?_, ?_⟩
  · rw [htr, attempts_exhaustedTrace]
  · rw [htr, waits_exhaustedTrace]
  · intro j
    rw [htr, exhaustedTrace_even, Nat.zero_add]
  · intro j
    rw [htr, exhaustedTrace_odd]
  · intro hall
    rcases hres with ⟨pool, hp2, _⟩ | ⟨msg, _, hl, _⟩
    · obtain ⟨msg, hmsg⟩ := hall m
      rw [hmsg] at hp2
      exact absurd hp2 (by simp)
    · omega

/-- C11, at a connector that fails twice and then succeeds, three retries. -/
theorem connect_waits_witness :
    ∃ m : Nat, (m : Int) < 3
      ∧ (connect ⟨none, none, some "sa", some "pw", none, none, none⟩
          (fun _ i => if i < 2 then .error "down" else .ok ⟨i, fun _ _ => .ok ⟨none⟩⟩)
          3 500).2 = exhaustedTrace 500 0 m
      ∧ (∀ j, j < m → ∃ msg, (if j < 2 then (.error "down" : Except String Pool)
          else .ok ⟨j, fun _ _ => .ok ⟨none⟩⟩) = .error msg)
      ∧ attempts (connect ⟨none, none, some "sa", some "pw", none, none, none⟩
          (fun _ i => if i < 2 then .error "down" else .ok ⟨i, fun _ _ => .ok ⟨none⟩⟩)
          3 500).2 = m + 1
      ∧ waits (connect ⟨none, none, some "sa", some "pw", none, none, none⟩
          (fun _ i => if i < 2 then .error "down" else .ok ⟨i, fun _ _ => .ok ⟨none⟩⟩)
          3 500).2 = m
      ∧ (∀ j, (connect ⟨none, none, some "sa", some "pw", none, none, none⟩
          (fun _ i => if i < 2 then .error "down" else .ok ⟨i, fun _ _ => .ok ⟨none⟩⟩)
          3 500).2[2 * j]? = if j ≤ m then some (.attempt j) else none)
      ∧ (∀ j, (connect ⟨none, none, some "sa", some "pw", none, none, none⟩
          (fun _ i => if i < 2 then .error "down" else .ok ⟨i, fun _ _ => .ok ⟨none⟩⟩)
          3 500).2[2 * j + 1]? = if j < m then some (.wait 500) else none)
      ∧ ((∀ i, ∃ msg, (if i < 2 then (.error "down" : Except String Pool)
          else .ok ⟨i, fun _ _ => .ok ⟨none⟩⟩) = .error msg) → (m : Int) + 1 = 3) :=
  connect_waits ⟨none, none, some "sa", some "pw", none, none, none⟩
    (fun _ i => if i < 2 then .error "down" else .ok ⟨i, fun _ _ => .ok ⟨none⟩⟩)
    3 500 "sa" "pw" rfl (by decide) rfl (by decide) (by decide)

/-- C12. With both credentials present, if the connector fails on its first
`k - 1` calls and succeeds on call `k <= retries` (call index `k - 1`), `connect`
returns the pool of that call without error, having made exactly `k` calls: the
events end with that successful attempt. -/
theorem connect_first_success (env : Env) (sqlConnect : Config → Nat → Except String Pool)
    (retries : Int) (delayMs : Nat) (u p : String) (k : Nat) (pool : Pool)
    (huser : env.DB_USER = some u) (hu : u ≠ "")
    (hpassword : env.DB_PASSWORD = some p) (hp : p ≠ "")
    (hk : 1 ≤ k) (hkr : (k : Int) ≤ retries)
    (hfail : ∀ j, j < k - 1 → ∃ msg, sqlConnect (mkConfig env) j = .error msg)
    (hok : sqlConnect (mkConfig env) (k - 1) = .ok pool) :
    connect env sqlConnect retries delayMs
        = (.ok (some pool), exhaustedTrace delayMs 0 (k - 1))
      ∧ attempts (connect env sqlConnect retries delayMs).2 = k
      ∧ (connect env sqlConnect retries delayMs).2.getLast? = some (.attempt (k - 1))
      ∧ (∀ j, k ≤ j → Event.attempt j ∉ (connect env sqlConnect retries delayMs).2) := by
  have hrun : connect env sqlConnect retries delayMs
      = (.ok (some pool), exhaustedTrace delayMs 0 (k - 1)) := by
    rw [connect_with_credentials env sqlConnect retries delayMs u p huser hu hpassword hp,
      connectLoop_first_success sqlConnect (mkConfig env) retries delayMs pool (k - 1) 0 []
        (by push_cast; omega) (by simpa using hfail) (by simpa using hok)]
    simp
  have heven := exhaustedTrace_even delayMs (k - 1) 0
  have hodd := exhaustedTrace_odd delayMs (k - 1) 0
  have hlen : (exhaustedTrace delayMs 0 (k - 1)).length = 2 * (k - 1) + 1 := by
    have h1 := heven (k - 1)
    have h2 := hodd (k - 1)
    simp only [le_refl, if_true, lt_irrefl, if_false] at h1 h2
    have h3 := (List.getElem?_eq_some.mp h1).1
    have h4 := List.getElem?_eq_none_iff.mp h2
    omega
  refine ⟨hrun, ?_, ?_, ?_⟩
  · rw [hrun]
    show attempts (exhaustedTrace delayMs 0 (k - 1)) = k
    rw [attempts_exhaustedTrace]
    omega
  · rw [hrun]
    show (exhaustedTrace delayMs 0 (k - 1)).getLast? = some (.attempt (k - 1))
    rw [List.getLast?_eq_getElem?, hlen]
    have h1 := heven (k - 1)
    simpa using h1
  · intro j hj hmem
    rw [hrun] at hmem
    have h1 := exhaustedTrace_attempt_mem delayMs (k - 1) 0 j hmem
    omega

/-- C12, at a connector that fails twice and succeeds on its third call. -/
theorem connect_first_success_witness :
    connect ⟨none, none, some "sa", some "pw", none, none, none⟩
        (fun _ i => if i < 2 then .error "down" else .ok ⟨i, fun _ _ => .ok ⟨none⟩⟩) 3 500
      = (.ok (some ⟨2, fun _ _ => .ok ⟨none⟩⟩),
          [.attempt 0, .wait 500, .attempt 1, .wait 500, .attempt 2]) :=
  (connect_first_success ⟨none, none, some "sa", some "pw", none, none, none⟩
    (fun _ i => if i < 2 then .error "down" else .ok ⟨i, fun _ _ => .ok ⟨none⟩⟩) 3 500
    "sa" "pw" 3 ⟨2, fun _ _ => .ok ⟨none⟩⟩ rfl (by decide) rfl (by decide) (by decide)
    (by decide)
    (fun j hj => ⟨"down", by
      have h : j < 2 := hj
      simp [h]⟩)
    rfl).1

/-- C13, as stated, fails on a fresh module with a connector that succeeds: the
second call of `getDb` evaluates the object literal of lines 56-64 again, so its
result is another object than the one the first call returned. -/
theorem getDb_twice_counterexample :
    (getDb (fun _ => "") ⟨none, none, some "sa", some "pw", none, none, none⟩
        (fun _ i => .ok ⟨i + 1, fun _ _ => .ok ⟨none⟩⟩) 0 ⟨none, 0, [], []⟩).1
        = .ok (handle (fun _ => "") 0)
      ∧ (getDb (fun _ => "") ⟨none, none, some "sa", some "pw", none, none, none⟩
          (fun _ i => .ok ⟨i + 1, fun _ _ => .ok ⟨none⟩⟩) 1
          (getDb (fun _ => "") ⟨none, none, some "sa", some "pw", none, none, none⟩
            (fun _ i => .ok ⟨i + 1, fun _ _ => .ok ⟨none⟩⟩) 0 ⟨none, 0, [], []⟩).2).1
        = .ok (handle (fun _ => "") 1)
      ∧ (Except.ok (handle (fun _ => "") 1) : Except JsError Handle)
        ≠ .ok (handle (fun _ => "") 0) := by
  have hfirst := getDb_fresh_first_try (fun _ => "")
    ⟨none, none, some "sa", some "pw", none, none, none⟩
    (fun _ i => .ok ⟨i + 1, fun _ _ => .ok ⟨none⟩⟩) 0 ⟨none, 0, [], []⟩ "sa" "pw"
    ⟨1, fun _ _ => .ok ⟨none⟩⟩ rfl rfl (by decide) rfl (by decide) rfl
  refine ⟨by rw [hfirst], ?_, ?_⟩
  · rw [hfirst]
    rfl
  · intro h
    have hid := congrArg Handle.ident (Except.ok.inj h)
    exact absurd hid (by decide)

/-- C13. When a call of `getDb` has succeeded, the next call in sequence leaves
the module as it is: the cached pool, the number of `sql.connect` calls, the pools
created and the events are those left by the first call. It returns a new object,
not the one the first call returned, with the same `query` method; every query
through either object runs on that cached pool. If the first call started without
a pool, that pool is the only one it created. -/
theorem getDb_twice (numberToString : JsNumber → String) (env : Env)
    (sqlConnect : Config → Nat → Except String Pool) (obj1 obj2 : Nat) (m0 m1 : Module)
    (h1 : Handle)
    (hfirst : getDb numberToString env sqlConnect obj1 m0 = (.ok h1, m1)) :
    getDb numberToString env sqlConnect obj2 m1 = (.ok (handle numberToString obj2), m1)
      ∧ (obj2 ≠ obj1 → handle numberToString obj2 ≠ h1)
      ∧ (handle numberToString obj2).query = h1.query
      ∧ (getDb numberToString env sqlConnect obj2 m1).2.calls = m1.calls
      ∧ (getDb numberToString env sqlConnect obj2 m1).2.events = m1.events
      ∧ (getDb numberToString env sqlConnect obj2 m1).2.created = m1.created
      ∧ ∃ pool, m1._pool = some pool
          ∧ (getDb numberToString env sqlConnect obj2 m1).2._pool = some pool
          ∧ (∀ q params,
              h1.query (getDb numberToString env sqlConnect obj2 m1).2._pool q params
                = query numberToString (some pool) q params
              ∧ (handle numberToString obj2).query
                  (getDb numberToString env sqlConnect obj2 m1).2._pool q params
                = query numberToString (some pool) q params)
          ∧ (m0._pool = none → m1.created = m0.created ++ [pool]) := by
  have key : h1 = handle numberToString obj1
      ∧ ∃ pool, m1._pool = some pool ∧ (m0._pool = none → m1.created = m0.created ++ [pool]) := by
    cases h0 : m0._pool with
    | some p0 =>
      rw [getDb_cached numberToString env sqlConnect obj1 m0 p0 h0] at hfirst
      injection hfirst with ha hb
      injection ha with ha
      subst hb
      exact ⟨ha.symm, p0, h0, fun h => absurd h (by simp)⟩
    | none =>
      unfold getDb at hfirst
      rw [h0] at hfirst
      obtain ⟨ha, pool, hp, hc⟩ :=
        getDbConnect_ok numberToString env sqlConnect obj1 m0 m1 h1 hfirst
      exact ⟨ha, pool, hp, fun _ => hc⟩
  obtain ⟨ha, pool, hp, hc⟩ := key
  have hsecond := getDb_cached numberToString env sqlConnect obj2 m1 pool hp
  subst ha
  refine ⟨hsecond, ?_, rfl, by rw [hsecond], by rw [hsecond], by rw [hsecond], pool, hp,
    by rw [hsecond]; exact hp, ?_, hc⟩
  · intro hne h
    exact hne (congrArg Handle.ident h)
  · intro q params
    rw [hsecond]
    refine ⟨?_, ?_⟩
    · show query numberToString m1._pool q params = _
      rw [hp]
    · show query numberToString m1._pool q params = _
      rw [hp]

/-- C13, at a fresh module and a connector whose first call succeeds. -/
theorem getDb_twice_witness :
    getDb (fun _ => "") ⟨none, none, some "sa", some "pw", none, none, none⟩
        (fun _ i => .ok ⟨i + 1, fun _ _ => .ok ⟨none⟩⟩) 1
        ⟨some ⟨1, fun _ _ => .ok ⟨none⟩⟩, 1, [⟨1, fun _ _ => .ok ⟨none⟩⟩], [.attempt 0]⟩
      = (.ok (handle (fun _ => "") 1),
          ⟨some ⟨1, fun _ _ => .ok ⟨none⟩⟩, 1, [⟨1, fun _ _ => .ok ⟨none⟩⟩], [.attempt 0]⟩) :=
  (getDb_twice (fun _ => "") ⟨none, none, some "sa", some "pw", none, none, none⟩
    (fun _ i => .ok ⟨i + 1, fun _ _ => .ok ⟨none⟩⟩) 0 1 ⟨none, 0, [], []⟩
    ⟨some ⟨1, fun _ _ => .ok ⟨none⟩⟩, 1, [⟨1, fun _ _ => .ok ⟨none⟩⟩], [.attempt 0]⟩
    (handle (fun _ => "") 0)
    (getDb_fresh_first_try (fun _ => "")
      ⟨none, none, some "sa", some "pw", none, none, none⟩
      (fun _ i => .ok ⟨i + 1, fun _ _ => .ok ⟨none⟩⟩) 0 ⟨none, 0, [], []⟩ "sa" "pw"
      ⟨1, fun _ _ => .ok ⟨none⟩⟩ rfl rfl (by decide) rfl (by decide) rfl)).1

/-- C14. When the driver is reached and resolves, `query` returns the empty
sequence if the result carries no recordset and exactly the recordset otherwise;
in both cases what it returns is a sequence of rows. -/
theorem query_recordset (numberToString : JsNumber → String) (pool : Pool) (q : String)
    (params : List JsVal) (res : QueryResult)
    (hbound : (bindParams numberToString pool.request params).thrown = none)
    (hres : pool.run (bindParams numberToString pool.request params).request (toTsql q)
      = .ok res) :
    (res.recordset = none → query numberToString (some pool) q params = .ok [])
      ∧ (∀ rows, res.recordset = some rows →
          query numberToString (some pool) q params = .ok rows)
      ∧ ∃ rows : List Row, query numberToString (some pool) q params = .ok rows := by
  have h : query numberToString (some pool) q params = .ok (res.recordset.getD []) := by
    simp only [query, hbound, hres]
  refine ⟨?_, ?_, ⟨_, h⟩⟩
  · intro hn
    rw [h, hn]
    rfl
  · intro rows hs
    rw [h, hs]
    rfl

/-- C14, at a driver that resolves without a recordset. -/
theorem query_recordset_witness :
    query (fun _ => "") (some ⟨1, fun _ _ => .ok ⟨none⟩⟩) "SELECT 1" [] = .ok [] :=
  (query_recordset (fun _ => "") ⟨1, fun _ _ => .ok ⟨none⟩⟩ "SELECT 1" [] ⟨none⟩ rfl
    rfl).1 rfl

/-- C15, as stated, fails at the parameter list `[{"toString": 1}]`: `bindParams`
throws, `query` fails with that `TypeError`, and the driver's `request.query` is
invoked zero times. -/
theorem query_propagates_counterexample :
    queryTraced (fun _ => "") (some ⟨1, fun _ _ => .ok ⟨none⟩⟩) "SELECT ?" [.object none]
        = (.error conversionError, [])
      ∧ (queryTraced (fun _ => "") (some ⟨1, fun _ _ => .ok ⟨none⟩⟩) "SELECT ?"
          [.object none]).2.length ≠ 1 :=
  ⟨rfl, by decide⟩

/-- C15. A call of `query` on a pool with parameters that all have a string
conversion invokes the driver's `request.query` exactly once, with the bound
request and the translated statement, and a failure of that invocation is the
failure of `query`: it is not turned into a result. When a parameter without
string conversion follows them, `query` fails with the `TypeError` of the
conversion and the driver is not invoked. -/
theorem query_propagates (numberToString : JsNumber → String) (pool : Pool) (q : String)
    (params : List JsVal) (hconv : ∀ v ∈ params, converts v = true) :
    (queryTraced numberToString (some pool) q params).1
        = query numberToString (some pool) q params
      ∧ (queryTraced numberToString (some pool) q params).2
        = [((bindParams numberToString pool.request params).request, toTsql q)]
      ∧ (queryTraced numberToString (some pool) q params).2.length = 1
      ∧ (∀ msg, pool.run (bindParams numberToString pool.request params).request (toTsql q)
            = .error msg →
          query numberToString (some pool) q params = .error (.driver msg)
            ∧ ∀ rows, query numberToString (some pool) q params ≠ .ok rows)
      ∧ (∀ (bad : JsVal) (post : List JsVal), converts bad = false →
          queryTraced numberToString (some pool) q (params ++ bad :: post)
              = (.error conversionError, [])
            ∧ query numberToString (some pool) q (params ++ bad :: post)
              = .error conversionError) := by
  obtain ⟨bs, hrun, _, _, _⟩ := bindParams_ok numberToString pool.request params hconv
  have htr : (queryTraced numberToString (some pool) q params).2
      = [((bindParams numberToString pool.request params).request, toTsql q)] := by
    simp only [queryTraced, hrun]
    cases pool.run ⟨pool.request.inputs ++ bs⟩ (toTsql q) <;> rfl
  refine ⟨?_, htr, by rw [htr]; rfl, ?_, ?_⟩
  · simp only [queryTraced, query, hrun]
    cases pool.run ⟨pool.request.inputs ++ bs⟩ (toTsql q) <;> rfl
  · intro msg hmsg
    have h : query numberToString (some pool) q params = .error (.driver msg) := by
      rw [hrun] at hmsg
      simp only [query, hrun, hmsg]
    exact ⟨h, fun rows hr => by rw [h] at hr; exact absurd hr (by simp)⟩
  · intro bad post hbad
    obtain ⟨bs2, hrun2, _, _⟩ :=
      bindParams_throws numberToString pool.request params post bad hconv hbad
    constructor
    · simp only [queryTraced, hrun2]
    · simp only [query, hrun2]

/-- C15, at a driver that rejects every statement. -/
theorem query_propagates_witness :
    query (fun _ => "") (some ⟨1, fun _ _ => .error "timeout"⟩) "SELECT 1" []
      = .error (.driver "timeout") :=
  ((query_propagates (fun _ => "") ⟨1, fun _ _ => .error "timeout"⟩ "SELECT 1" []
    (by decide)).2.2.2.1 "timeout" rfl).1

/-- C19, as stated, fails at the parameter list `['a', {"toString": 1}, 'b']`:
the shim raises the `TypeError` of the conversion before any driver call, after
one binding. -/
theorem query_no_count_check_counterexample :
    queryTraced (fun _ => "") (some ⟨1, fun _ _ => .ok ⟨none⟩⟩) "a = ? AND b = ?"
        [.string "a", .object none, .string "b"]
        = (.error conversionError, [])
      ∧ query (fun _ => "") (some ⟨1, fun _ _ => .ok ⟨none⟩⟩) "a = ? AND b = ?"
        [.string "a", .object none, .string "b"]
        = .error conversionError
      ∧ (bindParams (fun _ => "") ⟨[]⟩
          [.string "a", .object none, .string "b"]).request.inputs.length = 1 :=
  ⟨rfl, rfl, rfl⟩

/-- C19. Whatever the number of `?` in the template and the length of a parameter
list whose values all have a string conversion, `query` reaches the driver: the
statement it passes is the translation of the template alone, with one marker per
`?`, the request carries one input per parameter, named `p0, p1, ...`, and `query`
fails only when the driver does. -/
theorem query_no_count_check (numberToString : JsNumber → String) (pool : Pool) (q : String)
    (params : List JsVal) (hconv : ∀ v ∈ params, converts v = true) :
    (queryTraced numberToString (some pool) q params).2
        = [((bindParams numberToString ⟨[]⟩ params).request, toTsql q)]
      ∧ (toTsql q).data = weave (q.data.splitOn '?') (markersFrom 0 (countQ q.data))
      ∧ (markersFrom 0 (countQ q.data)).length = countQ q.data
      ∧ (bindParams numberToString ⟨[]⟩ params).thrown = none
      ∧ (bindParams numberToString ⟨[]⟩ params).request.inputs.length = params.length
      ∧ (bindParams numberToString ⟨[]⟩ params).request.inputs.map Binding.name
        = (List.range params.length).map (fun i => "p" ++ Nat.repr i)
      ∧ (∀ e, query numberToString (some pool) q params = .error e ↔
          ∃ msg, pool.run (bindParams numberToString ⟨[]⟩ params).request (toTsql q)
              = .error msg
            ∧ e = .driver msg)
      ∧ queryTraced numberToString (some pool) "a = ? AND b = ?" [.boolean true]
        = (match pool.run ⟨[⟨"p0", .Bit, .boolean true⟩]⟩ "a = @p0 AND b = @p1" with
            | .error e => .error (.driver e)
            | .ok res => .ok (res.recordset.getD []),
          [(⟨[⟨"p0", .Bit, .boolean true⟩]⟩, "a = @p0 AND b = @p1")]) := by
  obtain ⟨bs, hrun, _, hnames, hlen⟩ := bindParams_ok numberToString ⟨[]⟩ params hconv
  refine ⟨?_, toTsqlFrom_eq_weave _ 0, markersFrom_length _ _, by rw [hrun], ?_, ?_, ?_, ?_⟩
  · simp only [queryTraced, Pool.request, hrun]
    cases pool.run ⟨([] : List Binding) ++ bs⟩ (toTsql q) <;> rfl
  · rw [hrun]
    simpa using hlen
  · rw [hrun]
    simpa using hnames
  · intro e
    simp only [query, Pool.request, hrun]
    cases hdrv : pool.run ⟨([] : List Binding) ++ bs⟩ (toTsql q) with
    | error msg =>
      constructor
      · intro h
        injection h with h
        exact ⟨msg, rfl, h.symm⟩
      · rintro ⟨msg2, h2, rfl⟩
        injection h2 with h2
        rw [h2]
    | ok res =>
      constructor
      · intro h
        exact absurd h (by simp)
      · rintro ⟨msg2, h2, _⟩
        exact absurd h2 (by simp)
  · show (match pool.run ⟨[⟨"p0", .Bit, .boolean true⟩]⟩ "a = @p0 AND b = @p1" with
        | .error e => (Except.error (JsError.driver e), _)
        | .ok res => (Except.ok (res.recordset.getD []), _)) = _
    cases pool.run ⟨[⟨"p0", .Bit, .boolean true⟩]⟩ "a = @p0 AND b = @p1" <;> rfl

/-- C19, at a template with two `?` and one parameter. -/
theorem query_no_count_check_witness :
    (bindParams (fun _ => "") ⟨[]⟩ [.boolean true]).request.inputs.length
      = ([.boolean true] : List JsVal).length :=
  (query_no_count_check (fun _ => "") ⟨1, fun _ _ => .ok ⟨none⟩⟩ "a = ? AND b = ?"
    [.boolean true] (by decide)).2.2.2.2.1

/-- C18. Two calls of `getDb` that overlap before the first connection exists:
both find `_pool` unset, both connect. With a connector whose `i`-th call yields
pool `i + 1`, the schedule enter 0, enter 1, settle 0, settle 1 creates two pools;
a query made after the first call has settled runs on pool 1, a query made after
the second has settled runs on pool 2. The same two calls in sequence create one
pool. -/
theorem getDb_overlap_two_pools :
    ((run (fun _ => "") ⟨none, none, some "sa", some "pw", none, none, none⟩
          (fun _ i => .ok ⟨i + 1, fun _ _ => .ok ⟨some [[("pool", .bigint (i + 1))]]⟩⟩)
          ⟨⟨none, 0, [], []⟩, [.fresh, .fresh]⟩
          [.enter 0, .enter 1, .settle 0, .settle 1]).state.created.map Pool.ident = [1, 2])
      ∧ ((run (fun _ => "") ⟨none, none, some "sa", some "pw", none, none, none⟩
          (fun _ i => .ok ⟨i + 1, fun _ _ => .ok ⟨some [[("pool", .bigint (i + 1))]]⟩⟩)
          ⟨⟨none, 0, [], []⟩, [.fresh, .fresh]⟩
          [.enter 0, .enter 1, .settle 0, .settle 1]).state.calls = 2)
      ∧ ((handle (fun _ => "") 0).query
          (run (fun _ => "") ⟨none, none, some "sa", some "pw", none, none, none⟩
            (fun _ i => .ok ⟨i + 1, fun _ _ => .ok ⟨some [[("pool", .bigint (i + 1))]]⟩⟩)
            ⟨⟨none, 0, [], []⟩, [.fresh, .fresh]⟩
            [.enter 0, .enter 1, .settle 0]).state._pool "SELECT 1" []
          = .ok [[("pool", .bigint 1)]])
      ∧ ((handle (fun _ => "") 1).query
          (run (fun _ => "") ⟨none, none, some "sa", some "pw", none, none, none⟩
            (fun _ i => .ok ⟨i + 1, fun _ _ => .ok ⟨some [[("pool", .bigint (i + 1))]]⟩⟩)
            ⟨⟨none, 0, [], []⟩, [.fresh, .fresh]⟩
            [.enter 0, .enter 1, .settle 0, .settle 1]).state._pool "SELECT 1" []
          = .ok [[("pool", .bigint 2)]])
      ∧ ((run (fun _ => "") ⟨none, none, some "sa", some "pw", none, none, none⟩
          (fun _ i => .ok ⟨i + 1, fun _ _ => .ok ⟨some [[("pool", .bigint (i + 1))]]⟩⟩)
          ⟨⟨none, 0, [], []⟩, [.fresh, .fresh]⟩
          [.enter 0, .settle 0, .enter 1, .settle 1]).state.created.map Pool.ident = [1]) := by
  have h0 := getDbConnect_first_try (fun _ => "")
    ⟨none, none, some "sa", some "pw", none, none, none⟩
    (fun _ i => .ok ⟨i + 1, fun _ _ => .ok ⟨some [[("pool", .bigint (i + 1))]]⟩⟩)
    0 ⟨none, 0, [], []⟩ "sa" "pw"
    ⟨1, fun _ _ => .ok ⟨some [[("pool", .bigint 1)]]⟩⟩ rfl (by decide) rfl (by decide) (by simp)
  have h1 := getDbConnect_first_try (fun _ => "")
    ⟨none, none, some "sa", some "pw", none, none, none⟩
    (fun _ i => .ok ⟨i + 1, fun _ _ => .ok ⟨some [[("pool", .bigint (i + 1))]]⟩⟩)
    1 ⟨some ⟨1, fun _ _ => .ok ⟨some [[("pool", .bigint 1)]]⟩⟩, 1,
      [⟨1, fun _ _ => .ok ⟨some [[("pool", .bigint 1)]]⟩⟩], [.attempt 0]⟩ "sa" "pw"
    ⟨2, fun _ _ => .ok ⟨some [[("pool", .bigint 2)]]⟩⟩ rfl (by decide) rfl (by decide) (by simp)
  simp only [List.nil_append, Nat.zero_add] at h0
  refine ⟨?_, ?_, ?_, ?_, ?_⟩
  · simp [run, step, h0, h1]
  · simp [run, step, h0, h1]
  · simp [run, step, h0]
    rfl
  · simp [run, step, h0, h1]
    rfl
  · simp [run, step, h0]

/-- C16. On either signal, with `app.close()` resolved, `closeGracefully` does not
close the pool and exits with code 1: `closePool` is not among the exports of
`config/sql`, so the call of line 182 throws. No run of the handler closes the
pool or exits with code 0. -/
theorem closeGracefully_exits_one (signal : Signal) :
    "closePool" ∉ sqlModuleExports
      ∧ closeGracefully (.ok ()) signal = [.received signal, .appClose, .exit 1]
      ∧ (∀ appClose, ShutdownEvent.closePool ∉ closeGracefully appClose signal
          ∧ ShutdownEvent.exit 0 ∉ closeGracefully appClose signal) := by
  refine ⟨by decide, rfl, ?_⟩
  intro appClose
  cases appClose <;> simp [closeGracefully, sqlModuleExports]

/-- C17. The list query and the image query of `GET /api/products` are always
given as many values as they have `?`, and the total-count query is so exactly
when no `categoryId` is sent. For `categoryId = "3"` the total-count query has the
`?` of the category clause and no value: the driver receives `@p0` with no input
declared. -/
theorem products_total_query_unbalanced :
    (∀ (r : ProductsRequest) (ids : List JsVal),
        balanced (listQuery r) = true
          ∧ (∀ call ∈ imageQuery ids, balanced call = true)
          ∧ balanced (totalQuery r) = !truthy r.categoryId)
      ∧ totalQuery ⟨some "3", none, .number (.finite 3), .number (.finite 0),
            .number (.finite 20)⟩
          = (totalHead ++ "p.IsActive = 1 AND p.CategoryId = ?" ++ totalTail, [])
      ∧ countQ (totalQuery ⟨some "3", none, .number (.finite 3), .number (.finite 0),
            .number (.finite 20)⟩).1.data = 1
      ∧ totalQuery ⟨some "3", none, .number (.finite 3), .number (.finite 0),
            .number (.finite 20)⟩
          ∈ productsQueries ⟨some "3", none, .number (.finite 3), .number (.finite 0),
            .number (.finite 20)⟩ []
      ∧ toTsql (totalQuery ⟨some "3", none, .number (.finite 3), .number (.finite 0),
            .number (.finite 20)⟩).1
          = totalHead ++ "p.IsActive = 1 AND p.CategoryId = @p0" ++ totalTail
      ∧ bindParams (fun _ => "") ⟨[]⟩ (totalQuery ⟨some "3", none, .number (.finite 3),
            .number (.finite 0), .number (.finite 20)⟩).2 = ⟨⟨[]⟩, none⟩ := by
  obtain ⟨hlh, hlt, hih, hit, hth, htt⟩ := countQ_templates
  refine ⟨?_, by decide, by decide, by decide, by decide, by decide⟩
  intro r ids
  obtain ⟨hw, hp⟩ := countQ_productsWhere r
  refine ⟨?_, ?_, ?_⟩
  · simp only [balanced, listQuery, countQ_append, hlh, hlt, hw, List.length_append, hp,
      List.length_cons, List.length_nil]
    simp
  · intro call hcall
    unfold imageQuery at hcall
    split at hcall
    · simp only [Option.mem_def, Option.some.injEq] at hcall
      subst hcall
      simp only [balanced, countQ_append, hih, hit, countQ_placeholders]
      simp
    · simp at hcall
  · simp only [balanced, totalQuery, countQ_append, hth, htt, hw, List.length_nil]
    cases truthy r.categoryId <;> simp

/-- C20. The handler of `DELETE /api/commandes/:id` never changes a stock nor
removes an order: for an existing order it answers 500, because the list it
iterates, `commande.pieces`, is not a path of the order schema. An order of two
units of a product in stock 3 is answered 500, the stock stays 3 and the order
stays stored. -/
theorem deleteCommande_fails (db : Store) (id : Nat) :
    (deleteCommande db id).2 = db
      ∧ (deleteCommande db id).1
        = (if (db.commandes.find? (fun commande => commande._id = id)).isSome then
            ⟨500, false, "Erreur lors de l'annulation de la commande"⟩
          else ⟨404, false, "Commande non trouvée"⟩)
      ∧ (deleteCommande db id).1.message ≠ "Commande annulée et stock restauré"
      ∧ deleteCommande
          ⟨[⟨7, "Biberon", 1000, 3⟩],
            [⟨1, 42, "en_cours", [⟨7, "Biberon", 2, 1000, 2000⟩], 2000⟩]⟩ 1
        = (⟨500, false, "Erreur lors de l'annulation de la commande"⟩,
            ⟨[⟨7, "Biberon", 1000, 3⟩],
              [⟨1, 42, "en_cours", [⟨7, "Biberon", 2, 1000, 2000⟩], 2000⟩]⟩) := by
  refine ⟨?_, ?_, ?_, by decide⟩
  · unfold deleteCommande
    cases db.commandes.find? (fun commande => commande._id = id) <;> simp [Commande.pieces]
  · unfold deleteCommande
    cases db.commandes.find? (fun commande => commande._id = id) <;> simp [Commande.pieces]
  · unfold deleteCommande
    cases db.commandes.find? (fun commande => commande._id = id) <;>
      simp [Commande.pieces]

/-- C29. With both credentials present and `retries <= 0`, `connect` makes no
attempt and returns `undefined` without error. A `getDb` whose `connect` were
called so on a module without pool would leave `_pool` unset and still return the
handle, and every query through that handle fails with the `TypeError` of reading
`request` on `undefined`. With the default arguments this variant is `getDb`. -/
theorem connect_no_retries (numberToString : JsNumber → String) (env : Env)
    (sqlConnect : Config → Nat → Except String Pool) (retries : Int) (delayMs : Nat)
    (u p : String) (obj : Nat) (m : Module)
    (huser : env.DB_USER = some u) (hu : u ≠ "")
    (hpassword : env.DB_PASSWORD = some p) (hp : p ≠ "")
    (hretries : retries ≤ 0) (hfresh : m._pool = none) :
    connect env sqlConnect retries delayMs = (.ok none, [])
      ∧ attempts (connect env sqlConnect retries delayMs).2 = 0
      ∧ getDbWith numberToString env sqlConnect retries delayMs obj m
        = (.ok (handle numberToString obj), ⟨none, m.calls, m.created, m.events⟩)
      ∧ (∀ q params,
          (handle numberToString obj).query
              (getDbWith numberToString env sqlConnect retries delayMs obj m).2._pool q params
            = .error (.typeError "Cannot read properties of undefined (reading 'request')"))
      ∧ getDbWith numberToString env sqlConnect defaultRetries defaultDelayMs obj m
        = getDb numberToString env sqlConnect obj m := by
  have hrun : ∀ sc : Config → Nat → Except String Pool,
      connect env sc retries delayMs = (.ok none, []) := by
    intro sc
    rw [connect_with_credentials env sc retries delayMs u p huser hu hpassword hp,
      connectLoop_no_retries sc (mkConfig env) retries delayMs hretries]
  have hget : getDbWith numberToString env sqlConnect retries delayMs obj m
      = (.ok (handle numberToString obj), ⟨none, m.calls, m.created, m.events⟩) := by
    unfold getDbWith getDbConnectWith
    rw [hfresh, hrun]
    simp [attempts]
  refine ⟨hrun sqlConnect, by rw [hrun]; rfl, hget, ?_,
    getDbWith_defaults numberToString env sqlConnect obj m⟩
  intro q params
  rw [hget]
  rfl

/-- C29, at `retries = 0` on a fresh module. -/
theorem connect_no_retries_witness :
    connect ⟨none, none, some "sa", some "pw", none, none, none⟩
        (fun _ i => .ok ⟨i, fun _ _ => .ok ⟨none⟩⟩) 0 500 = (.ok none, []) :=
  (connect_no_retries (fun _ => "") ⟨none, none, some "sa", some "pw", none, none, none⟩
    (fun _ i => .ok ⟨i, fun _ _ => .ok ⟨none⟩⟩) 0 500 "sa" "pw" 0 ⟨none, 0, [], []⟩
    rfl (by decide) rfl (by decide) (by decide) rfl).1

/-- C23. For every body of `PATCH /api/inviter/:id` the defined columns are taken
in the fixed column order. When none is defined no query is made; otherwise the
`UPDATE` template has one `?` per defined column plus one for the id, it is given
exactly the values of these columns in the same order followed by the id, and its
translation sets the `i`-th defined column to `@p<i>` and compares the id with
the marker numbered by the count of defined columns. -/
theorem update_query_balanced (body : String → JsVal) (id : JsVal) :
    (definedFields body).Sublist inviterFields
      ∧ (∀ f, f ∈ definedFields body ↔ f ∈ inviterFields ∧ body f ≠ .undefined)
      ∧ (definedFields body = [] → updateQuery body id = none)
      ∧ (definedFields body ≠ [] →
          updateQuery body id
              = some (updateHead ++ setClauses (definedFields body) ++ updateTail,
                  (definedFields body).map body ++ [id])
            ∧ countQ (updateHead ++ setClauses (definedFields body) ++ updateTail).data
              = (definedFields body).length + 1
            ∧ ((definedFields body).map body ++ [id]).length
              = (definedFields body).length + 1
            ∧ toTsql (updateHead ++ setClauses (definedFields body) ++ updateTail)
              = updateHead
                ++ ", ".intercalate
                    ((definedFields body).enum.map (fun p => p.2 ++ " = @p" ++ Nat.repr p.1))
                ++ (" WHERE Inviter_id = @p" ++ Nat.repr (definedFields body).length
                    ++ "\n      ")) := by
  refine ⟨List.filter_sublist _, ?_, ?_, ?_⟩
  · intro f
    unfold definedFields
    rw [List.mem_filter]
    have h : (decide (typeof (body f) ≠ "undefined") = true) ↔ body f ≠ .undefined := by
      cases hb : body f <;> simp [typeof]
    rw [h]
  · intro h
    simp [updateQuery, h]
  · intro h
    obtain ⟨hlh, hlt, huh, hut⟩ := countQ_more_templates
    refine ⟨?_, ?_, by simp, ?_⟩
    · have hl : (definedFields body).length ≠ 0 := by
        intro h0
        exact h (List.length_eq_zero.mp h0)
      simp [updateQuery, hl]
    · rw [countQ_append, countQ_append, huh, hut,
        countQ_setClauses _ (definedFields_clean body)]
      omega
    · cases hd : definedFields body with
      | nil => exact absurd hd h
      | cons f fs =>
        have hclean := definedFields_clean body
        rw [hd] at hclean
        rw [toTsql_update f fs hclean]
        rfl

/-- C23, at a body that defines `Baby_age` and `Is_baby_taking_medecine`. -/
theorem update_query_balanced_witness :
    updateQuery
        (fun f => if f = "Baby_age" then .string "3"
          else if f = "Is_baby_taking_medecine" then .boolean true else .undefined)
        (.string "abc")
      = some (updateHead ++ "Baby_age = ?, Is_baby_taking_medecine = ?" ++ updateTail,
          [.string "3", .boolean true, .string "abc"]) :=
  ((update_query_balanced
    (fun f => if f = "Baby_age" then .string "3"
      else if f = "Is_baby_taking_medecine" then .boolean true else .undefined)
    (.string "abc")).2.2.2 (by decide)).1

/-- C24. The image lookup of the product list and of the category page: for an
empty list of ids no query is made; for `k >= 1` ids the template has `k`
placeholders joined by commas, the query is given exactly these ids in order, the
translated `IN` list is `@p0,...,@p(k-1)`, and the binder names the binding of
`ids[i]` `p<i>` (the ids are column values of result rows, which all have a
string conversion). -/
theorem image_query_placeholders (numberToString : JsNumber → String) (v : JsVal)
    (vs : List JsVal) :
    imageQuery [] = none ∧ categoryImageQuery [] = none
      ∧ imageQuery (v :: vs)
        = some (imageHead ++ ",".intercalate ((v :: vs).map (fun _ => "?")) ++ imageTail,
            v :: vs)
      ∧ categoryImageQuery (v :: vs)
        = some (categoryImageHead ++ ",".intercalate ((v :: vs).map (fun _ => "?"))
            ++ categoryImageTail, v :: vs)
      ∧ countQ (",".intercalate ((v :: vs).map (fun _ => "?"))).data = (v :: vs).length
      ∧ countQ (imageHead ++ ",".intercalate ((v :: vs).map (fun _ => "?"))
          ++ imageTail).data = (v :: vs).length
      ∧ countQ (categoryImageHead ++ ",".intercalate ((v :: vs).map (fun _ => "?"))
          ++ categoryImageTail).data = (v :: vs).length
      ∧ toTsql (imageHead ++ ",".intercalate ((v :: vs).map (fun _ => "?")) ++ imageTail)
        = imageHead
          ++ ",".intercalate ((List.range (v :: vs).length).map (fun i => "@p" ++ Nat.repr i))
          ++ imageTail
      ∧ toTsql (categoryImageHead ++ ",".intercalate ((v :: vs).map (fun _ => "?"))
          ++ categoryImageTail)
        = categoryImageHead
          ++ ",".intercalate ((List.range (v :: vs).length).map (fun i => "@p" ++ Nat.repr i))
          ++ categoryImageTail
      ∧ ((∀ x ∈ v :: vs, converts x = true) →
          (bindParams numberToString ⟨[]⟩ (v :: vs)).thrown = none
            ∧ (bindParams numberToString ⟨[]⟩ (v :: vs)).request.inputs.map some
              = (v :: vs).enum.map (fun p => expectedBinding p.1 p.2)
            ∧ (bindParams numberToString ⟨[]⟩ (v :: vs)).request.inputs.map Binding.name
              = (List.range (v :: vs).length).map (fun i => "p" ++ Nat.repr i)) := by
  obtain ⟨_, _, hih, hit, _, _⟩ := countQ_templates
  obtain ⟨hch, hct, _, _⟩ := countQ_more_templates
  refine ⟨rfl, rfl, by simp [imageQuery], by simp [categoryImageQuery],
    countQ_placeholders _, ?_, ?_,
    toTsql_in_list imageHead imageTail hih hit v vs,
    toTsql_in_list categoryImageHead categoryImageTail hch hct v vs, ?_⟩
  · rw [countQ_append, countQ_append, hih, hit, countQ_placeholders]
    omega
  · rw [countQ_append, countQ_append, hch, hct, countQ_placeholders]
    omega
  · intro hconv
    obtain ⟨bs, hrun, hbs, hnames, _⟩ := bindParams_ok numberToString ⟨[]⟩ (v :: vs) hconv
    rw [hrun]
    exact ⟨rfl, by simpa using hbs, by simpa using hnames⟩

/-- C24, at the single id `7`. -/
theorem image_query_placeholders_witness :
    (bindParams (fun _ => "") ⟨[]⟩ [.number (.finite 7)]).request.inputs.map Binding.name
      = (List.range ([.number (.finite 7)] : List JsVal).length).map
          (fun i => "p" ++ Nat.repr i) :=
  ((image_query_placeholders (fun _ => "") (.number (.finite 7)) []).2.2.2.2.2.2.2.2.2
    (by decide)).2.2

/-- C30. For an inviter that was found, with parsed meal count `m >= 0`, the task
list is `Petit déjeuner` (Morning), `m` feeding tasks of which the `i`-th has
group `groupForIndex i`, the medicine task if the baby takes medicine, then
`Jouer avec bébé`, `Dîner` and `Dodo` (Night): `5 + m` tasks with medicine and
`4 + m` without, every group among Morning, Day, Afternoon and Night; and when the
handler answers, its `count` is the number of tasks, one `INSERT` having been made
for each. -/
theorem generateTasks_shape (m : Nat) (takesMedicine : Bool) (insertOk : Nat → Bool)
    (dayStr : String) :
    generateTasks (some (m : Int)) takesMedicine
        = [(⟨"Petit déjeuner", "Morning"⟩ : Task)]
          ++ (List.range m).map (fun j => (⟨"Faire manger bébé", groupForIndex j⟩ : Task))
          ++ (if takesMedicine then [(⟨"Prendre les médicaments", "Day"⟩ : Task)] else [])
          ++ [⟨"Jouer avec bébé", "Afternoon"⟩, ⟨"Dîner", "Night"⟩, ⟨"Dodo", "Night"⟩]
      ∧ (generateTasks (some (m : Int)) takesMedicine).length
        = (if takesMedicine then 5 else 4) + m
      ∧ (generateTasks (some (m : Int)) takesMedicine).head?
        = some ⟨"Petit déjeuner", "Morning"⟩
      ∧ (generateTasks (some (m : Int)) takesMedicine).getLast? = some ⟨"Dodo", "Night"⟩
      ∧ ((generateTasks (some (m : Int)) takesMedicine).drop 1).take m
        = (List.range m).map (fun j => (⟨"Faire manger bébé", groupForIndex j⟩ : Task))
      ∧ groupForIndex 0 = "Morning" ∧ groupForIndex 1 = "Day"
      ∧ groupForIndex 2 = "Afternoon" ∧ (∀ i, groupForIndex (i + 3) = "Night")
      ∧ (∀ t ∈ generateTasks (some (m : Int)) takesMedicine,
          t.group ∈ ["Morning", "Day", "Afternoon", "Night"])
      ∧ ((generateCount insertOk dayStr (some (m : Int)) takesMedicine).1 = none
        ∨ ((generateCount insertOk dayStr (some (m : Int)) takesMedicine).1
              = some (generateTasks (some (m : Int)) takesMedicine).length
            ∧ (generateCount insertOk dayStr (some (m : Int)) takesMedicine).2.length
              = (generateTasks (some (m : Int)) takesMedicine).length))
      ∧ generateCount (fun _ => true) dayStr (some (m : Int)) takesMedicine
        = (some ((if takesMedicine then 5 else 4) + m),
            (generateTasks (some (m : Int)) takesMedicine).map (fun t =>
              (insertTaskSql, [.string dayStr, .string t.task, .string t.group]))) := by
  have heq := generateTasks_eq m takesMedicine
  have hlen : (generateTasks (some (m : Int)) takesMedicine).length
      = (if takesMedicine then 5 else 4) + m := by
    rw [heq]
    cases takesMedicine <;> simp <;> omega
  refine ⟨heq, hlen, ?_, ?_, ?_, rfl, rfl, rfl, ?_, ?_, ?_, ?_⟩
  · rw [heq]; rfl
  · rw [heq, List.getLast?_append]
    rfl
  · rw [heq]
    simp only [List.append_assoc, List.singleton_append, List.cons_append,
      List.drop_succ_cons, List.drop_zero]
    have hl : ((List.range m).map
        (fun j => (⟨"Faire manger bébé", groupForIndex j⟩ : Task))).length = m := by simp
    exact List.take_left' hl
  · intro i
    simp [groupForIndex]
  · intro t ht
    rw [heq] at ht
    simp only [List.mem_append, List.mem_map, List.mem_cons, List.mem_singleton,
      List.not_mem_nil, or_false] at ht
    rcases ht with ((rfl | ⟨j, _, rfl⟩) | hmed) | rfl | rfl | rfl
    · simp
    · exact groupForIndex_mem j
    · cases takesMedicine
      · simp at hmed
      · simp at hmed
        subst hmed
        simp
    · simp
    · simp
    · simp
  · have h := insertLoop_result insertOk dayStr
      (generateTasks (some (m : Int)) takesMedicine) 0 []
    simpa [generateCount] using h
  · unfold generateCount
    rw [insertLoop_all_ok, hlen]
    simp

/-- C22. The object returned by `createRateLimiter(type)` has, for every key, the
value of the configuration of `type` when that configuration has the key and the
global value otherwise; its keys are those of the global configuration, in the
same order. Without argument, for `global` and for every type that is none of
`auth`, `upload` and `read` it is the global configuration. -/
theorem createRateLimiter_spread (nodeEnv : Option String) (type : Option String)
    (key : String) :
    (createRateLimiter nodeEnv type).lookup key
        = (match rateLimitConfigAt nodeEnv (type.getD "global") with
          | some config =>
            (match config.lookup key with
              | some value => some value
              | none => (globalConfig nodeEnv).lookup key)
          | none => (globalConfig nodeEnv).lookup key)
      ∧ (createRateLimiter nodeEnv type).map Prod.fst = (globalConfig nodeEnv).map Prod.fst
      ∧ createRateLimiter nodeEnv none = globalConfig nodeEnv
      ∧ createRateLimiter nodeEnv (some "global") = globalConfig nodeEnv
      ∧ (type ≠ some "auth" → type ≠ some "upload" → type ≠ some "read" →
          createRateLimiter nodeEnv type = globalConfig nodeEnv)
      ∧ createRateLimiter nodeEnv (some "auth")
        = [("max", .num 5), ("timeWindow", .str "15 minutes"), ("ban", .num 2),
            ("cache", .num 10000), ("allowList", .list ["127.0.0.1", "::1", "localhost"]),
            ("enabled", .bool (decide (nodeEnv ≠ some "development"))), ("redis", .null),
            ("skipOnError", .bool true), ("onBanReach", .func "onBanReach"),
            ("keyGenerator", .func "keyGenerator"),
            ("errorResponseBuilder", .func "errorResponseBuilder")] := by
  obtain ⟨hgg, hga, hka, hku, hkr⟩ := spread_global nodeEnv
  have hnd : ((globalConfig nodeEnv).map Prod.fst).Nodup := by
    rw [globalConfig_keys]; decide
  have hcases := rateLimitConfigAt_cases nodeEnv (type.getD "global")
  refine ⟨?_, ?_, ?_, ?_, ?_, ?_⟩
  · unfold createRateLimiter
    rcases hcases with ⟨_, h⟩ | ⟨_, h⟩ | ⟨_, h⟩ | ⟨_, h⟩ | ⟨_, h⟩
    · rw [h]
      simp only [Option.getD_some]
      rw [lookup_spread key _ _ hnd]
      cases (globalConfig nodeEnv).lookup key <;> rfl
    · rw [h]
      simp only [Option.getD_some]
      rw [lookup_spread key _ _ (by decide)]
      cases authConfig.lookup key <;> rfl
    · rw [h]
      simp only [Option.getD_some]
      rw [lookup_spread key _ _ (by decide)]
      cases uploadConfig.lookup key <;> rfl
    · rw [h]
      simp only [Option.getD_some]
      rw [lookup_spread key _ _ (by decide)]
      cases readConfig.lookup key <;> rfl
    · rw [h]
      simp only [Option.getD_none]
      rw [hgg]
  · unfold createRateLimiter
    rcases hcases with ⟨_, h⟩ | ⟨_, h⟩ | ⟨_, h⟩ | ⟨_, h⟩ | ⟨_, h⟩ <;> rw [h]
    · simp only [Option.getD_some]; rw [hgg]
    · exact hka
    · exact hku
    · exact hkr
    · simp only [Option.getD_none]; rw [hgg]
  · exact hgg
  · exact hgg
  · intro h1 h2 h3
    unfold createRateLimiter
    rcases hcases with ⟨_, h⟩ | ⟨ht, _⟩ | ⟨ht, _⟩ | ⟨ht, _⟩ | ⟨_, h⟩
    · rw [h]; exact hgg
    · cases type with
      | none => exact absurd ht (by decide)
      | some t => exact absurd (congrArg some ht) h1
    · cases type with
      | none => exact absurd ht (by decide)
      | some t => exact absurd (congrArg some ht) h2
    · cases type with
      | none => exact absurd ht (by decide)
      | some t => exact absurd (congrArg some ht) h3
    · rw [h]; exact hgg
  · exact hga

/-- C22, at the unknown type `search`. -/
theorem createRateLimiter_spread_witness :
    createRateLimiter (some "production") (some "search")
      = globalConfig (some "production") :=
  (createRateLimiter_spread (some "production") (some "search") "max").2.2.2.2.1
    (by decide) (by decide) (by decide)

/-- C21, as stated, fails for a request without body: no accepted `statut` is
requested, yet destructuring `request.body` throws and the `catch` answers 500,
not 400 with `Statut invalide`. -/
theorem patchStatut_spec_counterexample :
    (patchStatut ⟨[], [⟨1, 42, "en_cours", [], 0⟩]⟩ 1 none).reply
        = ⟨500, false, "Erreur lors de la mise à jour du statut"⟩
      ∧ (patchStatut ⟨[], [⟨1, 42, "en_cours", [], 0⟩]⟩ 1 none).reply.code ≠ 400
      ∧ (patchStatut ⟨[], [⟨1, 42, "en_cours", [], 0⟩]⟩ 1 none).reply
        ≠ ⟨400, false, "Statut invalide. Valeurs acceptées: en_cours, livree"⟩ :=
  ⟨rfl, by decide, by decide⟩

/-- C21. A request without body to `PATCH /api/commandes/:id/status` is answered
500, with no order looked up and the store unchanged. For a request that carries
a body, the answer is 400 with
`Statut invalide. Valeurs acceptées: en_cours, livree` exactly when the `statut`
of the body is neither `en_cours` nor `livree`, and then no order is looked up
and the store is unchanged. For an accepted `statut` and an existing order the
answer is a success, the order found under the id afterwards has the requested
`statut` and its other fields as before, the products and every other order are
untouched. -/
theorem patchStatut_spec (db : Store) (id : Nat) (statut : JsVal) :
    (patchStatut db id none
        = ⟨⟨500, false, "Erreur lors de la mise à jour du statut"⟩, db, []⟩)
      ∧ ((patchStatut db id (some statut)).reply
          = ⟨400, false, "Statut invalide. Valeurs acceptées: en_cours, livree"⟩
        ↔ (statut ≠ .string "en_cours" ∧ statut ≠ .string "livree"))
      ∧ ((patchStatut db id (some statut)).reply.code = 400
        ↔ (statut ≠ .string "en_cours" ∧ statut ≠ .string "livree"))
      ∧ ((statut ≠ .string "en_cours" ∧ statut ≠ .string "livree") →
          (patchStatut db id (some statut)).db = db
            ∧ (patchStatut db id (some statut)).lookups = [])
      ∧ (∀ (s : String) (commande : Commande), statut = .string s →
          (s = "en_cours" ∨ s = "livree") →
          db.commandes.find? (fun other => other._id = id) = some commande →
          (patchStatut db id (some statut)).reply
              = ⟨200, true, "Statut de la commande mis à jour"⟩
            ∧ (patchStatut db id (some statut)).db.products = db.products
            ∧ (patchStatut db id (some statut)).db.commandes.find?
                (fun other => other._id = id)
              = some ⟨commande._id, commande.userId, s, commande.products,
                  commande.totalCommande⟩
            ∧ (patchStatut db id (some statut)).db.commandes.length = db.commandes.length
            ∧ (∀ other ∈ db.commandes, other._id ≠ id →
                other ∈ (patchStatut db id (some statut)).db.commandes)) := by
  have haccepted : ∀ s : String, (s = "en_cours" ∨ s = "livree") →
      ¬ (JsVal.string s ≠ .string "en_cours" ∧ JsVal.string s ≠ .string "livree") := by
    intro s hs h
    rcases hs with rfl | rfl
    · exact h.1 rfl
    · exact h.2 rfl
  have hrefused : ∀ s : String, ¬ (s = "en_cours" ∨ s = "livree") →
      (JsVal.string s ≠ .string "en_cours" ∧ JsVal.string s ≠ .string "livree") := by
    intro s hs
    constructor
    · intro e; injection e with e; exact hs (Or.inl e)
    · intro e; injection e with e; exact hs (Or.inr e)
  have hcode : (patchStatut db id (some statut)).reply.code = 400
      → (patchStatut db id (some statut)).reply
        = ⟨400, false, "Statut invalide. Valeurs acceptées: en_cours, livree"⟩ := by
    cases statut with
    | string s =>
      by_cases hs : s = "en_cours" ∨ s = "livree"
      · cases hf : db.commandes.find? (fun commande => commande._id = id) <;>
          simp [patchStatut, hs, hf]
      · simp [patchStatut, hs]
    | _ => simp [patchStatut]
  have hiff : (patchStatut db id (some statut)).reply
        = ⟨400, false, "Statut invalide. Valeurs acceptées: en_cours, livree"⟩
      ↔ (statut ≠ .string "en_cours" ∧ statut ≠ .string "livree") := by
    cases statut with
    | string s =>
      by_cases hs : s = "en_cours" ∨ s = "livree"
      · constructor
        · intro h
          have hc := congrArg Reply.code h
          cases hf : db.commandes.find? (fun commande => commande._id = id) <;>
            simp [patchStatut, hs, hf] at hc
        · intro h
          exact absurd h (haccepted s hs)
      · constructor
        · intro _
          exact hrefused s hs
        · intro _
          simp [patchStatut, hs]
    | _ => simp [patchStatut]
  refine ⟨rfl, hiff, ⟨fun h => hiff.mp (hcode h), fun h => by rw [hiff.mpr h]⟩, ?_, ?_⟩
  · intro h
    cases statut with
    | string s =>
      have hs : ¬ (s = "en_cours" ∨ s = "livree") := fun hs => haccepted s hs h
      simp [patchStatut, hs]
    | _ => simp [patchStatut]
  · intro s commande hst hs hfound
    subst hst
    have hrun : patchStatut db id (some (.string s))
        = ⟨⟨200, true, "Statut de la commande mis à jour"⟩,
            ⟨db.products, db.commandes.map (fun other =>
              if other._id = id then
                ⟨other._id, other.userId, s, other.products, other.totalCommande⟩
              else other)⟩,
            [id]⟩ := by
      simp [patchStatut, hs, hfound]
    rw [hrun]
    refine ⟨rfl, rfl, ?_, by simp, ?_⟩
    · show (db.commandes.map _).find? _ = _
      rw [find?_map_commande id _ (by intro c; by_cases hc : c._id = id <;> simp [hc]),
        hfound]
      have hid : commande._id = id := by
        have := List.find?_some hfound
        simpa using this
      simp [hid]
    · intro other hmem hne
      show other ∈ db.commandes.map _
      exact List.mem_map.mpr ⟨other, hmem, by simp [hne]⟩

/-- C21, at a store with one order and the request to mark it delivered. -/
theorem patchStatut_spec_witness :
    (patchStatut ⟨[], [⟨1, 42, "en_cours", [], 0⟩]⟩ 1 (some (.string "livree"))).db.commandes.find?
        (fun other => other._id = 1)
      = some ⟨1, 42, "livree", [], 0⟩ :=
  ((patchStatut_spec ⟨[], [⟨1, 42, "en_cours", [], 0⟩]⟩ 1 (.string "livree")).2.2.2.2
    "livree" ⟨1, 42, "en_cours", [], 0⟩ rfl (Or.inr rfl) (by decide)).2.2.1

/-- C26. Whenever `POST /api/commandes` stores an order, and so whenever it
answers 201, the order has one line per requested item, in order, with the
product and the quantity of the item, the unit price of that product in the
store, and the total `prixUnitaire * quantite`; and `totalCommande` is the sum of
the totals of these lines, added up from 0 in the order of the items. Product and
sum are those of the language, whatever they round to. The answer for a stored
order is 201 exactly when `populate` resolves. -/
theorem postCommande_totals (arith : Arith) (numberText : ℚ → String) (populate : Bool)
    (newId : Nat) (db : Store) (request : OrderRequest)
    (hcreated : (postCommande arith numberText populate newId db request).1.code = 201
      ∨ (postCommande arith numberText populate newId db request).2.commandes
        ≠ db.commandes) :
    (∃ (userId : Nat) (items : List OrderItem) (lines : List OrderLine) (total : ℚ),
      request.userId = some userId ∧ request.products = some items
        ∧ (postCommande arith numberText populate newId db request).2.commandes
          = db.commandes ++ [⟨newId, userId, "en_cours", lines, total⟩]
        ∧ List.Forall₂ (lineMatches arith db) items lines
        ∧ lines.length = items.length
        ∧ (∀ line ∈ lines, line.total = arith.mul line.prixUnitaire line.quantite)
        ∧ total = (lines.map OrderLine.total).foldl arith.add 0)
      ∧ ((postCommande arith numberText populate newId db request).1.code = 201
        ↔ populate = true) := by
  rcases request_cases request with hinv | ⟨userId, items, hu, hp, hne⟩
  · rw [postCommande_invalid arith numberText populate newId db request hinv] at hcreated
    simp at hcreated
  · rw [postCommande_eq arith numberText populate newId db request userId items hu hp hne]
      at hcreated ⊢
    have hsame := orderLoop_commandes arith numberText items db 0 []
    cases hloop : orderLoop arith numberText db items 0 [] with
    | rejected reply db1 =>
      rw [hloop] at hcreated hsame
      have hc := (orderLoop_rejected_code arith numberText items db 0 [] reply db1 hloop).2
      simp only [LoopResult.store] at hsame
      simp only at hcreated
      rcases hcreated with h | h
      · omega
      · exact absurd hsame h
    | completed db1 total1 lines1 =>
      rw [hloop] at hcreated hsame
      simp only [LoopResult.store] at hsame
      simp only at hcreated ⊢
      obtain ⟨newLines, hl, ht, hm, hc, _, _⟩ :=
        orderLoop_completed arith numberText items db 0 [] db1 total1 lines1 hloop
      by_cases hv : validCommande total1 lines1 = true
      · rw [if_pos hv]
        rw [List.nil_append] at hl
        subst hl
        refine ⟨⟨userId, items, lines1, total1, hu, hp, by rw [hc], hm,
          (List.Forall₂.length_eq hm).symm, ?_, ht⟩, ?_⟩
        · intro line hline
          obtain ⟨item, hitem⟩ :=
            forall₂_mem_right (lineMatches arith db) items lines1 hm line hline
          exact hitem.2.2.2
        · cases populate <;> simp
      · rw [if_neg hv] at hcreated
        rcases hcreated with h | h
        · simp at h
        · exact absurd hsame h

/-- C26, in double precision, at an order of three units of a product priced
0.1: the line total and `totalCommande` are the double 0.30000000000000004. -/
theorem postCommande_totals_witness :
    (postCommande double (fun _ => "") true 1
        ⟨[⟨7, "Biberon", 3602879701896397 / 36028797018963968, 5⟩], []⟩
        ⟨some 42, some [⟨7, 3⟩]⟩).2.commandes
        = [⟨1, 42, "en_cours",
            [⟨7, "Biberon", 3, 3602879701896397 / 36028797018963968,
              5404319552844596 / 18014398509481984⟩],
            5404319552844596 / 18014398509481984⟩]
      ∧ ∃ (userId : Nat) (items : List OrderItem) (lines : List OrderLine) (total : ℚ),
        (⟨some 42, some [⟨7, 3⟩]⟩ : OrderRequest).userId = some userId
          ∧ (⟨some 42, some [⟨7, 3⟩]⟩ : OrderRequest).products = some items
          ∧ (postCommande double (fun _ => "") true 1
              ⟨[⟨7, "Biberon", 3602879701896397 / 36028797018963968, 5⟩], []⟩
              ⟨some 42, some [⟨7, 3⟩]⟩).2.commandes
            = [] ++ [⟨1, userId, "en_cours", lines, total⟩]
          ∧ List.Forall₂
              (lineMatches double
                ⟨[⟨7, "Biberon", 3602879701896397 / 36028797018963968, 5⟩], []⟩)
              items lines
          ∧ lines.length = items.length
          ∧ (∀ line ∈ lines, line.total = double.mul line.prixUnitaire line.quantite)
          ∧ total = (lines.map OrderLine.total).foldl double.add 0 :=
  ⟨by decide!,
    (postCommande_totals double (fun _ => "") true 1
      ⟨[⟨7, "Biberon", 3602879701896397 / 36028797018963968, 5⟩], []⟩
      ⟨some 42, some [⟨7, 3⟩]⟩ (Or.inl (by decide!))).1⟩

/-- C27. When the items before position `k` of a request are all accepted and the
item at position `k` is rejected (its product is unknown, or its stock is lower
than the quantity asked), the handler answers 404 or 400 without success, stores
no order, and leaves the store as the accepted items made it: each stock has had
the quantities of the items before `k` subtracted in turn, by the subtraction of
the language. -/
theorem postCommande_not_atomic (arith : Arith) (numberText : ℚ → String)
    (populate : Bool) (newId : Nat) (db : Store)
    (request : OrderRequest) (userId : Nat) (pre post : List OrderItem) (item : OrderItem)
    (db1 : Store) (total1 : ℚ) (lines1 : List OrderLine)
    (hu : request.userId = some userId)
    (hp : request.products = some (pre ++ item :: post))
    (hpre : orderLoop arith numberText db pre 0 [] = .completed db1 total1 lines1)
    (hrej : db1.products.find? (fun product => product._id = item.productId) = none
      ∨ ∃ product, db1.products.find? (fun other => other._id = item.productId)
          = some product ∧ product.stock < item.quantite) :
    (postCommande arith numberText populate newId db request).2 = db1
      ∧ (postCommande arith numberText populate newId db request).1.success = false
      ∧ ((postCommande arith numberText populate newId db request).1.code = 404
        ∨ (postCommande arith numberText populate newId db request).1.code = 400)
      ∧ (postCommande arith numberText populate newId db request).2.commandes = db.commandes
      ∧ (∀ id, stockOf (postCommande arith numberText populate newId db request).2 id
          = (stockOf db id).map (stockAfter arith pre id)) := by
  obtain ⟨_, _, _, _, hc, _, hs⟩ :=
    orderLoop_completed arith numberText pre db 0 [] db1 total1 lines1 hpre
  have hrun : ∃ reply,
      postCommande arith numberText populate newId db request = (reply, db1)
        ∧ reply.success = false ∧ (reply.code = 404 ∨ reply.code = 400) := by
    rw [postCommande_eq arith numberText populate newId db request userId _ hu hp (by simp),
      orderLoop_append, hpre]
    simp only
    rcases orderLoop_cons_cases arith numberText db1 item post total1 lines1 with
      ⟨reply, hr, hsucc, hcode⟩ | ⟨product, hfind, hstock, _⟩
    · rw [hr]
      refine ⟨reply, rfl, hsucc, ?_⟩
      rcases hcode with ⟨h4, _⟩ | ⟨h4, _⟩ | ⟨_, product, hfind, hstock, _⟩
      · exact Or.inl h4
      · exact Or.inr h4
      · rcases hrej with hnone | ⟨product2, hfind2, hlt⟩
        · rw [hnone] at hfind
          exact absurd hfind (by simp)
        · rw [hfind2] at hfind
          injection hfind with hfind
          subst hfind
          exact absurd hlt hstock
    · rcases hrej with hnone | ⟨product2, hfind2, hlt⟩
      · rw [hnone] at hfind
        exact absurd hfind (by simp)
      · rw [hfind2] at hfind
        injection hfind with hfind
        subst hfind
        exact absurd hlt hstock
  obtain ⟨reply, hrun, hsucc, hcode⟩ := hrun
  rw [hrun]
  exact ⟨rfl, hsucc, hcode, hc, hs⟩

/-- C27, in double precision, at a request asking 0.1 and then 10 of a product
that has 10: the second item is rejected, no order is stored, and the stock stays
at the double 9.9. -/
theorem postCommande_not_atomic_witness :
    (postCommande double (fun _ => "") true 1 ⟨[⟨7, "Biberon", 1000, 10⟩], []⟩
        ⟨some 42,
          some ([⟨7, 3602879701896397 / 36028797018963968⟩] ++ ⟨7, 10⟩ :: [])⟩).2
        = ⟨[⟨7, "Biberon", 1000, 5573204538870989 / 562949953421312⟩], []⟩
      ∧ (postCommande double (fun _ => "") true 1 ⟨[⟨7, "Biberon", 1000, 10⟩], []⟩
        ⟨some 42,
          some ([⟨7, 3602879701896397 / 36028797018963968⟩] ++ ⟨7, 10⟩ :: [])⟩).1.success
        = false
      ∧ ((postCommande double (fun _ => "") true 1 ⟨[⟨7, "Biberon", 1000, 10⟩], []⟩
          ⟨some 42,
            some ([⟨7, 3602879701896397 / 36028797018963968⟩] ++ ⟨7, 10⟩ :: [])⟩).1.code
          = 404
        ∨ (postCommande double (fun _ => "") true 1 ⟨[⟨7, "Biberon", 1000, 10⟩], []⟩
          ⟨some 42,
            some ([⟨7, 3602879701896397 / 36028797018963968⟩] ++ ⟨7, 10⟩ :: [])⟩).1.code
          = 400)
      ∧ (postCommande double (fun _ => "") true 1 ⟨[⟨7, "Biberon", 1000, 10⟩], []⟩
        ⟨some 42,
          some ([⟨7, 3602879701896397 / 36028797018963968⟩] ++ ⟨7, 10⟩ :: [])⟩).2.commandes
        = []
      ∧ (∀ id, stockOf (postCommande double (fun _ => "") true 1
            ⟨[⟨7, "Biberon", 1000, 10⟩], []⟩
            ⟨some 42,
              some ([⟨7, 3602879701896397 / 36028797018963968⟩] ++ ⟨7, 10⟩ :: [])⟩).2 id
          = (stockOf ⟨[⟨7, "Biberon", 1000, 10⟩], []⟩ id).map
              (stockAfter double [⟨7, 3602879701896397 / 36028797018963968⟩] id)) :=
  postCommande_not_atomic double (fun _ => "") true 1 ⟨[⟨7, "Biberon", 1000, 10⟩], []⟩
    ⟨some 42, some ([⟨7, 3602879701896397 / 36028797018963968⟩] ++ ⟨7, 10⟩ :: [])⟩ 42
    [⟨7, 3602879701896397 / 36028797018963968⟩] [] ⟨7, 10⟩
    ⟨[⟨7, "Biberon", 1000, 5573204538870989 / 562949953421312⟩], []⟩
    100 [⟨7, "Biberon", 3602879701896397 / 36028797018963968, 1000, 100⟩]
    rfl rfl (by decide!)
    (Or.inr ⟨⟨7, "Biberon", 1000, 5573204538870989 / 562949953421312⟩, by decide!,
      by decide!⟩)

/-- C28. If no product has a negative stock before `POST /api/commandes`, none has
one after it, whatever the request, however the handler ends and whatever the
subtraction of the language rounds to: a stock is only saved after it was found
not lower than the quantity taken from it, looked up again for each item, and the
schema refuses to save a negative one. -/
theorem postCommande_stock_nonneg (arith : Arith) (numberText : ℚ → String)
    (populate : Bool) (newId : Nat) (db : Store)
    (request : OrderRequest) (h : ∀ product ∈ db.products, 0 ≤ product.stock) :
    ∀ product ∈ (postCommande arith numberText populate newId db request).2.products,
      0 ≤ product.stock := by
  rcases request_cases request with hinv | ⟨userId, items, hu, hp, hne⟩
  · rw [postCommande_invalid arith numberText populate newId db request hinv]
    exact h
  · rw [postCommande_eq arith numberText populate newId db request userId items hu hp hne]
    have hn := orderLoop_stock_nonneg arith numberText items db 0 [] h
    cases hloop : orderLoop arith numberText db items 0 [] with
    | rejected reply db1 =>
      rw [hloop] at hn
      exact hn
    | completed db1 total1 lines1 =>
      rw [hloop] at hn
      simp only
      by_cases hv : validCommande total1 lines1 = true
      · rw [if_pos hv]
        exact hn
      · rw [if_neg hv]
        exact hn

/-- C28, in double precision, at a request asking twice for two units of a
product that has three. -/
theorem postCommande_stock_nonneg_witness :
    (∀ product ∈ (⟨[⟨7, "Biberon", 1000, 3⟩], []⟩ : Store).products, 0 ≤ product.stock)
      ∧ ∀ product ∈ (postCommande double (fun _ => "") true 1
          ⟨[⟨7, "Biberon", 1000, 3⟩], []⟩
          ⟨some 42, some [⟨7, 2⟩, ⟨7, 2⟩]⟩).2.products, 0 ≤ product.stock :=
  ⟨by simp, postCommande_stock_nonneg double (fun _ => "") true 1
    ⟨[⟨7, "Biberon", 1000, 3⟩], []⟩
    ⟨some 42, some [⟨7, 2⟩, ⟨7, 2⟩]⟩ (by simp)⟩

/-- C25, as stated, fails at an analysis whose part name is `C++ kit`: the final
tokens are `c++` and `kit`, `new RegExp('c++', 'i')` throws a `SyntaxError`
(nothing to repeat), and the function throws before any query instead of
returning products. The parameter `validPattern` rejects that one pattern here. -/
theorem internalFindMatchingProducts_spec_counterexample :
    finalTokens (fun s => String.mk (s.data.map Char.toLower))
        ⟨.string "C++ kit", .null, .null, .undefined, none⟩ = ["c++", "kit"]
      ∧ internalFindMatchingProducts (fun s => String.mk (s.data.map Char.toLower)) none
          (fun t => decide (t ≠ "c++"))
          (fun _ => .ok [⟨2, some "C++ starter kit", 20, 2, []⟩])
          ⟨.string "C++ kit", .null, .null, .undefined, none⟩ ⟨none, none, "localhost"⟩
        = (.error (.syntaxError "c++"), []) :=
  ⟨by decide, rfl⟩

/-- C25. The tokens of an analysis are the words (split at spaces) of its
lower-cased part names, its lower-cased keywords, brand and serial number, each a
non-empty string, without repetition; the final tokens are those longer than two
UTF-16 units, in the same order. The function `internalFindMatchingProducts`
returns the empty list and sends no query when no token is longer than two
units. Otherwise, when every final token is accepted by `new RegExp` and the
query answers with the candidate products, it returns at most 5 of them (5, or
all when there are fewer), ordered by non-increasing `similarityScore`, each with
the score `scoreSum`: the sum over the final tokens of 2 when the token occurs in
the lower-cased name, plus 5 when the detected brand occurs in it, plus 10 when
the serial number does. -/
theorem internalFindMatchingProducts_spec (toLowerCase : String → String)
    (nodeEnv : Option String) (validPattern : String → Bool)
    (find : List String → Except MatchError (List FoundProduct))
    (analysis : Analysis) (request : MatchRequest) :
    (∀ t, t ∈ collectTokens toLowerCase analysis ↔
        (∃ s, truthyString analysis.partNameEn = some s ∧ t ∈ splitSpaces (toLowerCase s))
          ∨ (∃ s, truthyString analysis.partNameFr = some s
              ∧ t ∈ splitSpaces (toLowerCase s))
          ∨ (∃ ks, analysis.keywords = some ks
              ∧ ∃ k ∈ ks, ∃ s, truthyString k = some s ∧ t = toLowerCase s)
          ∨ (∃ s, truthyString analysis.brandDetected = some s ∧ t = toLowerCase s)
          ∨ (∃ s, truthyString analysis.serialNumber = some s ∧ t = toLowerCase s))
      ∧ (∀ (v : JsVal) (s : String), truthyString v = some s ↔ v = .string s ∧ s ≠ "")
      ∧ (collectTokens toLowerCase analysis).Nodup
      ∧ finalTokens toLowerCase analysis
        = (collectTokens toLowerCase analysis).filter (fun t => decide (2 < jsLength t))
      ∧ (∀ t, t ∈ finalTokens toLowerCase analysis
          ↔ t ∈ collectTokens toLowerCase analysis ∧ 2 < jsLength t)
      ∧ ((∀ t ∈ collectTokens toLowerCase analysis, jsLength t ≤ 2) →
        internalFindMatchingProducts toLowerCase nodeEnv validPattern find analysis request
          = (.ok [], []))
      ∧ ∀ candidates : List FoundProduct,
          (∃ t ∈ collectTokens toLowerCase analysis, 2 < jsLength t) →
          (∀ t ∈ finalTokens toLowerCase analysis, validPattern t = true) →
          find (finalTokens toLowerCase analysis) = .ok candidates →
          ∃ result : List ScoredProduct,
            internalFindMatchingProducts toLowerCase nodeEnv validPattern find analysis
                request
              = (.ok result, [finalTokens toLowerCase analysis])
            ∧ result.length ≤ 5
            ∧ result.length = min 5 candidates.length
            ∧ List.Pairwise (fun a b => b.similarityScore ≤ a.similarityScore) result
            ∧ ∀ r ∈ result, r.product ∈ candidates
                ∧ r.similarityScore = scoreSum toLowerCase analysis r.product := by
  refine ⟨mem_collectTokens toLowerCase analysis, truthyString_eq_some,
    collectTokens_nodup toLowerCase analysis, finalTokens_eq_filter toLowerCase analysis,
    mem_finalTokens toLowerCase analysis, ?_, ?_⟩
  · intro hshort
    exact internalFindMatchingProducts_empty toLowerCase nodeEnv validPattern find analysis
      request ((finalTokens_eq_nil_iff toLowerCase analysis).mpr hshort)
  intro candidates hlong hvalid hfind
  have hne : finalTokens toLowerCase analysis ≠ [] := by
    intro hnil
    obtain ⟨t, ht, hlen⟩ := hlong
    have := (finalTokens_eq_nil_iff toLowerCase analysis).mp hnil t ht
    omega
  refine ⟨_, internalFindMatchingProducts_found toLowerCase nodeEnv validPattern find
    analysis request candidates hne hvalid hfind, ?_, ?_, ?_, ?_⟩
  · rw [List.length_take]
    exact Nat.min_le_left _ _
  · rw [List.length_take, List.length_insertionSort, List.length_map]
  · exact (insertionSort_score_sorted _).sublist (List.take_sublist _ _)
  · intro r hr
    have hmem := (List.mem_insertionSort _).mp (List.mem_of_mem_take hr)
    obtain ⟨product, hproduct, rfl⟩ := List.mem_map.mp hmem
    exact ⟨hproduct, scoreOf_eq_scoreSum toLowerCase analysis product⟩

/-- C25, at an analysis that names a brake pad of a detected brand, with one
candidate product: the three final tokens and the brand, met at each of them,
give the score 21; and at an analysis whose words have two letters, where no
query is sent. -/
theorem internalFindMatchingProducts_spec_witness :
    finalTokens (fun s => String.mk (s.data.map Char.toLower))
        ⟨.string "Brake Pad", .null, .string "Bosch", .undefined, none⟩
        = ["brake", "pad", "bosch"]
    ∧ scoreSum (fun s => String.mk (s.data.map Char.toLower))
        ⟨.string "Brake Pad", .null, .string "Bosch", .undefined, none⟩
        ⟨2, some "Bosch Brake Pad", 20, 2, []⟩ = 21
    ∧ internalFindMatchingProducts (fun s => String.mk (s.data.map Char.toLower)) none
        (fun _ => true) (fun _ => .ok [⟨2, some "Bosch Brake Pad", 20, 2, []⟩])
        ⟨.string "Ab Cd", .null, .string "Xy", .undefined, none⟩ ⟨none, none, "localhost"⟩
      = (.ok [], [])
    ∧ ∃ result : List ScoredProduct,
      internalFindMatchingProducts (fun s => String.mk (s.data.map Char.toLower)) none
          (fun _ => true) (fun _ => .ok [⟨2, some "Bosch Brake Pad", 20, 2, []⟩])
          ⟨.string "Brake Pad", .null, .string "Bosch", .undefined, none⟩
          ⟨none, none, "localhost"⟩
        = (.ok result,
            [finalTokens (fun s => String.mk (s.data.map Char.toLower))
              ⟨.string "Brake Pad", .null, .string "Bosch", .undefined, none⟩])
      ∧ result.length ≤ 5
      ∧ result.length = min 5 [(⟨2, some "Bosch Brake Pad", 20, 2, []⟩ : FoundProduct)].length
      ∧ List.Pairwise (fun a b => b.similarityScore ≤ a.similarityScore) result
      ∧ ∀ r ∈ result, r.product ∈ [(⟨2, some "Bosch Brake Pad", 20, 2, []⟩ : FoundProduct)]
          ∧ r.similarityScore
            = scoreSum (fun s => String.mk (s.data.map Char.toLower))
                ⟨.string "Brake Pad", .null, .string "Bosch", .undefined, none⟩ r.product :=
  ⟨by decide, by decide,
    (internalFindMatchingProducts_spec (fun s => String.mk (s.data.map Char.toLower)) none
        (fun _ => true) (fun _ => .ok [⟨2, some "Bosch Brake Pad", 20, 2, []⟩])
        ⟨.string "Ab Cd", .null, .string "Xy", .undefined, none⟩
        ⟨none, none, "localhost"⟩).2.2.2.2.2.1 (by decide),
    (internalFindMatchingProducts_spec (fun s => String.mk (s.data.map Char.toLower)) none
        (fun _ => true) (fun _ => .ok [⟨2, some "Bosch Brake Pad", 20, 2, []⟩])
        ⟨.string "Brake Pad", .null, .string "Bosch", .undefined, none⟩
        ⟨none, none, "localhost"⟩).2.2.2.2.2.2
      [⟨2, some "Bosch Brake Pad", 20, 2, []⟩] ⟨"brake", by decide, by decide⟩
      (fun _ _ => rfl) rfl⟩
